import Mathlib

/-!
# FEBio facet-to-facet sliding contact: a shallow embedding

The definitions below follow `FEBioLib/FEFacet2FacetSliding.cpp` (and the parts of
`FEBio/FEElement.h` it uses) statement by statement; the last part of the definitions follows
`FEShellElement::defgrad` of `FEBio/FEElement.h` and `FEFluidDomain3D::Update` and
`UpdateElementStress` of `FEBioFluid/FEFluidDomain3D.cpp`.

Modelling conventions
* `double` is modelled by exact rationals `ℚ`; `int` by `Int` (no arithmetic that could
  overflow is performed on the integers that appear here).
* `std::vector<T>` is a `List T`; `v[i]` as an r-value is `rd v i` and `v[i] = a` is
  `List.set v i a`.
* A `FESurfaceElement*` is an `Option FESurfaceElement` (the null pointer is `none`).
  Surface elements are never modified by the contact code, so the pointed-to element is
  represented by its value.
* Member functions of classes that are not part of the sources at hand (`FESurface`,
  `FEContactSurface`, `FEMesh`, the math library) are fields of the structure `Env`;
  every theorem holds for all values of these fields.
* Function-level `static` variables are fields of the structure `Statics`, which is threaded
  through the functions that declare them.
* Log output (`clog.printf`, `clog.printbox`, `felog`) is not modelled.
* A function that can throw returns the state it leaves behind together with the exception,
  if one was thrown.
-/

namespace FEBio

/-! ## Scalars, vectors -/

/-- Modelled from the spec: the macro `MBRACKET` is used by the contact code but defined in a
header that is not among the sources; the specification describes the traction as
`tn = max(0, multiplier + penalty·g)`, a compression-only clamp. -/
def MBRACKET (x : ℚ) : ℚ := max 0 x

/-- Modelled from the spec: the macro `HEAVYSIDE` is defined in a header that is not among the
sources; the specification describes the factor as the derivative of the clamp, "Heaviside-gated
on `tn>0`". -/
def HEAVYSIDE (x : ℚ) : ℚ := if 0 < x then 1 else 0

/-- The class `vec3d`; the default constructor gives the zero vector. -/
structure vec3d where
  x : ℚ
  y : ℚ
  z : ℚ
deriving DecidableEq, Repr

/-- The class `vec2d` (components `[0]` and `[1]`). -/
structure vec2d where
  r : ℚ
  s : ℚ
deriving DecidableEq, Repr

namespace vec3d

/-- Default-constructed `vec3d`. -/
def zero : vec3d := ⟨0, 0, 0⟩

/-- Vector sum, `operator +`. -/
def add (a b : vec3d) : vec3d := ⟨a.x + b.x, a.y + b.y, a.z + b.z⟩

/-- Vector difference, `operator -`. -/
def sub (a b : vec3d) : vec3d := ⟨a.x - b.x, a.y - b.y, a.z - b.z⟩

/-- Unary minus. -/
def neg (a : vec3d) : vec3d := ⟨-a.x, -a.y, -a.z⟩

/-- Product with a scalar, `vec3d * double`. -/
def smul (a : vec3d) (g : ℚ) : vec3d := ⟨a.x * g, a.y * g, a.z * g⟩

/-- Dot product, `vec3d * vec3d`. -/
def dot (a b : vec3d) : ℚ := a.x * b.x + a.y * b.y + a.z * b.z

/-- Cross product, `vec3d ^ vec3d`. -/
def cross (a b : vec3d) : vec3d :=
  ⟨a.y * b.z - a.z * b.y, a.z * b.x - a.x * b.z, a.x * b.y - a.y * b.x⟩

end vec3d

instance : Inhabited vec3d := ⟨vec3d.zero⟩
instance : Inhabited vec2d := ⟨⟨0, 0⟩⟩

/-- Reading `v[i]` from a vector or C array. An index outside the vector (undefined behaviour
in the source) reads the default value of the element type. -/
def rd {α : Type} [Inhabited α] (v : List α) (i : Nat) : α := v.getD i default

/-! ## Mesh and surface elements -/

/-- A mesh node: reference position `m_r0` and current position `m_rt`. -/
structure FENode where
  m_r0 : vec3d
  m_rt : vec3d
deriving DecidableEq, Repr

instance : Inhabited FENode := ⟨⟨vec3d.zero, vec3d.zero⟩⟩

/-- The part of `FEMesh` the contact code reads: the node table. -/
structure FEMesh where
  m_Node : List FENode
deriving DecidableEq, Repr

/-- The call `mesh.Node(i)`. -/
def FEMesh.Node (m : FEMesh) (i : Nat) : FENode := rd m.m_Node i

/-- The class `FESurfaceElement` together with the element traits `m_pT` it points to
(`neln`, `nint`, the shape function tables `H`, `Gr`, `Gs`, the Gauss weights `gw` and the
projection matrix `Hi`). -/
structure FESurfaceElement where
  m_lid : Int
  m_nelem : Int
  m_node : List Nat
  neln : Nat
  nint : Nat
  H : List (List ℚ)
  Gr : List (List ℚ)
  Gs : List (List ℚ)
  gw : List ℚ
  Hi : List (List ℚ)
deriving DecidableEq, Repr

namespace FESurfaceElement

/-- The call `el.Nodes()`. -/
def Nodes (el : FESurfaceElement) : Nat := el.neln

/-- The call `el.GaussPoints()`. -/
def GaussPoints (el : FESurfaceElement) : Nat := el.nint

/-- The function `FESurfaceElement::shape_fnc`. The result holds the entries the function
writes; for a node count other than 3 or 4 the source writes nothing (`assert(false)`). -/
def shape_fnc (el : FESurfaceElement) (r s : ℚ) : List ℚ :=
  if el.Nodes = 4 then
    [(1/4) * (1 - r) * (1 - s), (1/4) * (1 + r) * (1 - s),
     (1/4) * (1 + r) * (1 + s), (1/4) * (1 - r) * (1 + s)]
  else if el.Nodes = 3 then
    [1 - r - s, r, s]
  else []

/-- The function `FESurfaceElement::shape_deriv`, returning `(Gr, Gs)`. -/
def shape_deriv (el : FESurfaceElement) (r s : ℚ) : List ℚ × List ℚ :=
  if el.Nodes = 4 then
    ([-(1/4) * (1 - s), (1/4) * (1 - s), (1/4) * (1 + s), -(1/4) * (1 + s)],
     [-(1/4) * (1 - r), -(1/4) * (1 + r), (1/4) * (1 + r), (1/4) * (1 - r)])
  else if el.Nodes = 3 then
    ([-1, 1, 0], [-1, 0, 1])
  else ([], [])

/-- The function `FESurfaceElement::project_to_nodes`: `ao[i] = Σ_j Hi[i][j]*ai[j]`. -/
def project_to_nodes (el : FESurfaceElement) (ai : List ℚ) : List ℚ :=
  (List.range el.Nodes).map fun i =>
    (List.range el.GaussPoints).foldl (fun a j => a + rd (rd el.Hi i) j * rd ai j) 0

/-- The function `FESurfaceElement::eval(double* d, double r, double s)`. -/
def eval (el : FESurfaceElement) (d : List ℚ) (r s : ℚ) : ℚ :=
  let H := el.shape_fnc r s
  (List.range el.Nodes).foldl (fun a i => a + rd H i * rd d i) 0

end FESurfaceElement

instance : Inhabited FESurfaceElement := ⟨⟨-1, -1, [], 0, 0, [], [], [], [], []⟩⟩

/-! ## The contact surface -/

/-- The class `FEFacetSlidingSurface`: the surface elements and the per-integration-point
contact data. -/
structure FEFacetSlidingSurface where
  m_el : List FESurfaceElement
  m_gap : List ℚ
  m_nu : List vec3d
  m_rs : List vec2d
  m_Lm : List ℚ
  m_pme : List (Option FESurfaceElement)
  m_eps : List ℚ
  m_Ln : List ℚ
  m_nei : List Int
deriving DecidableEq, Repr

namespace FEFacetSlidingSurface

/-- The call `s.Elements()`. -/
def Elements (s : FEFacetSlidingSurface) : Nat := s.m_el.length

/-- The call `s.Element(i)`. -/
def Element (s : FEFacetSlidingSurface) (i : Nat) : FESurfaceElement := rd s.m_el i

/-- Total number of integration points of the surface (the value `nint` that `Init` uses to
size the per-point arrays). -/
def npoints (s : FEFacetSlidingSurface) : Nat := (s.m_el.map FESurfaceElement.GaussPoints).sum

/-- The per-point arrays have the size `Init` gives them. -/
def Sized (s : FEFacetSlidingSurface) : Prop :=
  s.m_gap.length = s.npoints ∧ s.m_nu.length = s.npoints ∧ s.m_rs.length = s.npoints ∧
  s.m_Lm.length = s.npoints ∧ s.m_pme.length = s.npoints ∧ s.m_eps.length = s.npoints ∧
  s.m_Ln.length = s.npoints

instance (s : FEFacetSlidingSurface) : Decidable s.Sized := by
  unfold Sized; infer_instance

end FEFacetSlidingSurface

/-! ## External collaborators -/

/-- Functions the contact code calls that are defined outside the sources at hand. -/
structure Env where
  /-- `m_pfem->GetMesh()`, also `ss.GetMesh()`. -/
  mesh : FEMesh
  /-- `ms.ProjectToSurface(mel, x, r, s)`: returns the projection and the updated `r`, `s`. -/
  ProjectToSurface : FEFacetSlidingSurface → FESurfaceElement → vec3d → ℚ → ℚ → vec3d × ℚ × ℚ
  /-- `ms.IsInsideElement(mel, r, s, tol)`. -/
  IsInsideElement : FEFacetSlidingSurface → FESurfaceElement → ℚ → ℚ → ℚ → Bool
  /-- `ms.ClosestPointProjection(x, q, rs, bfirst, tol)`: returns the face found (or null) and
  the updated `q` and `rs`. -/
  ClosestPointProjection :
    FEFacetSlidingSurface → vec3d → vec3d → vec2d → Bool → ℚ → Option FESurfaceElement × vec3d × vec2d
  /-- `ms.SurfaceNormal(el, r, s)`. -/
  SurfaceNormal : FEFacetSlidingSurface → FESurfaceElement → ℚ → ℚ → vec3d
  /-- `s.FaceArea(el)`. -/
  FaceArea : FEFacetSlidingSurface → FESurfaceElement → ℚ
  /-- `m.ElementVolume(*m.FindElementFromID(el.m_nelem))`. -/
  ElementVolume : Int → ℚ
  /-- `BulkModulus(el, s)`. -/
  BulkModulus : FESurfaceElement → FEFacetSlidingSurface → ℚ
  /-- `s.UnpackLM(el, LM)`. -/
  UnpackLM : FEFacetSlidingSurface → FESurfaceElement → List Int
  /-- `me.shape_deriv2(Grr, Grs, Gss, r, s)`. -/
  shape_deriv2 : FESurfaceElement → ℚ → ℚ → List ℚ × List ℚ × List ℚ
  /-- `m_pfem->GetMesh().GetBoundingBox().radius()`. -/
  radius : ℚ
  /-- The method `mat2d::inverse`, on the entries `(M00, M01, M10, M11)`. -/
  mat2d_inverse : ℚ × ℚ × ℚ × ℚ → ℚ × ℚ × ℚ × ℚ
  /-- The solver's reformation counter `psolver->m_nref`. -/
  m_nref : Int
  /-- The constant `FEElement::MAX_NODES`. -/
  MAX_NODES : Nat
  /-- The library function `sqrt`. -/
  sqrt : ℚ → ℚ
  /-- The library function `exp`. -/
  exp : ℚ → ℚ

/-- The library function `fabs`. -/
def fabs (x : ℚ) : ℚ := if x < 0 then -x else x

/-- The method `vec3d::norm`. -/
def vec3d.norm (env : Env) (a : vec3d) : ℚ := env.sqrt (a.x * a.x + a.y * a.y + a.z * a.z)

/-! ## Iteration over the integration points of a surface

Every function of the contact interface walks over the integration points in the same way:
`for (i < Elements()) for (j < GaussPoints(); ++j, ++ni)`, with a running counter `ni`. -/

/-- The inner loop `for (j=0; j<nint; ++j, ++ni) body`, started at `j`. -/
def gaussLoop {σ : Type} (body : Nat → Nat → σ → σ) : List Nat → Nat → σ → Nat × σ
  | [], ni, st => (ni, st)
  | j :: js, ni, st => gaussLoop body js (ni + 1) (body j ni st)

/-- The nested loop over the elements `els` and their integration points; `body se j ni` is the
loop body for integration point `j` of element `se`, which is point number `ni` of the
surface. Returns the final counter and state. -/
def elemLoop {σ : Type} (body : FESurfaceElement → Nat → Nat → σ → σ) :
    List FESurfaceElement → Nat → σ → Nat × σ
  | [], ni, st => (ni, st)
  | se :: rest, ni, st =>
    let r := gaussLoop (body se) (List.range se.GaussPoints) ni st
    elemLoop body rest r.1 r.2

/-! ## `FEFacet2FacetSliding` -/

/-- The class `FEFacet2FacetSliding`: parameters and the two surfaces. -/
structure FEFacet2FacetSliding where
  m_nID : Int
  m_epsn : ℚ
  m_bautopen : Bool
  m_blaugon : Bool
  m_atol : ℚ
  m_btwo_pass : Bool
  m_gtol : ℚ
  m_naugmin : Int
  m_naugmax : Int
  m_knmult : ℚ
  m_stol : ℚ
  m_srad : ℚ
  m_dxtol : ℚ
  m_mu : ℚ
  m_epsf : ℚ
  m_nsegup : Int
  m_ss : FEFacetSlidingSurface
  m_ms : FEFacetSlidingSurface
deriving DecidableEq, Repr

/-- The function-level `static` variables: `bfirst` of `Update` and `normg0` of `Augment`. -/
structure Statics where
  Update_bfirst : Bool
  Augment_normg0 : ℚ
deriving DecidableEq, Repr

/-- Values of the statics at program start. -/
def Statics.init : Statics := ⟨true, 0⟩

/-! ### `ProjectSurface` -/

/-- Loop-carried state of `ProjectSurface`: the surface being projected and the local
`bfirst`. -/
structure ProjState where
  ss : FEFacetSlidingSurface
  bfirst : Bool
deriving DecidableEq, Repr

/-- Position of integration point `j` of slave element `se`:
`x = Σ_k re[k]*H[k]` with `re[l] = Node(se.m_node[l]).m_rt`. -/
def gaussPosition (env : Env) (se : FESurfaceElement) (j : Nat) : vec3d :=
  (List.range se.Nodes).foldl
    (fun x k => x.add ((env.mesh.Node (rd se.m_node k)).m_rt.smul (rd (rd se.H j) k)))
    vec3d.zero

/-- The block `ss.m_rs[ni] = vec2d(0,0); pme = ms.ClosestPointProjection(...); bfirst = false;
ss.m_pme[ni] = pme;` which occurs twice in `ProjectSurface`. Returns the new state and `q`. -/
def ProjectSurface_search (env : Env) (m_stol : ℚ) (ms : FEFacetSlidingSurface)
    (x q : vec3d) (ni : Nat) (st : ProjState) : ProjState × vec3d :=
  let ss1 := { st.ss with m_rs := st.ss.m_rs.set ni ⟨0, 0⟩ }
  let res := env.ClosestPointProjection ms x q (rd ss1.m_rs ni) st.bfirst m_stol
  ({ ss := { ss1 with m_rs := ss1.m_rs.set ni res.2.2, m_pme := ss1.m_pme.set ni res.1 },
     bfirst := false }, res.2.1)

/-- First conditional of the loop body, `if (ss.m_pme[ni]) { ... }`. -/
def ProjectSurface_refine (env : Env) (m_stol : ℚ) (ms : FEFacetSlidingSurface) (bsegup : Bool)
    (x : vec3d) (ni : Nat) (st : ProjState) : ProjState × vec3d :=
  match rd st.ss.m_pme ni with
  | some mel =>
    let p := env.ProjectToSurface ms mel x (rd st.ss.m_rs ni).r (rd st.ss.m_rs ni).s
    let q := p.1
    let st1 : ProjState :=
      { st with ss := { st.ss with m_rs := st.ss.m_rs.set ni ⟨p.2.1, p.2.2⟩ } }
    if bsegup && !(env.IsInsideElement ms mel (rd st1.ss.m_rs ni).r (rd st1.ss.m_rs ni).s m_stol)
    then ProjectSurface_search env m_stol ms x q ni st1
    else (st1, q)
  | none => (st, vec3d.zero)

/-- Second conditional of the loop body, `if (bsegup) { ... }`. -/
def ProjectSurface_segup (env : Env) (m_stol : ℚ) (ms : FEFacetSlidingSurface) (bsegup : Bool)
    (x : vec3d) (ni : Nat) (p : ProjState × vec3d) : ProjState × vec3d :=
  if bsegup then ProjectSurface_search env m_stol ms x p.2 ni p.1 else p

/-- The gap formula of the source, `-ss.m_nu[ni]*(x - q)`. -/
def gapFunction (nu x q : vec3d) : ℚ := (nu.neg).dot (x.sub q)

/-- Last conditional of the loop body: update normal and gap, or clear gap and multiplier. -/
def ProjectSurface_gap (env : Env) (ms : FEFacetSlidingSurface) (x : vec3d) (ni : Nat)
    (p : ProjState × vec3d) : ProjState :=
  let ss := p.1.ss
  match rd ss.m_pme ni with
  | some me =>
    let r := (rd ss.m_rs ni).r
    let s := (rd ss.m_rs ni).s
    let ss1 := { ss with m_nu := ss.m_nu.set ni (env.SurfaceNormal ms me r s) }
    { p.1 with ss := { ss1 with m_gap := ss1.m_gap.set ni (gapFunction (rd ss1.m_nu ni) x p.2) } }
  | none =>
    let ss1 := { ss with m_gap := ss.m_gap.set ni 0 }
    { p.1 with ss := { ss1 with m_Lm := ss1.m_Lm.set ni 0 } }

/-- State of point `ni` after the two projection conditionals, together with the projection
`q`. -/
def ProjectSurface_project (env : Env) (m_stol : ℚ) (ms : FEFacetSlidingSurface) (bsegup : Bool)
    (x : vec3d) (ni : Nat) (st : ProjState) : ProjState × vec3d :=
  ProjectSurface_segup env m_stol ms bsegup x ni
    (ProjectSurface_refine env m_stol ms bsegup x ni st)

/-- Body of the loop over the integration points in `ProjectSurface`. -/
def ProjectSurface_point (env : Env) (m_stol : ℚ) (ms : FEFacetSlidingSurface) (bsegup : Bool)
    (se : FESurfaceElement) (j ni : Nat) (st : ProjState) : ProjState :=
  let x := gaussPosition env se j
  ProjectSurface_gap env ms x ni (ProjectSurface_project env m_stol ms bsegup x ni st)

/-- The function `FEFacet2FacetSliding::ProjectSurface(ss, ms, bsegup)`; returns the updated
`ss`. -/
def ProjectSurface (env : Env) (m_stol : ℚ) (ss ms : FEFacetSlidingSurface) (bsegup : Bool) :
    FEFacetSlidingSurface :=
  (elemLoop (ProjectSurface_point env m_stol ms bsegup) ss.m_el 0 ⟨ss, true⟩).2.ss

/-! ### `CalcAutoPenalty` -/

/-- The loop over the surface elements in `CalcAutoPenalty`, with the running counter `ni`. -/
def CalcAutoPenalty_elems (env : Env) :
    List FESurfaceElement → Nat → FEFacetSlidingSurface → Nat × FEFacetSlidingSurface
  | [], ni, s => (ni, s)
  | el :: rest, ni, s =>
    let A := env.FaceArea s el
    let V := env.ElementVolume el.m_nelem
    let K := env.BulkModulus el s
    let eps := K * A / V
    let r := gaussLoop (fun _ n (t : FEFacetSlidingSurface) => { t with m_eps := t.m_eps.set n eps })
      (List.range el.GaussPoints) ni s
    CalcAutoPenalty_elems env rest r.1 r.2

/-- The function `FEFacet2FacetSliding::CalcAutoPenalty(s)`. -/
def CalcAutoPenalty (env : Env) (s : FEFacetSlidingSurface) : FEFacetSlidingSurface :=
  (CalcAutoPenalty_elems env s.m_el 0 s).2

/-! ### `Activate` -/

/-- The function `FEFacet2FacetSliding::Activate`. The call of the base class
`FEContactInterface::Activate()` touches no member modelled here. -/
def Activate (env : Env) (ci : FEFacet2FacetSliding) : FEFacet2FacetSliding :=
  let ci1 := if ci.m_bautopen then { ci with m_ss := CalcAutoPenalty env ci.m_ss } else ci
  let ci2 := { ci1 with m_ss := ProjectSurface env ci1.m_stol ci1.m_ss ci1.m_ms true }
  let ci3 :=
    if ci2.m_btwo_pass then
      let c := { ci2 with m_ms := ProjectSurface env ci2.m_stol ci2.m_ms ci2.m_ss true }
      if c.m_bautopen then { c with m_ms := CalcAutoPenalty env c.m_ms } else c
    else ci2
  if ci3.m_mu ≠ 0 ∨ ci3.m_epsf ≠ 0 then { ci3 with m_mu := 0, m_epsf := 0 } else ci3

/-! ### `UpdateContactPressures` -/

/-- The contact traction `tn = Lm + eps*g; tn = MBRACKET(tn)` at integration point `ni` of the
surface `ss`, with `eps = m_epsn*ss.m_eps[ni]`. -/
def contactTraction (m_epsn : ℚ) (ss : FEFacetSlidingSurface) (ni : Nat) : ℚ :=
  let g := rd ss.m_gap ni
  let Lm := rd ss.m_Lm ni
  let eps := m_epsn * rd ss.m_eps ni
  MBRACKET (Lm + eps * g)

/-- The array `ti` of `UpdateContactPressures`: the tractions at the integration points of the
opposing face `pme`, `ti[j] = MBRACKET(ms.m_Lm[k] + m_epsn*ms.m_eps[k]*ms.m_gap[k])`. -/
def opposingTractions (m_epsn : ℚ) (ms : FEFacetSlidingSurface) (pme : FESurfaceElement) :
    List ℚ :=
  let noff := rd ms.m_nei pme.m_lid.toNat
  (List.range pme.GaussPoints).map fun j =>
    let k := (noff + (j : Int)).toNat
    MBRACKET (rd ms.m_Lm k + m_epsn * rd ms.m_eps k * rd ms.m_gap k)

/-- Body of the loop over the integration points in `UpdateContactPressures`. -/
def UpdateContactPressures_point (m_epsn : ℚ) (m_btwo_pass : Bool) (ms : FEFacetSlidingSurface)
    (_se : FESurfaceElement) (_i ni : Nat) (ss : FEFacetSlidingSurface) : FEFacetSlidingSurface :=
  let gap := rd ss.m_gap ni
  let eps := m_epsn * rd ss.m_eps ni
  let ss1 := { ss with m_Ln := ss.m_Ln.set ni (MBRACKET (rd ss.m_Lm ni + eps * gap)) }
  match m_btwo_pass, rd ss1.m_pme ni with
  | true, some pme =>
    let ti := opposingTractions m_epsn ms pme
    let tn := pme.project_to_nodes ti
    let Ln := pme.eval tn (rd ss1.m_rs ni).r (rd ss1.m_rs ni).s
    { ss1 with m_Ln := ss1.m_Ln.set ni (rd ss1.m_Ln ni + MBRACKET Ln) }
  | _, _ => ss1

/-- One pass (`np` fixed) of `UpdateContactPressures` over the surface `ss`. -/
def UpdateContactPressures_pass (m_epsn : ℚ) (m_btwo_pass : Bool)
    (ss ms : FEFacetSlidingSurface) : FEFacetSlidingSurface :=
  (elemLoop (UpdateContactPressures_point m_epsn m_btwo_pass ms) ss.m_el 0 ss).2

/-- The function `FEFacet2FacetSliding::UpdateContactPressures`. -/
def UpdateContactPressures (ci : FEFacet2FacetSliding) : FEFacet2FacetSliding :=
  let ci1 := { ci with m_ss := UpdateContactPressures_pass ci.m_epsn ci.m_btwo_pass ci.m_ss ci.m_ms }
  if ci1.m_btwo_pass then
    { ci1 with m_ms := UpdateContactPressures_pass ci1.m_epsn ci1.m_btwo_pass ci1.m_ms ci1.m_ss }
  else ci1

/-! ### `Update` -/

/-- The flag `bupdate` of `Update`:
`(bfirst || (m_nsegup == 0)? true : (niter <= m_nsegup))`. -/
def Update_bupdate (bfirst : Bool) (m_nsegup niter : Int) : Bool :=
  if bfirst || (m_nsegup == 0) then true else decide (niter ≤ m_nsegup)

/-- The function `FEFacet2FacetSliding::Update(niter)`. -/
def Update (env : Env) (g : Statics) (ci : FEFacet2FacetSliding) (niter : Int) :
    Statics × FEFacet2FacetSliding :=
  let bupdate := Update_bupdate g.Update_bfirst ci.m_nsegup niter
  let ci1 := { ci with m_ss := ProjectSurface env ci.m_stol ci.m_ss ci.m_ms bupdate }
  let ci2 :=
    if ci1.m_btwo_pass then
      { ci1 with m_ms := ProjectSurface env ci1.m_stol ci1.m_ms ci1.m_ss bupdate }
    else ci1
  ({ g with Update_bfirst := false }, UpdateContactPressures ci2)

/-! ### `ContactForces` -/

/-- One call `R.Assemble(en, LM, fe)` (or `psolver->AssembleStiffness(en, LM, ke)` when the
payload is a matrix): the global vector and matrix are external, so the model records the
sequence of calls. -/
structure Assembly (β : Type) where
  en : List Nat
  LM : List Int
  val : β

/-- Jacobian `detJ[j] = (dxr ^ dxs).norm()` of integration point `j` of `se`, with
`dxr = Σ_k Gr[k]*r0[k]`, `dxs = Σ_k Gs[k]*r0[k]` over the reference positions. -/
def detJ (env : Env) (se : FESurfaceElement) (j : Nat) : ℚ :=
  let r0 := fun k => (env.mesh.Node (rd se.m_node k)).m_r0
  let dxr := (List.range se.Nodes).foldl (fun (d : vec3d) k =>
    ⟨d.x + rd (rd se.Gr j) k * (r0 k).x, d.y + rd (rd se.Gr j) k * (r0 k).y,
     d.z + rd (rd se.Gr j) k * (r0 k).z⟩) vec3d.zero
  let dxs := (List.range se.Nodes).foldl (fun (d : vec3d) k =>
    ⟨d.x + rd (rd se.Gs j) k * (r0 k).x, d.y + rd (rd se.Gs j) k * (r0 k).y,
     d.z + rd (rd se.Gs j) k * (r0 k).z⟩) vec3d.zero
  (dxr.cross dxs).norm env

/-- Component `c` (0, 1, 2) of a vector. -/
def vec3d.comp (a : vec3d) (c : Nat) : ℚ := if c = 0 then a.x else if c = 1 then a.y else a.z

/-- The `LM` vector of a slave/master element pair: the slave equation numbers followed by the
master equation numbers. -/
def buildLM (sLM mLM : List Int) (nseln nmeln : Nat) : List Int :=
  (List.range (3 * (nseln + nmeln))).map fun i =>
    if i < 3 * nseln then rd sLM i else rd mLM (i - 3 * nseln)

/-- The `en` vector: slave nodes followed by master nodes. -/
def buildEN (se me : FESurfaceElement) : List Nat :=
  (List.range (se.Nodes + me.Nodes)).map fun k =>
    if k < se.Nodes then rd se.m_node k else rd me.m_node (k - se.Nodes)

/-- A vector of `3*(nseln+nmeln)` entries of the shape used for `fe`, `N`, `T1`, `T2`:
entries `3k+c` are `Hs[k]*v.c` for slave node `k` and entries `3(k+nseln)+c` are `-Hm[k]*v.c`
for master node `k`. -/
def shapeVector (Hs Hm : List ℚ) (nseln nmeln : Nat) (v : vec3d) : List ℚ :=
  (List.range (3 * (nseln + nmeln))).map fun i =>
    if i < 3 * nseln then rd Hs (i / 3) * v.comp (i % 3)
    else -(rd Hm (i / 3 - nseln)) * v.comp (i % 3)

/-- Body of the loop over the integration points in `ContactForces`: the element force vector
of point `ni` is appended to the calls of `R.Assemble` when the point has a master element. -/
def ContactForces_point (env : Env) (m_epsn : ℚ) (ss ms : FEFacetSlidingSurface)
    (se : FESurfaceElement) (j ni : Nat) (R : List (Assembly (List ℚ))) :
    List (Assembly (List ℚ)) :=
  match rd ss.m_pme ni with
  | some me =>
    let nseln := se.Nodes
    let nmeln := me.Nodes
    let sLM := env.UnpackLM ss se
    let mLM := env.UnpackLM ms me
    let LM := buildLM sLM mLM nseln nmeln
    let en := buildEN se me
    let Hs := rd se.H j
    let r := (rd ss.m_rs ni).r
    let s := (rd ss.m_rs ni).s
    let Hm := me.shape_fnc r s
    let nu := rd ss.m_nu ni
    let tn := contactTraction m_epsn ss ni
    let fe := (shapeVector Hs Hm nseln nmeln nu).map fun f => f * (tn * detJ env se j * rd se.gw j)
    R ++ [⟨en, LM, fe⟩]
  | none => R

/-- The function `FEFacet2FacetSliding::ContactForces(R)`: returns the interface (which the
function does not write) and the calls of `R.Assemble` in order. -/
def ContactForces (env : Env) (ci : FEFacet2FacetSliding) :
    FEFacet2FacetSliding × List (Assembly (List ℚ)) :=
  let R0 := (elemLoop (ContactForces_point env ci.m_epsn ci.m_ss ci.m_ms) ci.m_ss.m_el 0 []).2
  let R1 :=
    if ci.m_btwo_pass then
      (elemLoop (ContactForces_point env ci.m_epsn ci.m_ms ci.m_ss) ci.m_ms.m_el 0 R0).2
    else R0
  (ci, R1)

/-! ### `ContactStiffness` -/

/-- The conversion `int(x)` of a `double`: truncation toward zero. -/
def truncToInt (x : ℚ) : Int := if 0 ≤ x then Rat.floor x else Rat.ceil x

/-- The higher order stiffness multiplier `knmult` computed at the start of
`ContactStiffness`. -/
def ContactStiffness_knmult (m_knmult : ℚ) (nref : Int) : ℚ :=
  if m_knmult < 0 then
    let ni := truncToInt (-m_knmult)
    if nref ≥ ni then 1 else 0
  else m_knmult

/-- The coefficient `dtn` of the first order term, including the buffer layer for penalty
insertion. -/
def ContactStiffness_dtn (env : Env) (eps Lm g dxtol : ℚ) : ℚ :=
  let dtn := eps * HEAVYSIDE (Lm + eps * g)
  if dtn < 1 / 10000000 ∧ g < 0 ∧ dxtol ≠ 0 then
    if dxtol < 0 then eps * env.exp (-g / dxtol)
    else if -g ≤ dxtol then eps * (1 + g / dxtol)
    else dtn
  else dtn

/-- The loop `for (k<nmeln) { N1[(k+nseln)*3+c] = -Hmr[k]*nu.c; }` (also used for `N2` with
`Hms`), writing into the array `N1` that lives for the whole call of `ContactStiffness`. -/
def setMasterEntries (N1 : List ℚ) (Hmr : List ℚ) (nseln nmeln : Nat) (nu : vec3d) : List ℚ :=
  (List.range nmeln).foldl (fun a k =>
    ((a.set ((k + nseln) * 3) (-(rd Hmr k) * nu.x)).set ((k + nseln) * 3 + 1)
      (-(rd Hmr k) * nu.y)).set ((k + nseln) * 3 + 2) (-(rd Hmr k) * nu.z)) N1

/-- Loop-carried state of `ContactStiffness`: the arrays `N1`, `N2` (declared and zeroed once,
at the start of the function) and the calls of `psolver->AssembleStiffness`. -/
structure StiffState where
  N1 : List ℚ
  N2 : List ℚ
  K : List (Assembly (List (List ℚ)))

/-- The higher order terms `tn*D(dg)` of point `ni`: returns the updated `N1`, `N2` and the
matrix that is added to `ke` (entry `k`, `l` is `sum*detJ[j]*w[j]`). -/
def ContactStiffness_higher (env : Env) (se me : FESurfaceElement) (j : Nat) (r s : ℚ) (nu : vec3d) (g tn knmult : ℚ) (Hs Hm : List ℚ) (N1 N2 : List ℚ) :
    List ℚ × List ℚ × List (List ℚ) :=
  let nseln := se.Nodes
  let nmeln := me.Nodes
  let ndof := 3 * (nseln + nmeln)
  let Hmr := (me.shape_deriv r s).1
  let Hms := (me.shape_deriv r s).2
  let rt := fun k => (env.mesh.Node (rd me.m_node k)).m_rt
  let tau1 := (List.range nmeln).foldl (fun (t : vec3d) k =>
    ⟨t.x + rd Hmr k * (rt k).x, t.y + rd Hmr k * (rt k).y, t.z + rd Hmr k * (rt k).z⟩) vec3d.zero
  let tau2 := (List.range nmeln).foldl (fun (t : vec3d) k =>
    ⟨t.x + rd Hms k * (rt k).x, t.y + rd Hms k * (rt k).y, t.z + rd Hms k * (rt k).z⟩) vec3d.zero
  let T1 := shapeVector Hs Hm nseln nmeln tau1
  let T2 := shapeVector Hs Hm nseln nmeln tau2
  let N1a := setMasterEntries N1 Hmr nseln nmeln nu
  let N2a := setMasterEntries N2 Hms nseln nmeln nu
  let M00 := tau1.dot tau1
  let M01 := tau1.dot tau2
  let M10 := tau2.dot tau1
  let M11 := tau2.dot tau2
  let Mi := env.mat2d_inverse (M00, M01, M10, M11)
  let Mi00 := Mi.1
  let Mi01 := Mi.2.1
  let Mi11 := Mi.2.2.2
  let d2 := env.shape_deriv2 me r s
  let Grr := d2.1
  let Grs := d2.2.1
  let Gss := d2.2.2
  let K00 := (List.range nmeln).foldl (fun a k => a + (nu.dot (rt k)) * rd Grr k) 0
  let K01 := (List.range nmeln).foldl (fun a k => a + (nu.dot (rt k)) * rd Grs k) 0
  let K10 := (List.range nmeln).foldl (fun a k => a + (nu.dot (rt k)) * rd Grs k) 0
  let K11 := (List.range nmeln).foldl (fun a k => a + (nu.dot (rt k)) * rd Gss k) 0
  let A00 := M00 + g * K00
  let A01 := M01 + g * K01
  let A10 := M10 + g * K10
  let A11 := M11 + g * K11
  let detA := A00 * A11 - A01 * A10
  let D1 := (List.range ndof).map fun k =>
    (1 / detA) * (A11 * (rd T1 k + g * rd N1a k) - A01 * (rd T2 k + g * rd N2a k))
  let D2 := (List.range ndof).map fun k =>
    (1 / detA) * (A00 * (rd T2 k + g * rd N2a k) - A01 * (rd T1 k + g * rd N1a k))
  let Nb1 := (List.range ndof).map fun k => rd N1a k - K01 * rd D2 k
  let Nb2 := (List.range ndof).map fun k => rd N2a k - K01 * rd D1 k
  let hi := (List.range ndof).map fun k => (List.range ndof).map fun l =>
    let sum0 := Mi00 * rd Nb1 k * rd Nb1 l + Mi01 * (rd Nb1 k * rd Nb2 l + rd Nb2 k * rd Nb1 l)
      + Mi11 * rd Nb2 k * rd Nb2 l
    let sum1 := sum0 * g
    let sum2 := sum1 - (rd D1 k * rd N1a l + rd D2 k * rd N2a l + rd N1a k * rd D1 l
      + rd N2a k * rd D2 l)
    let sum3 := sum2 + K01 * (rd D1 k * rd D2 l + rd D2 k * rd D1 l)
    let sum4 := sum3 * (tn * knmult)
    sum4 * detJ env se j * rd se.gw j
  (N1a, N2a, hi)

/-- Body of the loop over the integration points in `ContactStiffness`. -/
def ContactStiffness_point (env : Env) (m_epsn dxtol knmult : ℚ) (ss ms : FEFacetSlidingSurface)
    (se : FESurfaceElement) (j ni : Nat) (st : StiffState) : StiffState :=
  match rd ss.m_pme ni with
  | some me =>
    let nseln := se.Nodes
    let nmeln := me.Nodes
    let ndof := 3 * (nseln + nmeln)
    let sLM := env.UnpackLM ss se
    let mLM := env.UnpackLM ms me
    let LM := buildLM sLM mLM nseln nmeln
    let en := buildEN se me
    let Hs := rd se.H j
    let r := (rd ss.m_rs ni).r
    let s := (rd ss.m_rs ni).s
    let Hm := me.shape_fnc r s
    let nu := rd ss.m_nu ni
    let g := rd ss.m_gap ni
    let Lm := rd ss.m_Lm ni
    let eps := m_epsn * rd ss.m_eps ni
    let tn := contactTraction m_epsn ss ni
    let dtn := ContactStiffness_dtn env eps Lm g dxtol
    let N := shapeVector Hs Hm nseln nmeln nu
    let ke1 := (List.range ndof).map fun k => (List.range ndof).map fun l =>
      dtn * rd N k * rd N l * detJ env se j * rd se.gw j
    if knmult > 0 then
      let h := ContactStiffness_higher env se me j r s nu g tn knmult Hs Hm st.N1 st.N2
      let ke := (List.range ndof).map fun k => (List.range ndof).map fun l =>
        rd (rd ke1 k) l + rd (rd h.2.2 k) l
      { N1 := h.1, N2 := h.2.1, K := st.K ++ [⟨en, LM, ke⟩] }
    else
      { st with K := st.K ++ [⟨en, LM, ke1⟩] }
  | none => st

/-- The function `FEFacet2FacetSliding::ContactStiffness(psolver)`: returns the interface (which
the function does not write) and the calls of `psolver->AssembleStiffness` in order. -/
def ContactStiffness (env : Env) (ci : FEFacet2FacetSliding) :
    FEFacet2FacetSliding × List (Assembly (List (List ℚ))) :=
  let ME := 3 * env.MAX_NODES * 2
  let dxtol := env.radius * ci.m_dxtol
  let knmult := ContactStiffness_knmult ci.m_knmult env.m_nref
  let st0 : StiffState := ⟨List.replicate ME 0, List.replicate ME 0, []⟩
  let st1 := (elemLoop (ContactStiffness_point env ci.m_epsn dxtol knmult ci.m_ss ci.m_ms)
    ci.m_ss.m_el 0 st0).2
  let st2 :=
    if ci.m_btwo_pass then
      (elemLoop (ContactStiffness_point env ci.m_epsn dxtol knmult ci.m_ms ci.m_ss)
        ci.m_ms.m_el 0 st1).2
    else st1
  (ci, st2.K)

/-! ### `Augment` -/

/-- Sum of squares `Σ_i Lm[i]*Lm[i]` over `i < Lm.size()`, added to `acc`. -/
def sumSquares (acc : ℚ) (Lm : List ℚ) : ℚ :=
  (List.range Lm.length).foldl (fun a i => a + rd Lm i * rd Lm i) acc

/-- The initial norm `normL0` of `Augment`. -/
def Augment_normL0 (env : Env) (ci : FEFacet2FacetSliding) : ℚ :=
  env.sqrt (sumSquares (sumSquares 0 ci.m_ss.m_Lm) ci.m_ms.m_Lm)

/-- Accumulators of the "current norms" loops of `Augment`: `normL1`, `normg1` and `N` before
the square roots are taken. -/
structure AugNorms where
  normL1 : ℚ
  normg1 : ℚ
  N : Int

/-- Body of the loops that accumulate the current norms over the surface `s`. -/
def Augment_accumulate_step (m_epsn : ℚ) (s : FEFacetSlidingSurface) (a : AugNorms) (i : Nat) :
    AugNorms :=
  let eps := m_epsn * rd s.m_eps i
  let Ln := MBRACKET (rd s.m_Lm i + eps * rd s.m_gap i)
  let a1 := { a with normL1 := a.normL1 + Ln * Ln }
  if rd s.m_gap i > 0 then
    { a1 with normg1 := a1.normg1 + rd s.m_gap i * rd s.m_gap i, N := a1.N + 1 }
  else a1

/-- One of the two loops `for (i=0; i<NS; ++i) { ... }` that accumulate the current norms over
the surface `s` (the bound is `s.m_Lm.size()`). -/
def Augment_accumulate (m_epsn : ℚ) (s : FEFacetSlidingSurface) (a0 : AugNorms) : AugNorms :=
  (List.range s.m_Lm.length).foldl (Augment_accumulate_step m_epsn s) a0

/-- The accumulated sums over both surfaces. -/
def Augment_sums (ci : FEFacet2FacetSliding) : AugNorms :=
  Augment_accumulate ci.m_epsn ci.m_ms (Augment_accumulate ci.m_epsn ci.m_ss ⟨0, 0, 0⟩)

/-- The current force norm `normL1 = sqrt(normL1)`. -/
def Augment_normL1 (env : Env) (ci : FEFacet2FacetSliding) : ℚ :=
  env.sqrt (Augment_sums ci).normL1

/-- The current gap norm `normg1 = sqrt(normg1 / N)`, after `if (N == 0) N=1`. -/
def Augment_normg1 (env : Env) (ci : FEFacet2FacetSliding) : ℚ :=
  let a := Augment_sums ci
  let N : Int := if a.N = 0 then 1 else a.N
  env.sqrt (a.normg1 / (N : ℚ))

/-- The value of the static `normg0` that the norms are compared with: reset to 0 when
`naug == 0`. -/
def Augment_normg0 (g : Statics) (naug : Int) : ℚ :=
  if naug = 0 then 0 else g.Augment_normg0

/-- The convergence norm `lnorm`. -/
def Augment_lnorm (env : Env) (ci : FEFacet2FacetSliding) : ℚ :=
  let normL0 := Augment_normL0 env ci
  let normL1 := Augment_normL1 env ci
  if normL1 ≠ 0 then fabs (normL1 - normL0) / normL1 else fabs (normL1 - normL0)

/-- The convergence norm `gnorm`. -/
def Augment_gnorm (env : Env) (g : Statics) (ci : FEFacet2FacetSliding) (naug : Int) : ℚ :=
  let normg0 := Augment_normg0 g naug
  let normg1 := Augment_normg1 env ci
  if normg1 ≠ 0 then fabs (normg1 - normg0) / normg1 else fabs (normg1 - normg0)

/-- The convergence check of `Augment`: the four `if` statements that set `bconv`. -/
def Augment_bconv (m_atol m_gtol : ℚ) (m_naugmin m_naugmax : Int) (lnorm gnorm : ℚ)
    (naug : Int) : Bool :=
  let b0 := true
  let b1 := if m_atol > 0 ∧ lnorm > m_atol then false else b0
  let b2 := if m_gtol > 0 ∧ gnorm > m_gtol then false else b1
  let b3 := if m_naugmin > naug then false else b2
  let b4 := if m_naugmax ≤ naug then true else b3
  b4

/-- Body of the loops that update the Lagrange multipliers:
`eps = m_epsn*m_eps[i]; Ln = m_Lm[i] + eps*m_gap[i]; m_Lm[i] = MBRACKET(Ln);`. -/
def Augment_update_step (m_epsn : ℚ) (t : FEFacetSlidingSurface) (i : Nat) :
    FEFacetSlidingSurface :=
  let eps := m_epsn * rd t.m_eps i
  let Ln := rd t.m_Lm i + eps * rd t.m_gap i
  { t with m_Lm := t.m_Lm.set i (MBRACKET Ln) }

/-- One of the two loops that update the Lagrange multipliers of a surface, for
`i < m_Lm.size()`. -/
def Augment_update (m_epsn : ℚ) (s : FEFacetSlidingSurface) : FEFacetSlidingSurface :=
  (List.range s.m_Lm.length).foldl (Augment_update_step m_epsn) s

/-- The function `FEFacet2FacetSliding::Augment(naug)`: returns the result, the statics and
the interface after the call. -/
def Augment (env : Env) (g : Statics) (ci : FEFacet2FacetSliding) (naug : Int) :
    Bool × Statics × FEFacet2FacetSliding :=
  if !ci.m_blaugon then (true, g, ci)
  else
    let normg1 := Augment_normg1 env ci
    let g1 := { g with Augment_normg0 := Augment_normg0 g naug }
    let lnorm := Augment_lnorm env ci
    let gnorm := Augment_gnorm env g ci naug
    let bconv := Augment_bconv ci.m_atol ci.m_gtol ci.m_naugmin ci.m_naugmax lnorm gnorm naug
    let ci1 :=
      if bconv = false then
        { ci with m_ss := Augment_update ci.m_epsn ci.m_ss,
                  m_ms := Augment_update ci.m_epsn ci.m_ms }
      else ci
    (bconv, { g1 with Augment_normg0 := normg1 }, ci1)

/-! ### The augmentation norms, as the specification words them

The following definitions are not translated from the source: they state the quantities of the
convergence test in the words of the specification, and are compared with the code below. -/

/-- Relative change of `cur` with respect to `prev`: `|cur - prev| / cur`, and the absolute
change when `cur` is zero. -/
def relativeChange (cur prev : ℚ) : ℚ :=
  if cur = 0 then |cur - prev| else |cur - prev| / cur

/-- Clamped traction `max(0, Lm_i + eps_i*g_i)` of point `i` of a surface, `eps_i` being the
effective penalty `m_epsn*m_eps[i]`. -/
def clampedTraction (m_epsn : ℚ) (s : FEFacetSlidingSurface) (i : Nat) : ℚ :=
  max 0 (rd s.m_Lm i + m_epsn * rd s.m_eps i * rd s.m_gap i)

/-- Norm of the clamped tractions over all points of both surfaces. -/
def tractionNorm (env : Env) (ci : FEFacet2FacetSliding) : ℚ :=
  env.sqrt (((List.range ci.m_ss.m_Lm.length).map fun i => (clampedTraction ci.m_epsn ci.m_ss i) ^ 2).sum
    + ((List.range ci.m_ms.m_Lm.length).map fun i => (clampedTraction ci.m_epsn ci.m_ms i) ^ 2).sum)

/-- Norm of the current multipliers over all points of both surfaces. -/
def multiplierNorm (env : Env) (ci : FEFacet2FacetSliding) : ℚ :=
  env.sqrt (((List.range ci.m_ss.m_Lm.length).map fun i => (rd ci.m_ss.m_Lm i) ^ 2).sum
    + ((List.range ci.m_ms.m_Lm.length).map fun i => (rd ci.m_ms.m_Lm i) ^ 2).sum)

/-- Indices of the points of a surface with a positive gap. -/
def positiveGaps (s : FEFacetSlidingSurface) : List Nat :=
  (List.range s.m_Lm.length).filter fun i => decide (0 < rd s.m_gap i)

/-- Root mean square of the positive gaps of both surfaces (the mean is taken over one point
when no gap is positive). -/
def positiveGapRms (env : Env) (ci : FEFacet2FacetSliding) : ℚ :=
  env.sqrt ((((positiveGaps ci.m_ss).map fun i => (rd ci.m_ss.m_gap i) ^ 2).sum
      + ((positiveGaps ci.m_ms).map fun i => (rd ci.m_ms.m_gap i) ^ 2).sum)
    / (max 1 ((positiveGaps ci.m_ss).length + (positiveGaps ci.m_ms).length) : Nat))

/-! ## A small concrete model

Two triangular faces with one integration point each: the slave face in the plane `z = 1/2`
above the master face in the plane `z = 0`. It is used to evaluate the functions above on
concrete inputs. -/

/-- Heron's iteration for the square root, in exact rational arithmetic. -/
def heron : Nat → ℚ → ℚ
  | 0, _ => 1
  | n + 1, q => (heron n q + q / heron n q) / 2

/-- Nodes 0-2 carry the slave face, nodes 3-5 the master face. -/
def exMesh : FEMesh :=
  ⟨[⟨⟨0, 0, 1⟩, ⟨0, 0, 1/2⟩⟩, ⟨⟨1, 0, 1⟩, ⟨1, 0, 1/2⟩⟩, ⟨⟨0, 1, 1⟩, ⟨0, 1, 1/2⟩⟩,
    ⟨⟨0, 0, 0⟩, ⟨0, 0, 0⟩⟩, ⟨⟨1, 0, 0⟩, ⟨1, 0, 0⟩⟩, ⟨⟨0, 1, 0⟩, ⟨0, 1, 0⟩⟩]⟩

/-- A 3-node face with one integration point at the centroid. -/
def exFace (lid : Int) (nodes : List Nat) : FESurfaceElement :=
  { m_lid := lid, m_nelem := lid, m_node := nodes, neln := 3, nint := 1,
    H := [[1/3, 1/3, 1/3]], Gr := [[-1, 1, 0]], Gs := [[-1, 0, 1]], gw := [1/2],
    Hi := [[1], [1], [1]] }

/-- The slave face. -/
def exSlaveFace : FESurfaceElement := exFace 0 [0, 1, 2]

/-- The master face. -/
def exMasterFace : FESurfaceElement := exFace 0 [3, 4, 5]

/-- A second face of the master surface. -/
def exMasterFace2 : FESurfaceElement := exFace 1 [4, 5, 3]

/-- A surface in the state `FEFacetSlidingSurface::Init` leaves it in. -/
def exSurface (els : List FESurfaceElement) (nei : List Int) : FEFacetSlidingSurface :=
  { m_el := els, m_gap := List.replicate els.length 0,
    m_nu := List.replicate els.length vec3d.zero, m_rs := List.replicate els.length ⟨0, 0⟩,
    m_Lm := List.replicate els.length 0, m_pme := List.replicate els.length none,
    m_eps := List.replicate els.length 1, m_Ln := List.replicate els.length 0, m_nei := nei }

/-- External functions for the example: projection along `z` onto the plane `z = 0`, whose
normal is `(0, 0, 1)`; `found` is the face the closest-point search returns and `inside` the
answer of `IsInsideElement`. -/
def exEnv (found : Option FESurfaceElement) (inside : Bool) : Env :=
  { mesh := exMesh
    ProjectToSurface := fun _ _ x r s => (⟨x.x, x.y, 0⟩, r, s)
    IsInsideElement := fun _ _ _ _ _ => inside
    ClosestPointProjection := fun _ x _ _ _ _ => (found, ⟨x.x, x.y, 0⟩, ⟨x.x, x.y⟩)
    SurfaceNormal := fun _ _ _ _ => ⟨0, 0, 1⟩
    FaceArea := fun _ _ => 1/2
    ElementVolume := fun _ => 1
    BulkModulus := fun _ _ => 1
    UnpackLM := fun _ el => (List.range (3 * el.neln)).map fun i => (i : Int)
    shape_deriv2 := fun _ _ _ => ([0, 0, 0], [0, 0, 0], [0, 0, 0])
    mat2d_inverse := fun M =>
      let d := M.1 * M.2.2.2 - M.2.1 * M.2.2.1
      (M.2.2.2 / d, -M.2.1 / d, -M.2.2.1 / d, M.1 / d)
    m_nref := 0
    radius := 1
    MAX_NODES := 8
    sqrt := fun q => if q ≤ 0 then 0 else heron 4 q
    exp := fun _ => 1 }

/-- An interface with the parameter values of the constructor of `FEFacet2FacetSliding`. -/
def exInterface (ss ms : FEFacetSlidingSurface) : FEFacet2FacetSliding :=
  { m_nID := 1, m_epsn := 1, m_bautopen := false, m_blaugon := false, m_atol := 1/100,
    m_btwo_pass := false, m_gtol := 0, m_naugmin := 0, m_naugmax := 10, m_knmult := 1,
    m_stol := 1/100, m_srad := 1, m_dxtol := 0, m_mu := 0, m_epsf := 0, m_nsegup := 0,
    m_ss := ss, m_ms := ms }

/-- The slave surface of the example, as initialised. -/
def exSS : FEFacetSlidingSurface := exSurface [exSlaveFace] [0]

/-- The master surface of the example, as initialised. -/
def exMS : FEFacetSlidingSurface := exSurface [exMasterFace, exMasterFace2] [0, 1]

/-- A slave surface whose point is in contact with the master face and carries the
multiplier 5. -/
def exContactSS : FEFacetSlidingSurface :=
  { exSS with m_gap := [1/10], m_nu := [⟨0, 0, 1⟩], m_rs := [⟨1/4, 1/4⟩], m_Lm := [5],
              m_pme := [some exMasterFace] }

/-- The example interface with augmentation switched on. -/
def exAugInterface (ss : FEFacetSlidingSurface) : FEFacet2FacetSliding :=
  { exInterface ss exMS with m_blaugon := true }

/-! ### The value stored by `UpdateContactPressures`, in closed form -/

/-- The value that one execution of the loop body of `UpdateContactPressures` leaves in
`m_Ln[ni]`: `MBRACKET(Lm + eps*gap)`, to which `MBRACKET(Ln)` is added in two-pass mode when the
point has a master element, `Ln` being computed by `project_to_nodes` and `eval` from the
array `ti`. -/
def UpdateContactPressures_Ln (m_epsn : ℚ) (m_btwo_pass : Bool) (ss ms : FEFacetSlidingSurface)
    (ni : Nat) : ℚ :=
  max 0 (rd ss.m_Lm ni + m_epsn * rd ss.m_eps ni * rd ss.m_gap ni) +
    (match m_btwo_pass, rd ss.m_pme ni with
     | true, some pme =>
       max 0 (pme.eval (pme.project_to_nodes (opposingTractions m_epsn ms pme))
         (rd ss.m_rs ni).r (rd ss.m_rs ni).s)
     | _, _ => 0)

/-! ### The net traction, as the specification words it

The definitions of this section use no function of the code: they spell out the clamped
tractions of a face, their projection to the nodes and the interpolation at a point. -/

/-- Shape function of node `a` of a face with `nodes` nodes at the point `(r, s)`: the linear
functions `1 - r - s`, `r`, `s` of a triangle and the bilinear functions of a
quadrilateral. -/
def faceShape (nodes : Nat) (r s : ℚ) (a : Nat) : ℚ :=
  if nodes = 3 then
    (if a = 0 then 1 - r - s else if a = 1 then r else if a = 2 then s else 0)
  else if nodes = 4 then
    (if a = 0 then (1/4) * (1 - r) * (1 - s) else if a = 1 then (1/4) * (1 + r) * (1 - s)
     else if a = 2 then (1/4) * (1 + r) * (1 + s) else if a = 3 then (1/4) * (1 - r) * (1 + s)
     else 0)
  else 0

/-- Clamped traction of integration point `j` of the face `pme` of the surface `ms`; the points
of the face are numbered from the offset `m_nei[m_lid]` of the face. -/
def faceTraction (m_epsn : ℚ) (ms : FEFacetSlidingSurface) (pme : FESurfaceElement) (j : Nat) :
    ℚ :=
  clampedTraction m_epsn ms (rd ms.m_nei pme.m_lid.toNat + (j : Int)).toNat

/-- The clamped tractions of the face `pme` projected to its node `a` with the projection
matrix `Hi` of the face. -/
def nodalTraction (m_epsn : ℚ) (ms : FEFacetSlidingSurface) (pme : FESurfaceElement) (a : Nat) :
    ℚ :=
  ((List.range pme.nint).map fun j => rd (rd pme.Hi a) j * faceTraction m_epsn ms pme j).sum

/-- The nodal tractions of the face `pme` interpolated at the point `(r, s)` of the face. -/
def interpolatedTraction (m_epsn : ℚ) (ms : FEFacetSlidingSurface) (pme : FESurfaceElement)
    (r s : ℚ) : ℚ :=
  ((List.range pme.neln).map fun a => faceShape pme.neln r s a * nodalTraction m_epsn ms pme a).sum

/-- Net traction of point `ni` of the surface `ss` with opposing surface `ms`: the clamped
traction `max(0, Lm + eps*gap)` of the point, plus, in two-pass mode and when the point has an
opposing face, `max(0, T)` where `T` is the opposing face's clamped tractions projected to its
nodes and interpolated at the projection point. -/
def netTraction (m_epsn : ℚ) (m_btwo_pass : Bool) (ss ms : FEFacetSlidingSurface) (ni : Nat) : ℚ :=
  max 0 (rd ss.m_Lm ni + m_epsn * rd ss.m_eps ni * rd ss.m_gap ni) +
    (match m_btwo_pass, rd ss.m_pme ni with
     | true, some pme =>
       max 0 (interpolatedTraction m_epsn ms pme (rd ss.m_rs ni).r (rd ss.m_rs ni).s)
     | _, _ => 0)

/-! ### Points and their elements -/

/-- The element that owns integration point `k` of a surface with the elements `els`: the
points are numbered element by element, in the order of the elements. -/
def elementOfPoint : List FESurfaceElement → Nat → Option FESurfaceElement
  | [], _ => none
  | el :: rest, k =>
    if k < el.GaussPoints then some el else elementOfPoint rest (k - el.GaussPoints)

/-- The external functions `FaceArea` and `BulkModulus` are members of the base classes
(`FESurface`, `FEContactInterface`): they read the elements of the surface they are given, not
the per-point contact arrays of `FEFacetSlidingSurface`. -/
def Env.ReadsElementsOnly (env : Env) : Prop :=
  ∀ (s t : FEFacetSlidingSurface) (el : FESurfaceElement), s.m_el = t.m_el →
    env.FaceArea s el = env.FaceArea t el ∧ env.BulkModulus el s = env.BulkModulus el t

/-- The external functions of the example for a patch scaled by the factor `c`: areas are
multiplied by `c^2` and volumes by `c^3`. -/
def exEnvScaled (c : ℚ) : Env :=
  { exEnv none true with
    FaceArea := fun t el => c ^ 2 * (exEnv none true).FaceArea t el
    ElementVolume := fun id => c ^ 3 * (exEnv none true).ElementVolume id }

/-! ### `FEFacetSlidingSurface::Init`, `FEFacet2FacetSliding::Init` -/

/-- The call `v.resize(n)` of `std::vector`: the first `n` entries are kept, missing entries
are default-constructed. -/
def resize {α : Type} [Inhabited α] (v : List α) (n : Nat) : List α :=
  v.take n ++ List.replicate (n - v.length) default

/-- Body of the counting loop of `Init`: `m_nei[i] = nint; nint += el.GaussPoints();` on the
pair `(nint, m_nei)`. -/
def Init_count (s : FEFacetSlidingSurface) (p : Nat × List Int) (i : Nat) : Nat × List Int :=
  (p.1 + (s.Element i).GaussPoints, p.2.set i (p.1 : Int))

/-- The function `FEFacetSlidingSurface::Init`; `baseInit` is the result of the call
`FEContactSurface::Init()` of the base class. Returns the result and the surface. -/
def FEFacetSlidingSurface.Init (baseInit : Bool) (s : FEFacetSlidingSurface) :
    Bool × FEFacetSlidingSurface :=
  if baseInit = false then (false, s)
  else
    let NE := s.Elements
    let r := (List.range NE).foldl (Init_count s) (0, resize s.m_nei NE)
    let nint := r.1
    (true,
      { s with
        m_nei := r.2
        m_gap := List.replicate nint 0
        m_nu := (resize s.m_nu nint).map fun _ => vec3d.zero
        m_rs := resize s.m_rs nint
        m_Lm := List.replicate nint 0
        m_pme := List.replicate nint none
        m_eps := List.replicate nint 1
        m_Ln := List.replicate nint 0 })

/-- The function `FEFacet2FacetSliding::Init`; `baseSS` and `baseMS` are the results of the
base class initialisation of the two surfaces. -/
def Init (baseSS baseMS : Bool) (ci : FEFacet2FacetSliding) : Bool × FEFacet2FacetSliding :=
  let rs := ci.m_ss.Init baseSS
  if rs.1 = false then (false, { ci with m_ss := rs.2 })
  else
    let rm := ci.m_ms.Init baseMS
    if rm.1 = false then (false, { ci with m_ss := rs.2, m_ms := rm.2 })
    else (true, { ci with m_ss := rs.2, m_ms := rm.2 })

/-- Offset of element `i` as the specification words it: the number of integration points of
the elements `0 .. i-1`. -/
def gaussOffset (els : List FESurfaceElement) (i : Nat) : Nat :=
  ((els.take i).map FESurfaceElement.GaussPoints).sum

/-! ### `Serialize` -/

/-- One value written to a `DumpFile` with `operator <<`. -/
inductive DumpItem where
  | doubles (v : List ℚ)
  | vec3ds (v : List vec3d)
  | vec2ds (v : List vec2d)
  | ints (v : List Int)
deriving DecidableEq, Repr

/-- The class `DumpFile`: the mode (`IsSaving()`) and the stream. Writing appends to the
stream, reading takes from its front. -/
structure DumpFile where
  saving : Bool
  data : List DumpItem
deriving DecidableEq, Repr

/-- The function `FEFacetSlidingSurface::Serialize`. The call of the base class
`FEContactSurface::Serialize` touches no member modelled here. Reading fails (`none`) when the
stream does not hold the seven vectors in the order in which they are written. -/
def FEFacetSlidingSurface.Serialize (s : FEFacetSlidingSurface) (ar : DumpFile) :
    Option (FEFacetSlidingSurface × DumpFile) :=
  if ar.saving then
    some (s, { ar with data := ar.data ++
      [DumpItem.doubles s.m_gap, DumpItem.vec3ds s.m_nu, DumpItem.vec2ds s.m_rs,
       DumpItem.doubles s.m_Lm, DumpItem.ints s.m_nei, DumpItem.doubles s.m_eps,
       DumpItem.doubles s.m_Ln] })
  else
    match ar.data with
    | DumpItem.doubles gap :: DumpItem.vec3ds nu :: DumpItem.vec2ds rs :: DumpItem.doubles Lm ::
        DumpItem.ints nei :: DumpItem.doubles eps :: DumpItem.doubles Ln :: rest =>
      some ({ s with m_gap := gap, m_nu := nu, m_rs := rs, m_Lm := Lm, m_nei := nei,
                     m_eps := eps, m_Ln := Ln }, { ar with data := rest })
    | _ => none

/-- The function `FEFacet2FacetSliding::Serialize`: the master surface first, then the slave
surface. The call of the base class `FEContactInterface::Serialize` touches no member modelled
here. -/
def Serialize (ci : FEFacet2FacetSliding) (ar : DumpFile) :
    Option (FEFacet2FacetSliding × DumpFile) :=
  match ci.m_ms.Serialize ar with
  | none => none
  | some (ms, ar1) =>
    match ci.m_ss.Serialize ar1 with
    | none => none
    | some (ss, ar2) => some ({ ci with m_ms := ms, m_ss := ss }, ar2)

/-- Saving the interface `ci` to an empty stream and loading that stream into the interface
`fresh`: the restored interface, when loading succeeds. -/
def roundTrip (ci fresh : FEFacet2FacetSliding) : Option FEFacet2FacetSliding :=
  match Serialize ci ⟨true, []⟩ with
  | none => none
  | some (_, ar) =>
    match Serialize fresh ⟨false, ar.data⟩ with
    | none => none
    | some (r, _) => some r

/-! ## Element evaluation errors: `FEShellElement::defgrad`, `FEFluidDomain3D::Update` -/

/-- The exception `NegativeJacobian(iel, ng, vol, pe)`: element ID, integration point and the
offending determinant (the element pointer `pe` is represented by the ID). -/
structure NegativeJacobian where
  m_iel : Int
  m_ng : Int
  m_vol : ℚ
deriving DecidableEq, Repr

/-- The exceptions that leave the functions modelled here: `NegativeJacobian` and
`DoRunningRestart`. -/
inductive FEException where
  | negativeJacobian (e : NegativeJacobian)
  | doRunningRestart
deriving DecidableEq, Repr

/-- The class `mat3d`, entries `m[i][j]`. -/
structure mat3d where
  m00 : ℚ
  m01 : ℚ
  m02 : ℚ
  m10 : ℚ
  m11 : ℚ
  m12 : ℚ
  m20 : ℚ
  m21 : ℚ
  m22 : ℚ
deriving DecidableEq, Repr

/-- The zero matrix. -/
def mat3d.zero : mat3d := ⟨0, 0, 0, 0, 0, 0, 0, 0, 0⟩

/-- Product of a matrix and a vector, `mat3d * vec3d`. -/
def mat3d.mulVec (a : mat3d) (v : vec3d) : vec3d :=
  ⟨a.m00 * v.x + a.m01 * v.y + a.m02 * v.z, a.m10 * v.x + a.m11 * v.y + a.m12 * v.z,
   a.m20 * v.x + a.m21 * v.y + a.m22 * v.z⟩

instance : Inhabited mat3d := ⟨mat3d.zero⟩

/-- Quotient by a scalar, `vec3d / double`. -/
def vec3d.sdiv (a : vec3d) (g : ℚ) : vec3d := ⟨a.x / g, a.y / g, a.z / g⟩

/-- The class `FEShellElement` with the traits data `defgrad` reads: shape functions and
their derivatives at the integration points, nodal positions `rt()` and directors `Dt()`, the
`gt` coordinates, the inverse reference Jacobians `m_J0i` and the shell thicknesses `m_h0`. -/
structure FEShellElement where
  m_nID : Int
  neln : Nat
  Hr : List (List ℚ)
  Hs : List (List ℚ)
  H : List (List ℚ)
  rt : List vec3d
  Dt : List vec3d
  gt : List ℚ
  m_J0i : List mat3d
  m_h0 : List ℚ
deriving DecidableEq, Repr

/-- Body of the loop over the nodes in `FEShellElement::defgrad`: the contribution of node `i`
is added to `F`. -/
def FEShellElement.defgrad_node (el : FEShellElement) (n : Nat) (F : mat3d) (i : Nat) : mat3d :=
  let Hri := rd (rd el.Hr n) i
  let Hsi := rd (rd el.Hs n) i
  let Hi := rd (rd el.H n) i
  let x := (rd el.rt i).x
  let y := (rd el.rt i).y
  let z := (rd el.rt i).z
  let dx := (rd el.Dt i).x
  let dy := (rd el.Dt i).y
  let dz := (rd el.Dt i).z
  let g := rd el.gt n
  let Ji := rd el.m_J0i n
  let za := (1/2) * g * rd el.m_h0 i
  let NX := Ji.m00 * Hri + Ji.m10 * Hsi
  let NY := Ji.m01 * Hri + Ji.m11 * Hsi
  let NZ := Ji.m02 * Hri + Ji.m12 * Hsi
  let MX := za * Ji.m00 * Hri + za * Ji.m10 * Hsi + Ji.m20 * (1/2) * rd el.m_h0 i * Hi
  let MY := za * Ji.m01 * Hri + za * Ji.m11 * Hsi + Ji.m21 * (1/2) * rd el.m_h0 i * Hi
  let MZ := za * Ji.m02 * Hri + za * Ji.m12 * Hsi + Ji.m22 * (1/2) * rd el.m_h0 i * Hi
  { m00 := F.m00 + (NX * x + MX * dx), m01 := F.m01 + (NY * x + MY * dx),
    m02 := F.m02 + (NZ * x + MZ * dx),
    m10 := F.m10 + (NX * y + MX * dy), m11 := F.m11 + (NY * y + MY * dy),
    m12 := F.m12 + (NZ * y + MZ * dy),
    m20 := F.m20 + (NX * z + MX * dz), m21 := F.m21 + (NY * z + MY * dz),
    m22 := F.m22 + (NZ * z + MZ * dz) }

/-- The deformation gradient `F` that `defgrad` computes at integration point `n`. -/
def FEShellElement.defgrad_F (el : FEShellElement) (n : Nat) : mat3d :=
  (List.range el.neln).foldl (el.defgrad_node n) mat3d.zero

/-- The function `FEShellElement::defgrad(F, n)`: returns the matrix written to `F` and either
the returned determinant or the exception thrown. The method `mat3d::det` is defined outside the
sources at hand and is the parameter `det`. -/
def FEShellElement.defgrad (det : mat3d → ℚ) (el : FEShellElement) (n : Nat) :
    mat3d × Except NegativeJacobian ℚ :=
  let F := el.defgrad_F n
  let V := det F
  if V ≤ 0 then (F, Except.error ⟨el.m_nID, (n : Int), V⟩) else (F, Except.ok V)

/-- The class `mat3ds` (symmetric matrix). -/
structure mat3ds where
  xx : ℚ
  yy : ℚ
  zz : ℚ
  xy : ℚ
  yz : ℚ
  xz : ℚ
deriving DecidableEq, Repr

/-- The fields of `FEFluidMaterialPoint` that `UpdateElementStress` reads and writes. -/
structure FEFluidMaterialPoint where
  m_vt : vec3d
  m_vp : vec3d
  m_L : mat3d
  m_at : vec3d
  m_J : ℚ
  m_gradJ : vec3d
  m_s : mat3ds
  m_p : ℚ
  m_lapv : vec3d
  m_gdiv : vec3d
deriving DecidableEq, Repr

instance : Inhabited FEFluidMaterialPoint :=
  ⟨⟨vec3d.zero, vec3d.zero, mat3d.zero, vec3d.zero, 0, vec3d.zero, ⟨0, 0, 0, 0, 0, 0⟩, 0,
    vec3d.zero, vec3d.zero⟩⟩

/-- A solid element of the fluid domain: connectivity, traits (`neln`, `nint`, shape function
values `H`) and the material points. -/
structure FESolidElement where
  m_node : List Nat
  neln : Nat
  nint : Nat
  H : List (List ℚ)
  m_State : List FEFluidMaterialPoint
deriving DecidableEq, Repr

instance : Inhabited FESolidElement := ⟨⟨[], 0, 0, [], []⟩⟩

/-- The function `FEElement::Evaluate(vec3d* vn, int n)`. -/
def FESolidElement.EvaluateVec (el : FESolidElement) (vn : List vec3d) (n : Nat) : vec3d :=
  (List.range el.neln).foldl (fun v i => v.add ((rd vn i).smul (rd (rd el.H n) i))) vec3d.zero

/-- The function `FEElement::Evaluate(double* fn, int n)`. -/
def FESolidElement.Evaluate (el : FESolidElement) (fn : List ℚ) (n : Nat) : ℚ :=
  (List.range el.neln).foldl (fun f i => f + rd (rd el.H n) i * rd fn i) 0

/-- The members of `FEFluidDomain3D` modelled here. -/
structure FEFluidDomain3D where
  m_Elem : List FESolidElement
  m_btrans : Bool
deriving DecidableEq, Repr

/-- Functions and data `FEFluidDomain3D` uses that are defined outside the sources at hand.
Each of the functions may throw `NegativeJacobian`. -/
structure FluidEnv where
  /-- `fem.GetCurrentStep()->m_dt`. -/
  m_dt : ℚ
  /-- `m_pMat->m_bsupg`. -/
  m_bsupg : Bool
  /-- `m_pMesh->Node(i).get_vec3d(m_dofVX, m_dofVY, m_dofVZ)`. -/
  nodeVelocity : Nat → vec3d
  /-- `m_pMesh->Node(i).get(m_dofE)`. -/
  nodeDilatation : Nat → ℚ
  /-- `gradient(el, vt, n)` for a vector field. -/
  gradientVec : FESolidElement → List vec3d → Nat → Except NegativeJacobian mat3d
  /-- `gradient(el, et, n)` for a scalar field. -/
  gradientScalar : FESolidElement → List ℚ → Nat → Except NegativeJacobian vec3d
  /-- `m_pMat->Stress(mp)`. -/
  Stress : FEFluidMaterialPoint → Except NegativeJacobian mat3ds
  /-- `m_pMat->GetElastic()->Pressure(mp)`. -/
  Pressure : FEFluidMaterialPoint → Except NegativeJacobian ℚ
  /-- `lapvec(el, vt, n)`. -/
  lapvec : FESolidElement → List vec3d → Nat → Except NegativeJacobian vec3d
  /-- `gradivec(el, vt, n)`. -/
  gradivec : FESolidElement → List vec3d → Nat → Except NegativeJacobian vec3d

/-- The element `el` with material point `n` replaced by `pt`. -/
def FESolidElement.setPoint (el : FESolidElement) (n : Nat) (pt : FEFluidMaterialPoint) :
    FESolidElement :=
  { el with m_State := el.m_State.set n pt }

/-- The SUPG block at the end of the loop body of `UpdateElementStress`. -/
def UpdateElementStress_supg (env : FluidEnv) (el : FESolidElement) (vt : List vec3d) (n : Nat)
    (pt : FEFluidMaterialPoint) : FEFluidMaterialPoint × Option NegativeJacobian :=
  if env.m_bsupg then
    match env.lapvec (el.setPoint n pt) vt n with
    | Except.error e => (pt, some e)
    | Except.ok lapv =>
      match env.gradivec (el.setPoint n { pt with m_lapv := lapv }) vt n with
      | Except.error e => ({ pt with m_lapv := lapv }, some e)
      | Except.ok gdiv => ({ pt with m_lapv := lapv, m_gdiv := gdiv }, none)
  else (pt, none)

/-- The stress and pressure assignments of the loop body of `UpdateElementStress`. -/
def UpdateElementStress_stress (env : FluidEnv) (el : FESolidElement) (vt : List vec3d) (n : Nat)
    (pt : FEFluidMaterialPoint) : FEFluidMaterialPoint × Option NegativeJacobian :=
  match env.Stress pt with
  | Except.error e => (pt, some e)
  | Except.ok s =>
    match env.Pressure { pt with m_s := s } with
    | Except.error e => ({ pt with m_s := s }, some e)
    | Except.ok p => UpdateElementStress_supg env el vt n { pt with m_s := s, m_p := p }

/-- Body of the loop over the integration points in `UpdateElementStress`, on material point
`n` of `el`: the updated point and the exception, if one was thrown. -/
def UpdateElementStress_point (env : FluidEnv) (m_btrans : Bool) (dt : ℚ) (el : FESolidElement)
    (vt : List vec3d) (et : List ℚ) (n : Nat) (pt : FEFluidMaterialPoint) :
    FEFluidMaterialPoint × Option NegativeJacobian :=
  let pt1 := { pt with m_vt := el.EvaluateVec vt n }
  match env.gradientVec (el.setPoint n pt1) vt n with
  | Except.error e => (pt1, some e)
  | Except.ok L =>
    let pt2 := { pt1 with m_L := L }
    let acc := (((pt2.m_vt.sub pt2.m_vp).sdiv dt).smul (if m_btrans then 1 else 0)).add
      (pt2.m_L.mulVec pt2.m_vt)
    let pt3 := { pt2 with m_at := acc }
    let pt4 := { pt3 with m_J := 1 + el.Evaluate et n }
    match env.gradientScalar (el.setPoint n pt4) et n with
    | Except.error e => (pt4, some e)
    | Except.ok gJ => UpdateElementStress_stress env el vt n { pt4 with m_gradJ := gJ }

/-- The loop over the integration points in `UpdateElementStress`; an exception ends it. -/
def UpdateElementStress_loop (env : FluidEnv) (m_btrans : Bool) (dt : ℚ) (vt : List vec3d)
    (et : List ℚ) : List Nat → FESolidElement → FESolidElement × Option NegativeJacobian
  | [], el => (el, none)
  | n :: ns, el =>
    let r := UpdateElementStress_point env m_btrans dt el vt et n (rd el.m_State n)
    match r.2 with
    | some e => (el.setPoint n r.1, some e)
    | none => UpdateElementStress_loop env m_btrans dt vt et ns (el.setPoint n r.1)

/-- The function `FEFluidDomain3D::UpdateElementStress(iel, dt)`: the domain after the call
and the `NegativeJacobian` exception, if one was thrown. -/
def FEFluidDomain3D.UpdateElementStress (env : FluidEnv) (dom : FEFluidDomain3D) (iel : Nat)
    (dt : ℚ) : FEFluidDomain3D × Option NegativeJacobian :=
  let el := rd dom.m_Elem iel
  let vt := (List.range el.neln).map fun j => env.nodeVelocity (rd el.m_node j)
  let et := (List.range el.neln).map fun j => env.nodeDilatation (rd el.m_node j)
  let r := UpdateElementStress_loop env dom.m_btrans dt vt et (List.range el.nint) el
  ({ dom with m_Elem := dom.m_Elem.set iel r.1 }, r.2)

/-- Body of the loop over the elements in `FEFluidDomain3D::Update`, on the pair of the domain
and the flag `berr`: the `try` block and its `catch (NegativeJacobian e)` handler. -/
def FEFluidDomain3D.Update_element (env : FluidEnv) (p : FEFluidDomain3D × Bool) (i : Nat) :
    FEFluidDomain3D × Bool :=
  match FEFluidDomain3D.UpdateElementStress env p.1 i env.m_dt with
  | (d, none) => (d, p.2)
  | (d, some _) => (d, true)

/-- The function `FEFluidDomain3D::Update`: the domain after the call and the exception that
leaves the function, if any. The iterations of the `omp parallel for` loop are executed in the
order of the elements. -/
def FEFluidDomain3D.Update (env : FluidEnv) (dom : FEFluidDomain3D) :
    FEFluidDomain3D × Option FEException :=
  let NE := dom.m_Elem.length
  let r := (List.range NE).foldl (FEFluidDomain3D.Update_element env) (dom, false)
  if r.2 then (r.1, some FEException.doRunningRestart) else (r.1, none)

/-- The domain after `UpdateElementStress` has been executed for the elements `0 .. i-1`, one
after the other, whether or not the calls threw. -/
def stressesAttempted (env : FluidEnv) (dom : FEFluidDomain3D) (i : Nat) : FEFluidDomain3D :=
  (List.range i).foldl (fun d k => (FEFluidDomain3D.UpdateElementStress env d k env.m_dt).1) dom

/-- The determinant of a 3x3 matrix, used to evaluate `defgrad` on an example. -/
def exDet (F : mat3d) : ℚ :=
  F.m00 * (F.m11 * F.m22 - F.m12 * F.m21) - F.m01 * (F.m10 * F.m22 - F.m12 * F.m20)
    + F.m02 * (F.m10 * F.m21 - F.m11 * F.m20)

/-- A shell element with a single node, for which the deformation gradient is singular. -/
def exShell : FEShellElement :=
  { m_nID := 7, neln := 1, Hr := [[1]], Hs := [[1]], H := [[1]], rt := [⟨1, 2, 3⟩],
    Dt := [⟨0, 0, 1⟩], gt := [0], m_J0i := [⟨1, 0, 0, 0, 1, 0, 0, 0, 1⟩], m_h0 := [2] }

/-- External functions for a fluid example: the velocity gradient cannot be evaluated
(`NegativeJacobian`) in an element whose first node is node 0, and is the identity elsewhere. -/
def exFluidEnv : FluidEnv :=
  { m_dt := 1
    m_bsupg := false
    nodeVelocity := fun _ => ⟨1, 0, 0⟩
    nodeDilatation := fun _ => 0
    gradientVec := fun el _ n =>
      if rd el.m_node 0 = 0 then Except.error ⟨0, (n : Int), -1⟩
      else Except.ok ⟨1, 0, 0, 0, 1, 0, 0, 0, 1⟩
    gradientScalar := fun _ _ _ => Except.ok vec3d.zero
    Stress := fun _ => Except.ok ⟨0, 0, 0, 0, 0, 0⟩
    Pressure := fun _ => Except.ok 0
    lapvec := fun _ _ _ => Except.ok vec3d.zero
    gradivec := fun _ _ _ => Except.ok vec3d.zero }

/-- A fluid domain of two one-node elements, on node 0 and on node 1. -/
def exFluidDomain : FEFluidDomain3D :=
  { m_Elem := [⟨[0], 1, 1, [[1]], [default]⟩, ⟨[1], 1, 1, [[1]], [default]⟩]
    m_btrans := true }

/-- The example interface with augmentation switched on, the gap tolerance 1/2, no traction
tolerance, and the gap `gap` at the point of the slave surface. -/
def exGapInterface (gap : ℚ) : FEFacet2FacetSliding :=
  { exAugInterface { exSS with m_gap := [gap] } with m_gtol := 1 / 2, m_atol := 0 }

/-! ### States of an interface reachable from a successful `Init` -/

/-- The interface states reachable from a successful `Init` by calls of `Activate`, `Update`,
`Augment`, `ContactForces` and `ContactStiffness`, with any arguments, any values of the
function statics and any state of the external world at each call. -/
inductive Reachable : FEFacet2FacetSliding → Prop
  | init (baseSS baseMS : Bool) (ci : FEFacet2FacetSliding) :
      (Init baseSS baseMS ci).1 = true → Reachable (Init baseSS baseMS ci).2
  | activate (env : Env) (ci : FEFacet2FacetSliding) :
      Reachable ci → Reachable (Activate env ci)
  | update (env : Env) (g : Statics) (ci : FEFacet2FacetSliding) (niter : Int) :
      Reachable ci → Reachable (Update env g ci niter).2
  | augment (env : Env) (g : Statics) (ci : FEFacet2FacetSliding) (naug : Int) :
      Reachable ci → Reachable (Augment env g ci naug).2.2
  | forces (env : Env) (ci : FEFacet2FacetSliding) :
      Reachable ci → Reachable (ContactForces env ci).1
  | stiffness (env : Env) (ci : FEFacet2FacetSliding) :
      Reachable ci → Reachable (ContactStiffness env ci).1

/-! ### A slave surface that mixes a 3-node and a 4-node face -/

/-- Nodes 0-2 and 6-7 carry the slave surface in the plane `z = 1/2` (the triangle 0-1-2 and the
rectangle 1-6-7-2 on its long edge), nodes 3-5 one large master triangle in the plane
`z = 0`. -/
def exMixedMesh : FEMesh :=
  ⟨[⟨⟨0, 0, 1⟩, ⟨0, 0, 1/2⟩⟩, ⟨⟨1, 0, 1⟩, ⟨1, 0, 1/2⟩⟩, ⟨⟨0, 1, 1⟩, ⟨0, 1, 1/2⟩⟩,
    ⟨⟨0, 0, 0⟩, ⟨0, 0, 0⟩⟩, ⟨⟨8, 0, 0⟩, ⟨8, 0, 0⟩⟩, ⟨⟨0, 8, 0⟩, ⟨0, 8, 0⟩⟩,
    ⟨⟨3, 2, 1⟩, ⟨3, 2, 1/2⟩⟩, ⟨⟨2, 3, 1⟩, ⟨2, 3, 1/2⟩⟩]⟩

/-- A 4-node face with one integration point at the centre. -/
def exQuadFace (lid : Int) (nodes : List Nat) : FESurfaceElement :=
  { m_lid := lid, m_nelem := lid, m_node := nodes, neln := 4, nint := 1,
    H := [[1/4, 1/4, 1/4, 1/4]], Gr := [[-1/4, 1/4, 1/4, -1/4]], Gs := [[-1/4, -1/4, 1/4, 1/4]],
    gw := [4], Hi := [[1], [1], [1], [1]] }

/-- The slave surface with the triangle followed by the quadrilateral; both integration points
are in contact with the master triangle and carry the multiplier 5. -/
def exMixedSS : FEFacetSlidingSurface :=
  { exSurface [exSlaveFace, exQuadFace 1 [1, 6, 7, 2]] [0, 1] with
    m_gap := [1/10, 1/10], m_nu := [⟨0, 0, 1⟩, ⟨0, 0, 1⟩], m_rs := [⟨1/24, 1/24⟩, ⟨3/16, 3/16⟩],
    m_Lm := [5, 5], m_pme := [some exMasterFace, some exMasterFace] }

/-- The external functions of the example on the mesh `exMixedMesh`. -/
def exMixedEnv : Env := { exEnv none true with mesh := exMixedMesh }

/-- The interface of the example with the mixed slave surface; the higher order terms are
switched on (`m_knmult = 1`). -/
def exMixedInterface : FEFacet2FacetSliding := exInterface exMixedSS (exSurface [exMasterFace] [0])

/-- The state of the loop of `ContactStiffness` over the slave surface of `exMixedInterface`
before the first point: `N1` and `N2` zeroed, nothing assembled. -/
def exStiff0 : StiffState :=
  ⟨List.replicate (3 * exMixedEnv.MAX_NODES * 2) 0, List.replicate (3 * exMixedEnv.MAX_NODES * 2) 0,
    []⟩

/-- The state of the loop of `ContactStiffness` after the point of the triangle. -/
def exStiff1 : StiffState :=
  ContactStiffness_point exMixedEnv exMixedInterface.m_epsn
    (exMixedEnv.radius * exMixedInterface.m_dxtol)
    (ContactStiffness_knmult exMixedInterface.m_knmult exMixedEnv.m_nref)
    exMixedInterface.m_ss exMixedInterface.m_ms exSlaveFace 0 0 exStiff0

/-- The state of the loop of `ContactStiffness` after the point of the quadrilateral, which is
the second point of the surface. -/
def exStiff2 (st : StiffState) : StiffState :=
  ContactStiffness_point exMixedEnv exMixedInterface.m_epsn
    (exMixedEnv.radius * exMixedInterface.m_dxtol)
    (ContactStiffness_knmult exMixedInterface.m_knmult exMixedEnv.m_nref)
    exMixedInterface.m_ss exMixedInterface.m_ms (exQuadFace 1 [1, 6, 7, 2]) 0 1 st

/-! ### Two interfaces augmented in turn -/

/-- Round 0 of `Augment` on the interface with gap 1: result, statics and interface after the
call. -/
def exAugRound0 : Bool × Statics × FEFacet2FacetSliding :=
  Augment (exEnv none true) Statics.init (exGapInterface 1) 0

/-- The call of `Augment` on another interface object (the example interface without a positive
gap) after round 0 of the first. -/
def exAugOther : Bool × Statics × FEFacet2FacetSliding :=
  Augment (exEnv none true) exAugRound0.2.1 (exAugInterface exSS) 0

/-! ## `FEFluidDomain3D`: element matrices -/

/-- The class `mat3dd` (diagonal matrix with the value `d` on the diagonal) as a `mat3d`. -/
def mat3d.diag (d : ℚ) : mat3d := ⟨d, 0, 0, 0, d, 0, 0, 0, d⟩

/-- Matrix sum, `operator +`. -/
def mat3d.add (a b : mat3d) : mat3d :=
  ⟨a.m00 + b.m00, a.m01 + b.m01, a.m02 + b.m02, a.m10 + b.m10, a.m11 + b.m11, a.m12 + b.m12,
   a.m20 + b.m20, a.m21 + b.m21, a.m22 + b.m22⟩

/-- Product with a scalar, `mat3d * double`. -/
def mat3d.smul (a : mat3d) (g : ℚ) : mat3d :=
  ⟨a.m00 * g, a.m01 * g, a.m02 * g, a.m10 * g, a.m11 * g, a.m12 * g,
   a.m20 * g, a.m21 * g, a.m22 * g⟩

/-- The statement `ke[r][c] += v` on an element matrix stored by rows. -/
def addAt (ke : List (List ℚ)) (r c : Nat) (v : ℚ) : List (List ℚ) :=
  ke.set r ((rd ke r).set c (rd (rd ke r) c + v))

/-- The call `ke.columns()`: the length of the rows. -/
def columns (ke : List (List ℚ)) : Nat := (rd ke 0).length

/-- Traits data and functions that `ElementMassMatrix` and `ElementBodyForceStiffness` use and
that are defined outside the sources at hand. -/
structure MatrixEnv where
  /-- The call `invjac0(el, Ji, n)`: the inverse Jacobian `Ji` and the returned determinant. -/
  invjac0 : FESolidElement → Nat → mat3d × ℚ
  /-- The call `detJ0(el, n)`. -/
  detJ0 : FESolidElement → Nat → ℚ
  /-- The call `el.GaussWeights()`. -/
  GaussWeights : FESolidElement → List ℚ
  /-- The call `el.Gr(n)`. -/
  Gr : FESolidElement → Nat → List ℚ
  /-- The call `el.Gs(n)`. -/
  Gs : FESolidElement → Nat → List ℚ
  /-- The call `el.Gt(n)`. -/
  Gt : FESolidElement → Nat → List ℚ
  /-- The member `mp.dt` of the material point `n` of an element. -/
  dt : FESolidElement → Nat → ℚ
  /-- The call `m_pMat->Density(mp)`. -/
  Density : FEFluidMaterialPoint → ℚ
  /-- The call `BF.force(mp)` of the body force. -/
  force : FEFluidMaterialPoint → vec3d

/-- The matrix `Mv` of `ElementMassMatrix` for the node pair `(i, j)`:
`((mat3dd(1)*(m_btrans/dt) + pt.m_L)*H[j] + mat3dd(gradN[j]*pt.m_vt))*(H[i]*dens*detJ)`. -/
def ElementMassMatrix_Mv (m_btrans : Bool) (dt dens detJ : ℚ) (pt : FEFluidMaterialPoint)
    (H : List ℚ) (gradN : List vec3d) (i j : Nat) : mat3d :=
  ((((mat3d.diag 1).smul ((if m_btrans then 1 else 0) / dt)).add pt.m_L).smul (rd H j)).add
      (mat3d.diag ((rd gradN j).dot pt.m_vt)) |>.smul (rd H i * dens * detJ)

/-- The vector `mJ` of `ElementMassMatrix` for the node pair `(i, j)`:
`pt.m_at*(-H[i]*H[j]*dens/pt.m_J*detJ)`. -/
def ElementMassMatrix_mJ (dens detJ : ℚ) (pt : FEFluidMaterialPoint) (H : List ℚ) (i j : Nat) :
    vec3d :=
  pt.m_at.smul (-(rd H i) * rd H j * dens / pt.m_J * detJ)

/-- The twelve statements `ke[..][..] += ..` of `ElementMassMatrix` for one node pair, in the
order of the source, with `i4 = 4*i` and `j4 = 4*j`. -/
def ElementMassMatrix_add (Mv : mat3d) (mJ : vec3d) (i4 j4 : Nat) (ke : List (List ℚ)) :
    List (List ℚ) :=
  let k1 := addAt ke i4 j4 Mv.m00
  let k2 := addAt k1 i4 (j4 + 1) Mv.m01
  let k3 := addAt k2 i4 (j4 + 2) Mv.m02
  let k4 := addAt k3 i4 (j4 + 3) mJ.x
  let k5 := addAt k4 (i4 + 1) j4 Mv.m10
  let k6 := addAt k5 (i4 + 1) (j4 + 1) Mv.m11
  let k7 := addAt k6 (i4 + 1) (j4 + 2) Mv.m12
  let k8 := addAt k7 (i4 + 1) (j4 + 3) mJ.y
  let k9 := addAt k8 (i4 + 2) j4 Mv.m20
  let k10 := addAt k9 (i4 + 2) (j4 + 1) Mv.m21
  let k11 := addAt k10 (i4 + 2) (j4 + 2) Mv.m22
  addAt k11 (i4 + 2) (j4 + 2) mJ.z

/-- Body of the loop over the integration points of `ElementMassMatrix`. -/
def ElementMassMatrix_point (env : MatrixEnv) (m_btrans : Bool) (el : FESolidElement)
    (ke : List (List ℚ)) (n : Nat) : List (List ℚ) :=
  let Ji := (env.invjac0 el n).1
  let detJ := (env.invjac0 el n).2 * rd (env.GaussWeights el) n
  let g1 : vec3d := ⟨Ji.m00, Ji.m01, Ji.m02⟩
  let g2 : vec3d := ⟨Ji.m10, Ji.m11, Ji.m12⟩
  let g3 : vec3d := ⟨Ji.m20, Ji.m21, Ji.m22⟩
  let H := rd el.H n
  let Gr := env.Gr el n
  let Gs := env.Gs el n
  let Gt := env.Gt el n
  let pt := rd el.m_State n
  let dt := env.dt el n
  let dens := env.Density pt
  let gradN := (List.range el.neln).map fun i =>
    ((g1.smul (rd Gr i)).add (g2.smul (rd Gs i))).add (g3.smul (rd Gt i))
  (List.range el.neln).foldl (fun k i =>
    (List.range el.neln).foldl (fun k2 j =>
      ElementMassMatrix_add (ElementMassMatrix_Mv m_btrans dt dens detJ pt H gradN i j)
        (ElementMassMatrix_mJ dens detJ pt H i j) (4 * i) (4 * j) k2) k) ke

/-- The function `FEFluidDomain3D::ElementMassMatrix(el, ke)`. -/
def FEFluidDomain3D.ElementMassMatrix (env : MatrixEnv) (dom : FEFluidDomain3D)
    (el : FESolidElement) (ke : List (List ℚ)) : List (List ℚ) :=
  (List.range el.nint).foldl (ElementMassMatrix_point env dom.m_btrans el) ke

/-- Body of the loop over the integration points of `ElementBodyForceStiffness`. -/
def ElementBodyForceStiffness_point (env : MatrixEnv) (el : FESolidElement) (ndof : Nat)
    (ke : List (List ℚ)) (n : Nat) : List (List ℚ) :=
  let pt := rd el.m_State n
  let detJ := env.detJ0 el n * rd (env.GaussWeights el) n
  let H := rd el.H n
  let dens := env.Density pt
  let f := env.force pt
  (List.range el.neln).foldl (fun k1 i =>
    (List.range el.neln).foldl (fun k2 j =>
      let k := f.smul (-(rd H i) * rd H j * dens / pt.m_J * detJ)
      let a := addAt k2 (ndof * i) (ndof * j + 3) k.x
      let b := addAt a (ndof * i + 1) (ndof * j + 3) k.y
      addAt b (ndof * i + 2) (ndof * j + 3) k.z) k1) ke

/-- The function `FEFluidDomain3D::ElementBodyForceStiffness(BF, el, ke)`; the body force is
the field `force` of the environment. -/
def FEFluidDomain3D.ElementBodyForceStiffness (env : MatrixEnv) (el : FESolidElement)
    (ke : List (List ℚ)) : List (List ℚ) :=
  let ndof := columns ke / el.neln
  (List.range el.nint).foldl (ElementBodyForceStiffness_point env el ndof) ke

/-- External data for the matrix example: unit Jacobian, weight 1, density 1, time step 1, and
the body force `(1, 2, 3)`. -/
def exMatrixEnv : MatrixEnv :=
  { invjac0 := fun _ _ => (mat3d.diag 1, 1)
    detJ0 := fun _ _ => 1
    GaussWeights := fun _ => [1]
    Gr := fun _ _ => [0]
    Gs := fun _ _ => [0]
    Gt := fun _ _ => [0]
    dt := fun _ _ => 1
    Density := fun _ => 1
    force := fun _ => ⟨1, 2, 3⟩ }

/-- A one-node element with one integration point whose material point has the acceleration
`m_at = (1, 2, 3)`, `m_J = 1`, no velocity and no velocity gradient. -/
def exMatrixElement : FESolidElement :=
  ⟨[0], 1, 1, [[1]],
    [{ (default : FEFluidMaterialPoint) with m_at := ⟨1, 2, 3⟩, m_J := 1 }]⟩

/-- The zero matrix with 4 rows and 4 columns. -/
def exZeroMatrix : List (List ℚ) := List.replicate 4 (List.replicate 4 0)

/-! ## Reading and writing vectors -/

theorem rd_set_ne {α : Type} [Inhabited α] (l : List α) (i k : Nat) (a : α) (h : k ≠ i) :
    rd (l.set i a) k = rd l k := by
  unfold rd
  rw [List.getD_eq_getElem?_getD, List.getD_eq_getElem?_getD, List.getElem?_set]
  have h2 : ¬ i = k := fun e => h e.symm
  simp [h2]

theorem rd_set_eq {α : Type} [Inhabited α] (l : List α) (i : Nat) (a : α) (h : i < l.length) :
    rd (l.set i a) i = a := by
  unfold rd
  rw [List.getD_eq_getElem?_getD, List.getElem?_set]
  simp [h]

theorem rd_set_default {α : Type} [Inhabited α] (l : List α) (i : Nat) :
    rd (l.set i default) i = default := by
  unfold rd
  rw [List.getD_eq_getElem?_getD, List.getElem?_set]
  by_cases h : i < l.length <;> simp [h]

theorem rd_eq_getElem {α : Type} [Inhabited α] (l : List α) (i : Nat) (h : i < l.length) :
    rd l i = l[i] := by
  unfold rd
  rw [List.getD_eq_getElem?_getD]
  simp [h]

theorem rd_map_range {α : Type} [Inhabited α] (f : Nat → α) (n k : Nat) :
    rd ((List.range n).map f) k = if k < n then f k else default := by
  unfold rd
  rw [List.getD_eq_getElem?_getD]
  by_cases h : k < n
  · simp [h]
  · have hn : (List.range n)[k]? = none := List.getElem?_eq_none (by simpa using h)
    simp [hn, h]

/-! ## The loops -/

theorem gaussLoop_fst {σ : Type} (body : Nat → Nat → σ → σ) (js : List Nat) (ni : Nat) (st : σ) :
    (gaussLoop body js ni st).1 = ni + js.length := by
  induction js generalizing ni st with
  | nil => simp [gaussLoop]
  | cons j js ih => simp [gaussLoop, ih]; omega

theorem elemLoop_fst {σ : Type} (body : FESurfaceElement → Nat → Nat → σ → σ)
    (els : List FESurfaceElement) (ni : Nat) (st : σ) :
    (elemLoop body els ni st).1 = ni + (els.map FESurfaceElement.GaussPoints).sum := by
  induction els generalizing ni st with
  | nil => simp [elemLoop]
  | cons se rest ih => simp [elemLoop, ih, gaussLoop_fst]; omega

/-- Invariant rule for the inner loop: a property of (counter, state) that every execution of
the body carries from `n` to `n+1` holds at the end if it holds at the start. -/
theorem gaussLoop_inv {σ : Type} (I : Nat → σ → Prop) (body : Nat → Nat → σ → σ)
    (hstep : ∀ j n s, I n s → I (n + 1) (body j n s)) (js : List Nat) (ni : Nat) (st : σ)
    (h0 : I ni st) : I (gaussLoop body js ni st).1 (gaussLoop body js ni st).2 := by
  induction js generalizing ni st with
  | nil => simpa [gaussLoop] using h0
  | cons j js ih =>
    simp only [gaussLoop]
    exact ih (ni + 1) (body j ni st) (hstep j ni st h0)

/-- Invariant rule for the nested loop over elements and integration points. -/
theorem elemLoop_inv {σ : Type} (I : Nat → σ → Prop)
    (body : FESurfaceElement → Nat → Nat → σ → σ)
    (hstep : ∀ se j n s, I n s → I (n + 1) (body se j n s))
    (els : List FESurfaceElement) (ni : Nat) (st : σ) (h0 : I ni st) :
    I (elemLoop body els ni st).1 (elemLoop body els ni st).2 := by
  induction els generalizing ni st with
  | nil => simpa [elemLoop] using h0
  | cons se rest ih =>
    simp only [elemLoop]
    exact ih _ _ (gaussLoop_inv I (body se) (hstep se) _ ni st h0)

/-! ## Effect of one pass of the `ProjectSurface` loop body -/

theorem ProjectSurface_search_fields (env : Env) (m_stol : ℚ) (ms : FEFacetSlidingSurface)
    (x q : vec3d) (ni : Nat) (st : ProjState) :
    let r := ProjectSurface_search env m_stol ms x q ni st
    r.1.ss.m_Lm = st.ss.m_Lm ∧ r.1.ss.m_gap = st.ss.m_gap ∧ r.1.ss.m_nu = st.ss.m_nu ∧
    r.1.ss.m_eps = st.ss.m_eps ∧ r.1.ss.m_Ln = st.ss.m_Ln ∧ r.1.ss.m_el = st.ss.m_el ∧
    r.1.ss.m_nei = st.ss.m_nei ∧
    r.1.ss.m_pme = st.ss.m_pme.set ni
      (env.ClosestPointProjection ms x q (rd (st.ss.m_rs.set ni ⟨0, 0⟩) ni) st.bfirst m_stol).1 := by
  simp [ProjectSurface_search]

theorem ProjectSurface_refine_fields (env : Env) (m_stol : ℚ) (ms : FEFacetSlidingSurface)
    (bsegup : Bool) (x : vec3d) (ni : Nat) (st : ProjState) :
    let r := ProjectSurface_refine env m_stol ms bsegup x ni st
    r.1.ss.m_Lm = st.ss.m_Lm ∧ r.1.ss.m_gap = st.ss.m_gap ∧ r.1.ss.m_nu = st.ss.m_nu ∧
    r.1.ss.m_eps = st.ss.m_eps ∧ r.1.ss.m_Ln = st.ss.m_Ln ∧ r.1.ss.m_el = st.ss.m_el ∧
    r.1.ss.m_nei = st.ss.m_nei ∧
    (∀ k, k ≠ ni → rd r.1.ss.m_pme k = rd st.ss.m_pme k) ∧
    (bsegup = false → r.1.ss.m_pme = st.ss.m_pme) := by
  unfold ProjectSurface_refine
  split
  · dsimp only
    split
    · rename_i h
      refine ⟨?_, ?_, ?_, ?_, ?_, ?_, ?_, ?_, ?_⟩ <;> try simp [ProjectSurface_search]
      · intro k hk; exact rd_set_ne _ _ _ _ hk
      · intro hb; simp [hb] at h
    · simp
  · simp

theorem ProjectSurface_project_fields (env : Env) (m_stol : ℚ) (ms : FEFacetSlidingSurface)
    (bsegup : Bool) (x : vec3d) (ni : Nat) (st : ProjState) :
    let r := ProjectSurface_project env m_stol ms bsegup x ni st
    r.1.ss.m_Lm = st.ss.m_Lm ∧ r.1.ss.m_gap = st.ss.m_gap ∧ r.1.ss.m_nu = st.ss.m_nu ∧
    r.1.ss.m_eps = st.ss.m_eps ∧ r.1.ss.m_Ln = st.ss.m_Ln ∧ r.1.ss.m_el = st.ss.m_el ∧
    r.1.ss.m_nei = st.ss.m_nei ∧
    (∀ k, k ≠ ni → rd r.1.ss.m_pme k = rd st.ss.m_pme k) ∧
    (bsegup = false → r.1.ss.m_pme = st.ss.m_pme) := by
  have hr := ProjectSurface_refine_fields env m_stol ms bsegup x ni st
  simp only at hr
  obtain ⟨h1, h2, h3, h4, h5, h6, h7, h8, h9⟩ := hr
  unfold ProjectSurface_project ProjectSurface_segup
  cases bsegup with
  | false => simp [h1, h2, h3, h4, h5, h6, h7, h9]
  | true =>
    have hs := ProjectSurface_search_fields env m_stol ms x
      (ProjectSurface_refine env m_stol ms true x ni st).2 ni
      (ProjectSurface_refine env m_stol ms true x ni st).1
    simp only at hs
    obtain ⟨g1, g2, g3, g4, g5, g6, g7, g8⟩ := hs
    simp only [if_true]
    refine ⟨g1.trans h1, g2.trans h2, g3.trans h3, g4.trans h4, g5.trans h5, g6.trans h6,
      g7.trans h7, ?_, ?_⟩
    · intro k hk
      rw [g8, rd_set_ne _ _ _ _ hk]
      exact h8 k hk
    · intro hb; cases hb

/-- What the last conditional does: the face references are kept; at a point without a face the
gap and the multiplier are cleared, at a point with a face the multiplier is kept and the gap is
recomputed. Entries of other points are not written. -/
theorem ProjectSurface_gap_fields (env : Env) (ms : FEFacetSlidingSurface) (x : vec3d) (ni : Nat)
    (p : ProjState × vec3d) :
    let r := ProjectSurface_gap env ms x ni p
    r.ss.m_pme = p.1.ss.m_pme ∧ r.ss.m_eps = p.1.ss.m_eps ∧ r.ss.m_Ln = p.1.ss.m_Ln ∧
    r.ss.m_el = p.1.ss.m_el ∧ r.ss.m_nei = p.1.ss.m_nei ∧ r.ss.m_rs = p.1.ss.m_rs ∧
    (∀ k, k ≠ ni → rd r.ss.m_Lm k = rd p.1.ss.m_Lm k ∧ rd r.ss.m_gap k = rd p.1.ss.m_gap k) ∧
    (rd p.1.ss.m_pme ni = none → rd r.ss.m_gap ni = 0 ∧ rd r.ss.m_Lm ni = 0) ∧
    (rd p.1.ss.m_pme ni ≠ none → r.ss.m_Lm = p.1.ss.m_Lm) := by
  unfold ProjectSurface_gap
  dsimp only
  split
  · rename_i me hme
    refine ⟨rfl, rfl, rfl, rfl, rfl, rfl, ?_, ?_, ?_⟩
    · intro k hk; exact ⟨rfl, rd_set_ne _ _ _ _ hk⟩
    · intro h; rw [h] at hme; cases hme
    · intro _; rfl
  · rename_i hme
    refine ⟨rfl, rfl, rfl, rfl, rfl, rfl, ?_, ?_, ?_⟩
    · intro k hk; exact ⟨rd_set_ne _ _ _ _ hk, rd_set_ne _ _ _ _ hk⟩
    · intro _; exact ⟨rd_set_default _ _, rd_set_default _ _⟩
    · intro h; exact absurd hme h

/-- Summary of one execution of the loop body of `ProjectSurface` at point `ni`. -/
theorem ProjectSurface_point_fields (env : Env) (m_stol : ℚ) (ms : FEFacetSlidingSurface)
    (bsegup : Bool) (se : FESurfaceElement) (j ni : Nat) (st : ProjState) :
    (ProjectSurface_point env m_stol ms bsegup se j ni st).ss.m_el = st.ss.m_el ∧
    (ProjectSurface_point env m_stol ms bsegup se j ni st).ss.m_eps = st.ss.m_eps ∧
    (ProjectSurface_point env m_stol ms bsegup se j ni st).ss.m_Ln = st.ss.m_Ln ∧
    (ProjectSurface_point env m_stol ms bsegup se j ni st).ss.m_nei = st.ss.m_nei ∧
    (∀ k, k ≠ ni →
      rd (ProjectSurface_point env m_stol ms bsegup se j ni st).ss.m_pme k = rd st.ss.m_pme k ∧
      rd (ProjectSurface_point env m_stol ms bsegup se j ni st).ss.m_Lm k = rd st.ss.m_Lm k ∧
      rd (ProjectSurface_point env m_stol ms bsegup se j ni st).ss.m_gap k = rd st.ss.m_gap k) ∧
    (rd (ProjectSurface_point env m_stol ms bsegup se j ni st).ss.m_pme ni = none →
      rd (ProjectSurface_point env m_stol ms bsegup se j ni st).ss.m_gap ni = 0 ∧
      rd (ProjectSurface_point env m_stol ms bsegup se j ni st).ss.m_Lm ni = 0) ∧
    (rd (ProjectSurface_point env m_stol ms bsegup se j ni st).ss.m_pme ni ≠ none →
      (ProjectSurface_point env m_stol ms bsegup se j ni st).ss.m_Lm = st.ss.m_Lm) ∧
    (bsegup = false →
      (ProjectSurface_point env m_stol ms bsegup se j ni st).ss.m_pme = st.ss.m_pme) := by
  have hp := ProjectSurface_project_fields env m_stol ms bsegup (gaussPosition env se j) ni st
  have hg := ProjectSurface_gap_fields env ms (gaussPosition env se j) ni
    (ProjectSurface_project env m_stol ms bsegup (gaussPosition env se j) ni st)
  simp only at hp hg
  obtain ⟨p1, p2, _, p4, p5, p6, p7, p8, p9⟩ := hp
  obtain ⟨g1, g2, g3, g4, g5, _, g7, g8, g9⟩ := hg
  unfold ProjectSurface_point
  simp only
  refine ⟨g4.trans p6, g2.trans p4, g3.trans p5, g5.trans p7, ?_, ?_, ?_, ?_⟩
  · intro k hk
    refine ⟨?_, ?_, ?_⟩
    · rw [g1]; exact p8 k hk
    · rw [(g7 k hk).1, p1]
    · rw [(g7 k hk).2, p2]
  · intro h
    rw [g1] at h
    exact g8 h
  · intro h
    rw [g1] at h
    rw [g9 h, p1]
  · intro hb
    rw [g1]
    exact p9 hb

/-- A pass of `ProjectSurface` processes the points `0 .. npoints-1`. -/
theorem ProjectSurface_counter (env : Env) (m_stol : ℚ) (ss ms : FEFacetSlidingSurface)
    (bsegup : Bool) :
    (elemLoop (ProjectSurface_point env m_stol ms bsegup) ss.m_el 0 ⟨ss, true⟩).1 = ss.npoints := by
  rw [elemLoop_fst]
  simp [FEFacetSlidingSurface.npoints]

/-- Multipliers after a pass of `ProjectSurface`: a processed point without a face has
multiplier 0, every other entry holds its old value. -/
theorem ProjectSurface_Lm (env : Env) (m_stol : ℚ) (ss ms : FEFacetSlidingSurface)
    (bsegup : Bool) (k : Nat) :
    rd (ProjectSurface env m_stol ss ms bsegup).m_Lm k =
      if k < ss.npoints ∧ rd (ProjectSurface env m_stol ss ms bsegup).m_pme k = none then 0
      else rd ss.m_Lm k := by
  have key := elemLoop_inv
    (fun n (st : ProjState) =>
      (∀ k, k < n → rd st.ss.m_Lm k = if rd st.ss.m_pme k = none then 0 else rd ss.m_Lm k) ∧
      (∀ k, n ≤ k → rd st.ss.m_Lm k = rd ss.m_Lm k))
    (ProjectSurface_point env m_stol ms bsegup)
    (by
      intro se j n st ⟨h1, h2⟩
      obtain ⟨_, _, _, _, f5, f6, f7, _⟩ :=
        ProjectSurface_point_fields env m_stol ms bsegup se j n st
      refine ⟨?_, ?_⟩
      · intro k hk
        by_cases hkn : k = n
        · subst hkn
          by_cases hnone : rd (ProjectSurface_point env m_stol ms bsegup se j k st).ss.m_pme k = none
          · rw [if_pos hnone]; exact (f6 hnone).2
          · rw [if_neg hnone, f7 hnone]; exact h2 k (le_refl k)
        · obtain ⟨e1, e2, _⟩ := f5 k hkn
          rw [e1, e2]
          exact h1 k (by omega)
      · intro k hk
        have hkn : k ≠ n := by omega
        rw [(f5 k hkn).2.1]
        exact h2 k (by omega))
    ss.m_el 0 ⟨ss, true⟩ ⟨by intro k hk; omega, by intro k _; rfl⟩
  rw [ProjectSurface_counter] at key
  obtain ⟨k1, k2⟩ := key
  unfold ProjectSurface
  by_cases hk : k < ss.npoints
  · rw [k1 k hk]
    simp [hk]
  · rw [k2 k (by omega)]
    simp [hk]

/-- Gaps and multipliers of the points without a face after a pass of `ProjectSurface`. -/
theorem ProjectSurface_cleared (env : Env) (m_stol : ℚ) (ss ms : FEFacetSlidingSurface)
    (bsegup : Bool) (k : Nat) (hk : k < ss.npoints)
    (hnull : rd (ProjectSurface env m_stol ss ms bsegup).m_pme k = none) :
    rd (ProjectSurface env m_stol ss ms bsegup).m_gap k = 0 ∧
    rd (ProjectSurface env m_stol ss ms bsegup).m_Lm k = 0 := by
  have key := elemLoop_inv
    (fun n (st : ProjState) =>
      ∀ k, k < n → rd st.ss.m_pme k = none → rd st.ss.m_gap k = 0 ∧ rd st.ss.m_Lm k = 0)
    (ProjectSurface_point env m_stol ms bsegup)
    (by
      intro se j n st h1
      obtain ⟨_, _, _, _, f5, f6, _, _⟩ :=
        ProjectSurface_point_fields env m_stol ms bsegup se j n st
      intro k hk hnone
      by_cases hkn : k = n
      · subst hkn
        exact f6 hnone
      · obtain ⟨e1, e2, e3⟩ := f5 k hkn
        rw [e1] at hnone
        rw [e2, e3]
        exact h1 k (by omega) hnone)
    ss.m_el 0 ⟨ss, true⟩ (by intro k hk; omega)
  rw [ProjectSurface_counter] at key
  exact key k hk hnull

/-- Without segment update no face reference is written. -/
theorem ProjectSurface_pme_frozen (env : Env) (m_stol : ℚ) (ss ms : FEFacetSlidingSurface) :
    (ProjectSurface env m_stol ss ms false).m_pme = ss.m_pme := by
  have key := elemLoop_inv
    (fun _ (st : ProjState) => st.ss.m_pme = ss.m_pme)
    (ProjectSurface_point env m_stol ms false)
    (by
      intro se j n st h1
      obtain ⟨_, _, _, _, _, _, _, f8⟩ :=
        ProjectSurface_point_fields env m_stol ms false se j n st
      rw [f8 rfl]; exact h1)
    ss.m_el 0 ⟨ss, true⟩ rfl
  exact key

/-! ## The claims -/

theorem MBRACKET_nonneg (x : ℚ) : 0 ≤ MBRACKET x := le_max_left 0 x

/-- C6: after a pass of `ProjectSurface` (any `bsegup`, any external projection functions),
every integration point `k` of the projected surface whose face reference is null has gap 0
and multiplier 0. -/
theorem no_face_clears_gap_and_multiplier (env : Env) (m_stol : ℚ)
    (ss ms : FEFacetSlidingSurface) (bsegup : Bool) (k : Nat) (hk : k < ss.npoints)
    (hnull : rd (ProjectSurface env m_stol ss ms bsegup).m_pme k = none) :
    rd (ProjectSurface env m_stol ss ms bsegup).m_gap k = 0 ∧
    rd (ProjectSurface env m_stol ss ms bsegup).m_Lm k = 0 :=
  ProjectSurface_cleared env m_stol ss ms bsegup k hk hnull

/-- C6, on the example: the search finds no face for a point that was in contact with gap
`1/10` and multiplier 5; both are cleared. -/
theorem no_face_clears_gap_and_multiplier_witness :
    (0 < exContactSS.npoints ∧
      rd (ProjectSurface (exEnv none true) (1/100) exContactSS exMS true).m_pme 0 = none) ∧
    rd exContactSS.m_gap 0 = 1/10 ∧ rd exContactSS.m_Lm 0 = 5 ∧
    rd (ProjectSurface (exEnv none true) (1/100) exContactSS exMS true).m_gap 0 = 0 ∧
    rd (ProjectSurface (exEnv none true) (1/100) exContactSS exMS true).m_Lm 0 = 0 :=
  ⟨⟨by decide, rfl⟩, rfl, rfl,
    no_face_clears_gap_and_multiplier (exEnv none true) (1/100) exContactSS exMS true 0
      (by decide) rfl⟩

/-- C8: a pass of `ProjectSurface` with `bsegup = false` leaves the face reference of every
integration point as it was, for all external projection functions. -/
theorem face_reference_kept_without_segment_update (env : Env) (m_stol : ℚ)
    (ss ms : FEFacetSlidingSurface) :
    (ProjectSurface env m_stol ss ms false).m_pme = ss.m_pme :=
  ProjectSurface_pme_frozen env m_stol ss ms

/-! ### `UpdateContactPressures` writes the net tractions only -/

theorem UpdateContactPressures_point_frame (m_epsn : ℚ) (b : Bool) (ms : FEFacetSlidingSurface)
    (se : FESurfaceElement) (i ni : Nat) (ss : FEFacetSlidingSurface) :
    (UpdateContactPressures_point m_epsn b ms se i ni ss).m_Lm = ss.m_Lm ∧
    (UpdateContactPressures_point m_epsn b ms se i ni ss).m_pme = ss.m_pme ∧
    (UpdateContactPressures_point m_epsn b ms se i ni ss).m_el = ss.m_el ∧
    (UpdateContactPressures_point m_epsn b ms se i ni ss).m_gap = ss.m_gap ∧
    (UpdateContactPressures_point m_epsn b ms se i ni ss).m_eps = ss.m_eps := by
  unfold UpdateContactPressures_point
  dsimp only
  split <;> exact ⟨rfl, rfl, rfl, rfl, rfl⟩

theorem UpdateContactPressures_pass_frame (m_epsn : ℚ) (b : Bool)
    (ss ms : FEFacetSlidingSurface) :
    (UpdateContactPressures_pass m_epsn b ss ms).m_Lm = ss.m_Lm ∧
    (UpdateContactPressures_pass m_epsn b ss ms).m_pme = ss.m_pme ∧
    (UpdateContactPressures_pass m_epsn b ss ms).m_el = ss.m_el ∧
    (UpdateContactPressures_pass m_epsn b ss ms).m_gap = ss.m_gap ∧
    (UpdateContactPressures_pass m_epsn b ss ms).m_eps = ss.m_eps := by
  exact elemLoop_inv
    (fun _ (st : FEFacetSlidingSurface) =>
      st.m_Lm = ss.m_Lm ∧ st.m_pme = ss.m_pme ∧ st.m_el = ss.m_el ∧ st.m_gap = ss.m_gap ∧
      st.m_eps = ss.m_eps)
    (UpdateContactPressures_point m_epsn b ms)
    (by
      intro se j n st ⟨h1, h2, h3, h4, h5⟩
      obtain ⟨f1, f2, f3, f4, f5⟩ := UpdateContactPressures_point_frame m_epsn b ms se j n st
      exact ⟨f1.trans h1, f2.trans h2, f3.trans h3, f4.trans h4, f5.trans h5⟩)
    ss.m_el 0 ss ⟨rfl, rfl, rfl, rfl, rfl⟩

theorem UpdateContactPressures_frame (ci : FEFacet2FacetSliding) :
    (UpdateContactPressures ci).m_ss.m_Lm = ci.m_ss.m_Lm ∧
    (UpdateContactPressures ci).m_ss.m_pme = ci.m_ss.m_pme ∧
    (UpdateContactPressures ci).m_ms.m_Lm = ci.m_ms.m_Lm ∧
    (UpdateContactPressures ci).m_ms.m_pme = ci.m_ms.m_pme := by
  obtain ⟨a1, a2, _⟩ := UpdateContactPressures_pass_frame ci.m_epsn ci.m_btwo_pass ci.m_ss ci.m_ms
  unfold UpdateContactPressures
  dsimp only
  split
  · obtain ⟨b1, b2, _⟩ := UpdateContactPressures_pass_frame ci.m_epsn ci.m_btwo_pass ci.m_ms
      (UpdateContactPressures_pass ci.m_epsn ci.m_btwo_pass ci.m_ss ci.m_ms)
    exact ⟨a1, a2, b1, b2⟩
  · exact ⟨a1, a2, rfl, rfl⟩

/-- C7, as the code has it: `Update(niter)` resets to 0 the multiplier of every integration
point of a projected surface that has no face reference after the projection pass, and leaves
every other multiplier of both surfaces at its value before the call; `ContactForces` and
`ContactStiffness` do not write the interface at all. -/
theorem multipliers_kept_except_reset (env : Env) (g : Statics) (ci : FEFacet2FacetSliding)
    (niter : Int) (k : Nat) :
    rd (Update env g ci niter).2.m_ss.m_Lm k =
      (if k < ci.m_ss.npoints ∧ rd (Update env g ci niter).2.m_ss.m_pme k = none then 0
       else rd ci.m_ss.m_Lm k) ∧
    rd (Update env g ci niter).2.m_ms.m_Lm k =
      (if ci.m_btwo_pass = true ∧ k < ci.m_ms.npoints ∧
          rd (Update env g ci niter).2.m_ms.m_pme k = none then 0
       else rd ci.m_ms.m_Lm k) ∧
    (ContactForces env ci).1 = ci ∧ (ContactStiffness env ci).1 = ci := by
  refine ⟨?_, ?_, rfl, rfl⟩
  · unfold Update
    dsimp only
    split
    · obtain ⟨u1, u2, _, _⟩ := UpdateContactPressures_frame
        { ci with
          m_ss := ProjectSurface env ci.m_stol ci.m_ss ci.m_ms
            (Update_bupdate g.Update_bfirst ci.m_nsegup niter),
          m_ms := ProjectSurface env ci.m_stol ci.m_ms
            (ProjectSurface env ci.m_stol ci.m_ss ci.m_ms
              (Update_bupdate g.Update_bfirst ci.m_nsegup niter))
            (Update_bupdate g.Update_bfirst ci.m_nsegup niter) }
      rw [u1, u2]
      exact ProjectSurface_Lm env ci.m_stol ci.m_ss ci.m_ms _ k
    · obtain ⟨u1, u2, _, _⟩ := UpdateContactPressures_frame
        { ci with
          m_ss := ProjectSurface env ci.m_stol ci.m_ss ci.m_ms
            (Update_bupdate g.Update_bfirst ci.m_nsegup niter) }
      rw [u1, u2]
      exact ProjectSurface_Lm env ci.m_stol ci.m_ss ci.m_ms _ k
  · unfold Update
    dsimp only
    split
    · rename_i htp
      obtain ⟨_, _, u3, u4⟩ := UpdateContactPressures_frame
        { ci with
          m_ss := ProjectSurface env ci.m_stol ci.m_ss ci.m_ms
            (Update_bupdate g.Update_bfirst ci.m_nsegup niter),
          m_ms := ProjectSurface env ci.m_stol ci.m_ms
            (ProjectSurface env ci.m_stol ci.m_ss ci.m_ms
              (Update_bupdate g.Update_bfirst ci.m_nsegup niter))
            (Update_bupdate g.Update_bfirst ci.m_nsegup niter) }
      rw [u3, u4]
      have := ProjectSurface_Lm env ci.m_stol ci.m_ms
            (ProjectSurface env ci.m_stol ci.m_ss ci.m_ms
              (Update_bupdate g.Update_bfirst ci.m_nsegup niter))
            (Update_bupdate g.Update_bfirst ci.m_nsegup niter) k
      simp only [htp, true_and]
      exact this
    · rename_i htp
      obtain ⟨_, _, u3, u4⟩ := UpdateContactPressures_frame
        { ci with
          m_ss := ProjectSurface env ci.m_stol ci.m_ss ci.m_ms
            (Update_bupdate g.Update_bfirst ci.m_nsegup niter) }
      rw [u3]
      simp [htp]

/-- C7 as stated fails: the point of the example is in contact with multiplier 5; in an
`Update` whose segment update finds no face for it, the multiplier is reset to 0. -/
theorem update_changes_multiplier :
    rd (exInterface exContactSS exMS).m_ss.m_Lm 0 = 5 ∧
    rd (Update (exEnv none true) Statics.init (exInterface exContactSS exMS) 1).2.m_ss.m_Lm 0 = 0 ∧
    rd (Update (exEnv none true) Statics.init (exInterface exContactSS exMS) 1).2.m_ss.m_Lm 0
      ≠ rd (exInterface exContactSS exMS).m_ss.m_Lm 0 := by
  have h1 : rd (exInterface exContactSS exMS).m_ss.m_Lm 0 = 5 := rfl
  have h2 : rd (Update (exEnv none true) Statics.init (exInterface exContactSS exMS)
      1).2.m_ss.m_Lm 0 = 0 := rfl
  refine ⟨h1, h2, ?_⟩
  rw [h1, h2]
  norm_num

/-- C9 fails on the code: in a segment-update pass the point of the example has the prior
face `exMasterFace`, its refined projection is inside that face (`IsInsideElement` answers
true) with local coordinates `(1/4, 1/4)`, and still the closest-point search is run; the face
reference becomes the face the search returns, with the coordinates of the search. -/
theorem segment_update_always_searches :
    rd exContactSS.m_pme 0 = some exMasterFace ∧
    (exEnv (some exMasterFace2) true).IsInsideElement exMS exMasterFace (1/4) (1/4) (1/100)
      = true ∧
    (ProjectSurface_refine (exEnv (some exMasterFace2) true) (1/100) exMS true
        (gaussPosition (exEnv (some exMasterFace2) true) exSlaveFace 0) 0
        ⟨exContactSS, true⟩).1.ss.m_pme = [some exMasterFace] ∧
    (ProjectSurface_refine (exEnv (some exMasterFace2) true) (1/100) exMS true
        (gaussPosition (exEnv (some exMasterFace2) true) exSlaveFace 0) 0
        ⟨exContactSS, true⟩).1.ss.m_rs = [⟨1/4, 1/4⟩] ∧
    (ProjectSurface (exEnv (some exMasterFace2) true) (1/100) exContactSS exMS true).m_pme
      = [some exMasterFace2] ∧
    (ProjectSurface (exEnv (some exMasterFace2) true) (1/100) exContactSS exMS true).m_rs
      = [⟨1/3, 1/3⟩] ∧
    exMasterFace2 ≠ exMasterFace := by
  refine ⟨rfl, rfl, rfl, rfl, rfl, ?_, ?_⟩
  · have hx : gaussPosition (exEnv (some exMasterFace2) true) exSlaveFace 0 = ⟨1/3, 1/3, 1/2⟩ := by
      simp [gaussPosition, exSlaveFace, exFace, FESurfaceElement.Nodes, List.range,
        List.range.loop, rd, exEnv, exMesh, FEMesh.Node, vec3d.add, vec3d.smul, vec3d.zero]
      norm_num
    have h : (ProjectSurface (exEnv (some exMasterFace2) true) (1/100) exContactSS exMS true).m_rs
        = [⟨(gaussPosition (exEnv (some exMasterFace2) true) exSlaveFace 0).x,
            (gaussPosition (exEnv (some exMasterFace2) true) exSlaveFace 0).y⟩] := rfl
    rw [h, hx]
  · intro h
    have := congrArg FESurfaceElement.m_lid h
    revert this
    decide

/-- C10: `Activate` calls `ProjectSurface` with `bsegup = true` (for the slave surface, and for
the master surface in two-pass mode). `Update(niter)` calls it with `bsegup = bupdate`, where
`bupdate` is true exactly when the static `bfirst` is still true (no `Update` was executed
before), or `m_nsegup = 0`, or `niter <= m_nsegup`; the static is true at program start and
false after every `Update`. -/
theorem segment_update_schedule (env : Env) (g : Statics) (ci : FEFacet2FacetSliding)
    (niter : Int) :
    (Update_bupdate g.Update_bfirst ci.m_nsegup niter = true ↔
      (g.Update_bfirst = true ∨ ci.m_nsegup = 0 ∨ niter ≤ ci.m_nsegup)) ∧
    (Update_bupdate g.Update_bfirst ci.m_nsegup niter = false ↔
      ¬ (g.Update_bfirst = true ∨ ci.m_nsegup = 0 ∨ niter ≤ ci.m_nsegup)) ∧
    (Update env g ci niter).2 = UpdateContactPressures
      (if ci.m_btwo_pass then
        { ci with
          m_ss := ProjectSurface env ci.m_stol ci.m_ss ci.m_ms
            (Update_bupdate g.Update_bfirst ci.m_nsegup niter),
          m_ms := ProjectSurface env ci.m_stol ci.m_ms
            (ProjectSurface env ci.m_stol ci.m_ss ci.m_ms
              (Update_bupdate g.Update_bfirst ci.m_nsegup niter))
            (Update_bupdate g.Update_bfirst ci.m_nsegup niter) }
       else
        { ci with
          m_ss := ProjectSurface env ci.m_stol ci.m_ss ci.m_ms
            (Update_bupdate g.Update_bfirst ci.m_nsegup niter) }) ∧
    Statics.init.Update_bfirst = true ∧
    (Update env g ci niter).1.Update_bfirst = false ∧
    (Activate env ci).m_ss = ProjectSurface env ci.m_stol
      (if ci.m_bautopen then CalcAutoPenalty env ci.m_ss else ci.m_ss) ci.m_ms true ∧
    (Activate env ci).m_ms =
      (if ci.m_btwo_pass then
        (if ci.m_bautopen then
          CalcAutoPenalty env (ProjectSurface env ci.m_stol ci.m_ms (Activate env ci).m_ss true)
         else ProjectSurface env ci.m_stol ci.m_ms (Activate env ci).m_ss true)
       else ci.m_ms) := by
  have hb : Update_bupdate g.Update_bfirst ci.m_nsegup niter = true ↔
      (g.Update_bfirst = true ∨ ci.m_nsegup = 0 ∨ niter ≤ ci.m_nsegup) := by
    unfold Update_bupdate
    by_cases h1 : g.Update_bfirst = true
    · simp [h1]
    · by_cases h2 : ci.m_nsegup = 0
      · simp [h2]
      · simp [h1, h2]
  refine ⟨hb, ?_, ?_, rfl, rfl, ?_, ?_⟩
  · rw [← hb, Bool.not_eq_true]
  · unfold Update
    dsimp only
  · obtain ⟨nID, epsn, bautopen, blaugon, atol, btwo, gtol, nmin, nmax, knmult, stol, srad,
      dxtol, mu, epsf, nsegup, ss, ms⟩ := ci
    unfold Activate
    cases bautopen <;> cases btwo <;>
      simp only [Bool.false_eq_true, if_true, if_false] <;> split <;> rfl
  · obtain ⟨nID, epsn, bautopen, blaugon, atol, btwo, gtol, nmin, nmax, knmult, stol, srad,
      dxtol, mu, epsf, nsegup, ss, ms⟩ := ci
    unfold Activate
    cases bautopen <;> cases btwo <;>
      simp only [Bool.false_eq_true, if_true, if_false] <;> split <;> rfl

/-! ### `Augment` -/

/-- The multiplier update of `Augment` on one surface: every entry `i < m_Lm.size()` becomes
the clamped value computed from the old entries; nothing else is written. -/
theorem Augment_update_spec (m_epsn : ℚ) (s : FEFacetSlidingSurface) :
    (Augment_update m_epsn s).m_gap = s.m_gap ∧ (Augment_update m_epsn s).m_eps = s.m_eps ∧
    (Augment_update m_epsn s).m_Lm.length = s.m_Lm.length ∧
    (∀ i, i < s.m_Lm.length → rd (Augment_update m_epsn s).m_Lm i
      = MBRACKET (rd s.m_Lm i + m_epsn * rd s.m_eps i * rd s.m_gap i)) := by
  have key : ∀ n, n ≤ s.m_Lm.length →
      let t := (List.range n).foldl (Augment_update_step m_epsn) s
      t.m_gap = s.m_gap ∧ t.m_eps = s.m_eps ∧ t.m_Lm.length = s.m_Lm.length ∧
      (∀ i, i < n → rd t.m_Lm i = MBRACKET (rd s.m_Lm i + m_epsn * rd s.m_eps i * rd s.m_gap i)) ∧
      (∀ i, n ≤ i → rd t.m_Lm i = rd s.m_Lm i) := by
    intro n
    induction n with
    | zero =>
      intro _
      simp
    | succ n ih =>
      intro hn
      have ih2 := ih (by omega)
      simp only at ih2
      obtain ⟨h1, h2, h3, h4, h5⟩ := ih2
      simp only [List.range_succ, List.foldl_append, List.foldl_cons, List.foldl_nil,
        Augment_update_step]
      refine ⟨h1, h2, ?_, ?_, ?_⟩
      · rw [List.length_set]; exact h3
      · intro i hi
        by_cases hin : i = n
        · subst hin
          rw [rd_set_eq _ _ _ (by rw [h3]; omega), h1, h2, h5 i (le_refl i)]
        · rw [rd_set_ne _ _ _ _ hin]
          exact h4 i (by omega)
      · intro i hi
        rw [rd_set_ne _ _ _ _ (by omega)]
        exact h5 i (by omega)
  have k := key s.m_Lm.length (le_refl _)
  simp only at k
  obtain ⟨h1, h2, h3, h4, _⟩ := k
  exact ⟨h1, h2, h3, h4⟩

/-- C2: with augmentation enabled, when `Augment(naug)` returns false every multiplier of the
slave and of the master surface (`i < m_Lm.size()`, one entry per integration point) has been
replaced by `max(0, Lm_i + m_epsn*eps_i*gap_i)` computed from the values before the call; the
gaps and the penalty factors are as before. -/
theorem augment_updates_all_multipliers (env : Env) (g : Statics) (ci : FEFacet2FacetSliding)
    (naug : Int) (hon : ci.m_blaugon = true) (hret : (Augment env g ci naug).1 = false) :
    (∀ i, i < ci.m_ss.m_Lm.length → rd (Augment env g ci naug).2.2.m_ss.m_Lm i
      = max 0 (rd ci.m_ss.m_Lm i + ci.m_epsn * rd ci.m_ss.m_eps i * rd ci.m_ss.m_gap i)) ∧
    (∀ i, i < ci.m_ms.m_Lm.length → rd (Augment env g ci naug).2.2.m_ms.m_Lm i
      = max 0 (rd ci.m_ms.m_Lm i + ci.m_epsn * rd ci.m_ms.m_eps i * rd ci.m_ms.m_gap i)) ∧
    (Augment env g ci naug).2.2.m_ss.m_Lm.length = ci.m_ss.m_Lm.length ∧
    (Augment env g ci naug).2.2.m_ms.m_Lm.length = ci.m_ms.m_Lm.length ∧
    (Augment env g ci naug).2.2.m_ss.m_gap = ci.m_ss.m_gap ∧
    (Augment env g ci naug).2.2.m_ss.m_eps = ci.m_ss.m_eps ∧
    (Augment env g ci naug).2.2.m_ms.m_gap = ci.m_ms.m_gap ∧
    (Augment env g ci naug).2.2.m_ms.m_eps = ci.m_ms.m_eps := by
  obtain ⟨s1, s2, s3, s4⟩ := Augment_update_spec ci.m_epsn ci.m_ss
  obtain ⟨m1, m2, m3, m4⟩ := Augment_update_spec ci.m_epsn ci.m_ms
  unfold Augment at hret ⊢
  simp only [hon, Bool.not_true, Bool.false_eq_true, if_false] at hret ⊢
  simp only [hret, if_true]
  exact ⟨s4, m4, s3, m3, s1, s2, m1, m2⟩

/-- When the round number has reached `m_naugmax` the convergence flag is true. -/
theorem Augment_bconv_ceiling (m_atol m_gtol : ℚ) (m_naugmin m_naugmax : Int) (lnorm gnorm : ℚ)
    (naug : Int) (h : m_naugmax ≤ naug) :
    Augment_bconv m_atol m_gtol m_naugmin m_naugmax lnorm gnorm naug = true := by
  unfold Augment_bconv
  simp [h]

/-- The convergence flag in closed form. -/
theorem Augment_bconv_iff (m_atol m_gtol : ℚ) (m_naugmin m_naugmax : Int) (lnorm gnorm : ℚ)
    (naug : Int) :
    Augment_bconv m_atol m_gtol m_naugmin m_naugmax lnorm gnorm naug = true ↔
      (m_naugmax ≤ naug ∨
        ((m_atol ≤ 0 ∨ lnorm ≤ m_atol) ∧ (m_gtol ≤ 0 ∨ gnorm ≤ m_gtol) ∧ m_naugmin ≤ naug)) := by
  unfold Augment_bconv
  by_cases h4 : m_naugmax ≤ naug
  · simp [h4]
  · by_cases h3 : m_naugmin > naug
    · have : ¬ m_naugmin ≤ naug := by omega
      simp [h4, h3, this]
    · have h3b : m_naugmin ≤ naug := by omega
      by_cases h2 : m_gtol > 0 ∧ gnorm > m_gtol
      · have : ¬ (m_gtol ≤ 0 ∨ gnorm ≤ m_gtol) := by
          rintro (h | h) <;> linarith [h2.1, h2.2]
        simp [h4, h3, h2, this]
      · have h2b : m_gtol ≤ 0 ∨ gnorm ≤ m_gtol := by
          by_cases hg : m_gtol ≤ 0
          · exact Or.inl hg
          · right
            by_contra hc
            exact h2 ⟨by linarith [not_le.mp hg], by linarith [not_le.mp hc]⟩
        by_cases h1 : m_atol > 0 ∧ lnorm > m_atol
        · have : ¬ (m_atol ≤ 0 ∨ lnorm ≤ m_atol) := by
            rintro (h | h) <;> linarith [h1.1, h1.2]
          simp [h4, h3, h2, h1, this]
        · have h1b : m_atol ≤ 0 ∨ lnorm ≤ m_atol := by
            by_cases hg : m_atol ≤ 0
            · exact Or.inl hg
            · right
              by_contra hc
              exact h1 ⟨by linarith [not_le.mp hg], by linarith [not_le.mp hc]⟩
          simp [h4, h3, h2, h1, h1b, h2b, h3b]

theorem fabs_eq_abs (x : ℚ) : fabs x = |x| := by
  unfold fabs
  split
  · rename_i h; rw [abs_of_neg h]
  · rename_i h; rw [abs_of_nonneg (not_lt.mp h)]

theorem sumSquares_eq (acc : ℚ) (Lm : List ℚ) :
    sumSquares acc Lm = acc + ((List.range Lm.length).map fun i => (rd Lm i) ^ 2).sum := by
  unfold sumSquares
  generalize List.range Lm.length = xs
  induction xs generalizing acc with
  | nil => simp
  | cons x xs ih =>
    simp only [List.foldl_cons, List.map_cons, List.sum_cons]
    rw [ih]; ring

theorem Augment_accumulate_eq (m_epsn : ℚ) (s : FEFacetSlidingSurface) (a0 : AugNorms) :
    (Augment_accumulate m_epsn s a0).normL1
      = a0.normL1 + ((List.range s.m_Lm.length).map fun i => (clampedTraction m_epsn s i) ^ 2).sum ∧
    (Augment_accumulate m_epsn s a0).normg1
      = a0.normg1 + ((positiveGaps s).map fun i => (rd s.m_gap i) ^ 2).sum ∧
    (Augment_accumulate m_epsn s a0).N = a0.N + ((positiveGaps s).length : Int) := by
  unfold Augment_accumulate positiveGaps
  generalize List.range s.m_Lm.length = xs
  induction xs generalizing a0 with
  | nil => simp
  | cons x xs ih =>
    simp only [List.foldl_cons, List.map_cons, List.sum_cons]
    obtain ⟨i1, i2, i3⟩ := ih (Augment_accumulate_step m_epsn s a0 x)
    rw [i1, i2, i3]
    unfold Augment_accumulate_step
    by_cases hpos : rd s.m_gap x > 0
    · have hpos2 : 0 < rd s.m_gap x := hpos
      simp only [hpos, if_true, List.filter_cons, hpos2, decide_True, List.map_cons,
        List.sum_cons, List.length_cons, clampedTraction, MBRACKET]
      refine ⟨by ring, by ring, by push_cast; ring⟩
    · have hpos2 : ¬ 0 < rd s.m_gap x := hpos
      simp only [hpos, if_false, List.filter_cons, hpos2, decide_False, clampedTraction,
        MBRACKET]
      refine ⟨by ring, by simp, by simp⟩

theorem Augment_normL0_eq (env : Env) (ci : FEFacet2FacetSliding) :
    Augment_normL0 env ci = multiplierNorm env ci := by
  unfold Augment_normL0 multiplierNorm
  rw [sumSquares_eq, sumSquares_eq, zero_add]

theorem Augment_normL1_eq (env : Env) (ci : FEFacet2FacetSliding) :
    Augment_normL1 env ci = tractionNorm env ci := by
  unfold Augment_normL1 tractionNorm Augment_sums
  rw [(Augment_accumulate_eq ci.m_epsn ci.m_ms _).1, (Augment_accumulate_eq ci.m_epsn ci.m_ss _).1,
    zero_add]

theorem Augment_normg1_eq (env : Env) (ci : FEFacet2FacetSliding) :
    Augment_normg1 env ci = positiveGapRms env ci := by
  unfold Augment_normg1 positiveGapRms Augment_sums
  dsimp only
  rw [(Augment_accumulate_eq ci.m_epsn ci.m_ms _).2.1, (Augment_accumulate_eq ci.m_epsn ci.m_ss _).2.1,
    (Augment_accumulate_eq ci.m_epsn ci.m_ms _).2.2, (Augment_accumulate_eq ci.m_epsn ci.m_ss _).2.2,
    zero_add, zero_add]
  congr 2
  by_cases h : (positiveGaps ci.m_ss).length + (positiveGaps ci.m_ms).length = 0
  · have h1 : (positiveGaps ci.m_ss).length = 0 := by omega
    have h2 : (positiveGaps ci.m_ms).length = 0 := by omega
    simp [h1, h2]
  · have hne : ((positiveGaps ci.m_ss).length : Int) + ((positiveGaps ci.m_ms).length : Int) ≠ 0 := by
      omega
    have hmax : max 1 ((positiveGaps ci.m_ss).length + (positiveGaps ci.m_ms).length)
        = (positiveGaps ci.m_ss).length + (positiveGaps ci.m_ms).length := by omega
    rw [if_neg hne, hmax]
    push_cast
    rfl

theorem Augment_lnorm_eq (env : Env) (ci : FEFacet2FacetSliding) :
    Augment_lnorm env ci = relativeChange (tractionNorm env ci) (multiplierNorm env ci) := by
  unfold Augment_lnorm relativeChange
  dsimp only
  rw [Augment_normL0_eq, Augment_normL1_eq, fabs_eq_abs]
  by_cases h : tractionNorm env ci = 0 <;> simp [h]

theorem Augment_gnorm_eq (env : Env) (g : Statics) (ci : FEFacet2FacetSliding) (naug : Int) :
    Augment_gnorm env g ci naug
      = relativeChange (positiveGapRms env ci) (if naug = 0 then 0 else g.Augment_normg0) := by
  unfold Augment_gnorm relativeChange Augment_normg0
  dsimp only
  rw [Augment_normg1_eq, fabs_eq_abs]
  by_cases h : positiveGapRms env ci = 0 <;> simp [h]

/-- C3, as the code has it: with augmentation enabled, `Augment(naug)` returns true if and only
if `naug >= m_naugmax`, or else `(m_atol <= 0 or lnorm <= m_atol)` and
`(m_gtol <= 0 or gnorm <= m_gtol)` and `m_naugmin <= naug`. Here `lnorm` is the relative change
between the norm of the clamped tractions of all points of both surfaces and the norm of the
current multipliers, and `gnorm` the relative change between the root mean square of the
positive gaps and the value stored by the previous round (0 when `naug = 0`); the root mean
square is what the call stores for the next round. -/
theorem augment_returns_true_iff (env : Env) (g : Statics) (ci : FEFacet2FacetSliding)
    (naug : Int) (hon : ci.m_blaugon = true) :
    ((Augment env g ci naug).1 = true ↔
      (ci.m_naugmax ≤ naug ∨
        ((ci.m_atol ≤ 0 ∨
            relativeChange (tractionNorm env ci) (multiplierNorm env ci) ≤ ci.m_atol) ∧
          (ci.m_gtol ≤ 0 ∨
            relativeChange (positiveGapRms env ci) (if naug = 0 then 0 else g.Augment_normg0)
              ≤ ci.m_gtol) ∧
          ci.m_naugmin ≤ naug))) ∧
    (Augment env g ci naug).2.1.Augment_normg0 = positiveGapRms env ci := by
  unfold Augment
  simp only [hon, Bool.not_true, Bool.false_eq_true, if_false]
  rw [Augment_bconv_iff, Augment_lnorm_eq, Augment_gnorm_eq, Augment_normg1_eq]
  exact ⟨Iff.rfl, rfl⟩

/-- C3, on the example: at round 10 (the default `m_naugmax`) the call returns true. -/
theorem augment_returns_true_iff_witness :
    (exAugInterface exContactSS).m_blaugon = true ∧
    (Augment (exEnv none true) Statics.init (exAugInterface exContactSS) 10).1 = true :=
  ⟨rfl, (augment_returns_true_iff (exEnv none true) Statics.init (exAugInterface exContactSS) 10
    rfl).1.2 (Or.inl (by decide))⟩

/-- C3 as stated fails: at round `naug = m_naugmax = 10`, with augmentation enabled, `Augment`
returns true although `naug < m_naugmax` does not hold. -/
theorem augment_true_outside_round_bounds :
    (exAugInterface exContactSS).m_blaugon = true ∧
    (Augment (exEnv none true) Statics.init (exAugInterface exContactSS) 10).1 = true ∧
    ¬ (((exAugInterface exContactSS).m_atol ≤ 0 ∨
          Augment_lnorm (exEnv none true) (exAugInterface exContactSS)
            ≤ (exAugInterface exContactSS).m_atol) ∧
        ((exAugInterface exContactSS).m_gtol ≤ 0 ∨
          Augment_gnorm (exEnv none true) Statics.init (exAugInterface exContactSS) 10
            ≤ (exAugInterface exContactSS).m_gtol) ∧
        (exAugInterface exContactSS).m_naugmin ≤ 10 ∧
        (10 : Int) < (exAugInterface exContactSS).m_naugmax) := by
  refine ⟨rfl, rfl, ?_⟩
  intro h
  exact absurd h.2.2.2 (by decide)

/-- C4: with augmentation enabled and `naug >= m_naugmax`, `Augment(naug)` returns true
whatever the norms are and leaves the interface, in particular every multiplier of both
surfaces, unchanged. Hence among the calls `Augment(0), Augment(1), ...` a driver makes, on
any states with augmentation enabled and the same `m_naugmax`, one with round number at most
`max(m_naugmax, 0)` returns true. -/
theorem augment_stops_at_ceiling (env : Env) (g : Statics) (ci : FEFacet2FacetSliding)
    (naug : Int) (hon : ci.m_blaugon = true) (hmax : ci.m_naugmax ≤ naug) :
    (Augment env g ci naug).1 = true ∧
    (Augment env g ci naug).2.2 = ci ∧
    (Augment env g ci naug).2.2.m_ss.m_Lm = ci.m_ss.m_Lm ∧
    (Augment env g ci naug).2.2.m_ms.m_Lm = ci.m_ms.m_Lm ∧
    (∀ seq : Nat → Statics × FEFacet2FacetSliding,
      (∀ n, (seq n).2.m_blaugon = true ∧ (seq n).2.m_naugmax = ci.m_naugmax) →
      ∃ n : Nat, (n : Int) ≤ max ci.m_naugmax 0 ∧
        (Augment env (seq n).1 (seq n).2 (n : Int)).1 = true) := by
  have hret : ∀ (g2 : Statics) (c2 : FEFacet2FacetSliding) (k : Int), c2.m_blaugon = true →
      c2.m_naugmax ≤ k → (Augment env g2 c2 k).1 = true ∧ (Augment env g2 c2 k).2.2 = c2 := by
    intro g2 c2 k h1 h2
    unfold Augment
    simp only [h1, Bool.not_true, Bool.false_eq_true, if_false]
    rw [Augment_bconv_ceiling _ _ _ _ _ _ _ h2]
    simp
  obtain ⟨r1, r2⟩ := hret g ci naug hon hmax
  refine ⟨r1, r2, by rw [r2], by rw [r2], ?_⟩
  intro seq hseq
  refine ⟨(max ci.m_naugmax 0).toNat, ?_, ?_⟩
  · rw [Int.toNat_of_nonneg (le_max_right _ _)]
  · apply (hret _ _ _ (hseq _).1 _).1
    rw [(hseq _).2, Int.toNat_of_nonneg (le_max_right _ _)]
    exact le_max_left _ _

/-- C4, on the example: at round 10 the call returns true and the multiplier 5 is kept. -/
theorem augment_stops_at_ceiling_witness :
    ((exAugInterface exContactSS).m_blaugon = true ∧
      (exAugInterface exContactSS).m_naugmax ≤ 10) ∧
    (Augment (exEnv none true) Statics.init (exAugInterface exContactSS) 10).1 = true ∧
    (Augment (exEnv none true) Statics.init (exAugInterface exContactSS) 10).2.2.m_ss.m_Lm
      = [5] :=
  ⟨⟨rfl, by decide⟩,
    (augment_stops_at_ceiling (exEnv none true) Statics.init (exAugInterface exContactSS) 10
      rfl (by decide)).1,
    (augment_stops_at_ceiling (exEnv none true) Statics.init (exAugInterface exContactSS) 10
      rfl (by decide)).2.2.1⟩

/-- C2, on the example: at round 0 with `m_naugmin = 1` the call returns false; the
multiplier 5 of the point with gap `1/10` and penalty 1 becomes `5 + 1/10`. -/
theorem augment_updates_all_multipliers_witness :
    ({ exAugInterface exContactSS with m_naugmin := 1 }.m_blaugon = true ∧
      (Augment (exEnv none true) Statics.init
        { exAugInterface exContactSS with m_naugmin := 1 } 0).1 = false) ∧
    rd (Augment (exEnv none true) Statics.init
        { exAugInterface exContactSS with m_naugmin := 1 } 0).2.2.m_ss.m_Lm 0 = 51/10 := by
  have hret : (Augment (exEnv none true) Statics.init
      { exAugInterface exContactSS with m_naugmin := 1 } 0).1 = false := by
    simp [Augment, Augment_bconv, exAugInterface, exInterface]
  refine ⟨⟨rfl, hret⟩, ?_⟩
  rw [(augment_updates_all_multipliers (exEnv none true) Statics.init
    { exAugInterface exContactSS with m_naugmin := 1 } 0 rfl hret).1 0 (by decide)]
  simp [exAugInterface, exInterface, exContactSS, exSS, exSurface, rd]
  norm_num

/-- C16: after `Activate` the friction coefficient `m_mu` and the friction penalty `m_epsf`
are both 0, whatever their values before the call. -/
theorem friction_is_zero_after_activate (env : Env) (ci : FEFacet2FacetSliding) :
    (Activate env ci).m_mu = 0 ∧ (Activate env ci).m_epsf = 0 := by
  obtain ⟨nID, epsn, bautopen, blaugon, atol, btwo, gtol, nmin, nmax, knmult, stol, srad,
    dxtol, mu, epsf, nsegup, ss, ms⟩ := ci
  unfold Activate
  cases bautopen <;> cases btwo <;>
    simp only [Bool.false_eq_true, if_true, if_false] <;> split <;>
    first
    | exact ⟨rfl, rfl⟩
    | (rename_i h
       simp only [ne_eq, not_or, not_not] at h
       exact h)

theorem rd_map {α β : Type} [Inhabited α] [Inhabited β] (f : α → β) (hf : f default = default)
    (l : List α) (i : Nat) : rd (l.map f) i = f (rd l i) := by
  unfold rd
  rw [List.getD_eq_getElem?_getD, List.getD_eq_getElem?_getD, List.getElem?_map]
  cases l[i]? with
  | none => exact hf.symm
  | some x => rfl

/-- Entry `(k, l)` of a table scaled by `c`. -/
theorem rd_scaled_table (L : List (List ℚ)) (c : ℚ) (k l : Nat) :
    rd (rd (L.map fun row => row.map fun v => v * c) k) l = rd (rd L k) l * c := by
  rw [rd_map (fun row : List ℚ => row.map fun v => v * c) rfl,
    rd_map (fun v : ℚ => v * c) (zero_mul c)]

/-- The higher order matrix is the matrix computed with traction 1 and multiplier 1, scaled by
the traction times the multiplier. -/
theorem ContactStiffness_higher_scale (env : Env) (se me : FESurfaceElement) (j : Nat) (r s : ℚ)
    (nu : vec3d) (g tn knmult : ℚ) (Hs Hm N1 N2 : List ℚ) :
    (ContactStiffness_higher env se me j r s nu g tn knmult Hs Hm N1 N2).2.2
      = ((ContactStiffness_higher env se me j r s nu g 1 1 Hs Hm N1 N2).2.2).map
          (fun row => row.map fun v => v * (tn * knmult)) := by
  simp only [ContactStiffness_higher, List.map_map]
  apply List.map_congr_left
  intro k _
  simp only [Function.comp, List.map_map]
  apply List.map_congr_left
  intro l _
  simp only [Function.comp]
  ring

theorem ContactStiffness_higher_entry (env : Env) (se me : FESurfaceElement) (j : Nat) (r s : ℚ)
    (nu : vec3d) (g tn knmult : ℚ) (Hs Hm N1 N2 : List ℚ) (k l : Nat) :
    rd (rd (ContactStiffness_higher env se me j r s nu g tn knmult Hs Hm N1 N2).2.2 k) l
      = tn * knmult
        * rd (rd (ContactStiffness_higher env se me j r s nu g 1 1 Hs Hm N1 N2).2.2 k) l := by
  rw [ContactStiffness_higher_scale, rd_scaled_table]
  ring

/-- The arrays `N1` and `N2` after the higher order terms do not depend on the traction or
the multiplier. -/
theorem ContactStiffness_higher_arrays (env : Env) (se me : FESurfaceElement) (j : Nat)
    (r s : ℚ) (nu : vec3d) (g tn knmult : ℚ) (Hs Hm N1 N2 : List ℚ) :
    (ContactStiffness_higher env se me j r s nu g tn knmult Hs Hm N1 N2).1
      = setMasterEntries N1 (me.shape_deriv r s).1 se.Nodes me.Nodes nu ∧
    (ContactStiffness_higher env se me j r s nu g tn knmult Hs Hm N1 N2).2.1
      = setMasterEntries N2 (me.shape_deriv r s).2 se.Nodes me.Nodes nu :=
  ⟨rfl, rfl⟩

/-- A point with a face and a positive multiplier: the assembled matrix is the first order
term plus the traction `tn` times the multiplier times the higher order matrix computed with
traction 1 and multiplier 1; the arrays `N1`, `N2` get the entries of the opposing face. -/
theorem ContactStiffness_point_pos (env : Env) (m_epsn dxtol knmult : ℚ)
    (ss ms : FEFacetSlidingSurface) (se me : FESurfaceElement) (j ni : Nat) (st : StiffState)
    (hface : rd ss.m_pme ni = some me) (hk : 0 < knmult) :
    (ContactStiffness_point env m_epsn dxtol knmult ss ms se j ni st).K.map (fun a => a.val)
      = st.K.map (fun a => a.val) ++
        [(List.range (3 * (se.Nodes + me.Nodes))).map fun k =>
          (List.range (3 * (se.Nodes + me.Nodes))).map fun l =>
            ContactStiffness_dtn env (m_epsn * rd ss.m_eps ni) (rd ss.m_Lm ni)
                (rd ss.m_gap ni) dxtol
              * rd (shapeVector (rd se.H j) (me.shape_fnc (rd ss.m_rs ni).r (rd ss.m_rs ni).s)
                  se.Nodes me.Nodes (rd ss.m_nu ni)) k
              * rd (shapeVector (rd se.H j) (me.shape_fnc (rd ss.m_rs ni).r (rd ss.m_rs ni).s)
                  se.Nodes me.Nodes (rd ss.m_nu ni)) l
              * detJ env se j * rd se.gw j
            + contactTraction m_epsn ss ni * knmult
              * rd (rd (ContactStiffness_higher env se me j (rd ss.m_rs ni).r (rd ss.m_rs ni).s
                  (rd ss.m_nu ni) (rd ss.m_gap ni) 1 1 (rd se.H j)
                  (me.shape_fnc (rd ss.m_rs ni).r (rd ss.m_rs ni).s) st.N1 st.N2).2.2 k) l] ∧
    (ContactStiffness_point env m_epsn dxtol knmult ss ms se j ni st).N1
      = setMasterEntries st.N1 (me.shape_deriv (rd ss.m_rs ni).r (rd ss.m_rs ni).s).1
          se.Nodes me.Nodes (rd ss.m_nu ni) ∧
    (ContactStiffness_point env m_epsn dxtol knmult ss ms se j ni st).N2
      = setMasterEntries st.N2 (me.shape_deriv (rd ss.m_rs ni).r (rd ss.m_rs ni).s).2
          se.Nodes me.Nodes (rd ss.m_nu ni) := by
  have hk2 : knmult > 0 := hk
  unfold ContactStiffness_point
  simp only [hface, hk2, if_true, List.map_append, List.map_cons, List.map_nil]
  refine ⟨?_, rfl, rfl⟩
  congr 2
  apply List.map_congr_left
  intro k hk3
  apply List.map_congr_left
  intro l hl3
  have hk4 := List.mem_range.mp hk3
  have hl4 := List.mem_range.mp hl3
  rw [rd_map_range, if_pos hk4, rd_map_range, if_pos hl4, ContactStiffness_higher_entry]

/-- A point with a face and a multiplier that is not positive: the first order matrix only is
assembled and the arrays `N1`, `N2` are not written. -/
theorem ContactStiffness_point_nonpos (env : Env) (m_epsn dxtol knmult : ℚ)
    (ss ms : FEFacetSlidingSurface) (se me : FESurfaceElement) (j ni : Nat) (st : StiffState)
    (hface : rd ss.m_pme ni = some me) (hk : ¬ 0 < knmult) :
    (ContactStiffness_point env m_epsn dxtol knmult ss ms se j ni st).K.map (fun a => a.val)
      = st.K.map (fun a => a.val) ++
        [(List.range (3 * (se.Nodes + me.Nodes))).map fun k =>
          (List.range (3 * (se.Nodes + me.Nodes))).map fun l =>
            ContactStiffness_dtn env (m_epsn * rd ss.m_eps ni) (rd ss.m_Lm ni)
                (rd ss.m_gap ni) dxtol
              * rd (shapeVector (rd se.H j) (me.shape_fnc (rd ss.m_rs ni).r (rd ss.m_rs ni).s)
                  se.Nodes me.Nodes (rd ss.m_nu ni)) k
              * rd (shapeVector (rd se.H j) (me.shape_fnc (rd ss.m_rs ni).r (rd ss.m_rs ni).s)
                  se.Nodes me.Nodes (rd ss.m_nu ni)) l
              * detJ env se j * rd se.gw j] ∧
    (ContactStiffness_point env m_epsn dxtol knmult ss ms se j ni st).N1 = st.N1 ∧
    (ContactStiffness_point env m_epsn dxtol knmult ss ms se j ni st).N2 = st.N2 := by
  have hk2 : ¬ knmult > 0 := hk
  unfold ContactStiffness_point
  simp only [hface, hk2, if_false, List.map_append, List.map_cons, List.map_nil]
  exact ⟨trivial, trivial, trivial⟩

theorem truncToInt_of_nonneg (x : ℚ) (h : 0 ≤ x) : truncToInt x = Int.floor x := by
  unfold truncToInt
  rw [if_pos h]
  rfl

/-- C15: the higher order multiplier of `ContactStiffness` is
`ContactStiffness_knmult m_knmult nref`, computed once from the member `m_knmult` and the
reformation count and used at every point of both passes. For a point with a face: when
`m_knmult < 0` and `nref >= trunc(-m_knmult)` the multiplier is exactly 1 and the assembled
matrix is the first order term plus the traction times the higher order matrix; when
`m_knmult < 0` and `nref` is smaller the multiplier is 0, the first order term alone is
assembled and `N1`, `N2` are not written; when `m_knmult > 0` the higher order matrix is scaled
by `m_knmult` itself, and when `m_knmult = 0` it is omitted, whatever `nref` is. -/
theorem higher_order_multiplier (env : Env) (m_knmult : ℚ) (nref : Int) (m_epsn dxtol : ℚ)
    (ss ms : FEFacetSlidingSurface) (se me : FESurfaceElement) (j ni : Nat) (st : StiffState)
    (hface : rd ss.m_pme ni = some me) :
    (m_knmult < 0 → truncToInt (-m_knmult) ≤ nref →
      ContactStiffness_knmult m_knmult nref = 1 ∧
      (ContactStiffness_point env m_epsn dxtol (ContactStiffness_knmult m_knmult nref) ss ms se j
          ni st).K.map (fun a => a.val)
        = st.K.map (fun a => a.val) ++
          [(List.range (3 * (se.Nodes + me.Nodes))).map fun k =>
            (List.range (3 * (se.Nodes + me.Nodes))).map fun l =>
              ContactStiffness_dtn env (m_epsn * rd ss.m_eps ni) (rd ss.m_Lm ni)
                  (rd ss.m_gap ni) dxtol
                * rd (shapeVector (rd se.H j) (me.shape_fnc (rd ss.m_rs ni).r (rd ss.m_rs ni).s)
                    se.Nodes me.Nodes (rd ss.m_nu ni)) k
                * rd (shapeVector (rd se.H j) (me.shape_fnc (rd ss.m_rs ni).r (rd ss.m_rs ni).s)
                    se.Nodes me.Nodes (rd ss.m_nu ni)) l
                * detJ env se j * rd se.gw j
              + contactTraction m_epsn ss ni * 1
                * rd (rd (ContactStiffness_higher env se me j (rd ss.m_rs ni).r
                    (rd ss.m_rs ni).s (rd ss.m_nu ni) (rd ss.m_gap ni) 1 1 (rd se.H j)
                    (me.shape_fnc (rd ss.m_rs ni).r (rd ss.m_rs ni).s) st.N1 st.N2).2.2 k) l]) ∧
    (m_knmult < 0 → nref < truncToInt (-m_knmult) →
      ContactStiffness_knmult m_knmult nref = 0 ∧
      (ContactStiffness_point env m_epsn dxtol (ContactStiffness_knmult m_knmult nref) ss ms se j
          ni st).K.map (fun a => a.val)
        = st.K.map (fun a => a.val) ++
          [(List.range (3 * (se.Nodes + me.Nodes))).map fun k =>
            (List.range (3 * (se.Nodes + me.Nodes))).map fun l =>
              ContactStiffness_dtn env (m_epsn * rd ss.m_eps ni) (rd ss.m_Lm ni)
                  (rd ss.m_gap ni) dxtol
                * rd (shapeVector (rd se.H j) (me.shape_fnc (rd ss.m_rs ni).r (rd ss.m_rs ni).s)
                    se.Nodes me.Nodes (rd ss.m_nu ni)) k
                * rd (shapeVector (rd se.H j) (me.shape_fnc (rd ss.m_rs ni).r (rd ss.m_rs ni).s)
                    se.Nodes me.Nodes (rd ss.m_nu ni)) l
                * detJ env se j * rd se.gw j] ∧
      (ContactStiffness_point env m_epsn dxtol (ContactStiffness_knmult m_knmult nref) ss ms se j
          ni st).N1 = st.N1 ∧
      (ContactStiffness_point env m_epsn dxtol (ContactStiffness_knmult m_knmult nref) ss ms se j
          ni st).N2 = st.N2) ∧
    (m_knmult < 0 → truncToInt (-m_knmult) = Int.floor (-m_knmult)) ∧
    (0 < m_knmult → ∀ nref2 : Int,
      ContactStiffness_knmult m_knmult nref2 = m_knmult ∧
      (ContactStiffness_point env m_epsn dxtol (ContactStiffness_knmult m_knmult nref2) ss ms se
          j ni st).K.map (fun a => a.val)
        = st.K.map (fun a => a.val) ++
          [(List.range (3 * (se.Nodes + me.Nodes))).map fun k =>
            (List.range (3 * (se.Nodes + me.Nodes))).map fun l =>
              ContactStiffness_dtn env (m_epsn * rd ss.m_eps ni) (rd ss.m_Lm ni)
                  (rd ss.m_gap ni) dxtol
                * rd (shapeVector (rd se.H j) (me.shape_fnc (rd ss.m_rs ni).r (rd ss.m_rs ni).s)
                    se.Nodes me.Nodes (rd ss.m_nu ni)) k
                * rd (shapeVector (rd se.H j) (me.shape_fnc (rd ss.m_rs ni).r (rd ss.m_rs ni).s)
                    se.Nodes me.Nodes (rd ss.m_nu ni)) l
                * detJ env se j * rd se.gw j
              + contactTraction m_epsn ss ni * m_knmult
                * rd (rd (ContactStiffness_higher env se me j (rd ss.m_rs ni).r
                    (rd ss.m_rs ni).s (rd ss.m_nu ni) (rd ss.m_gap ni) 1 1 (rd se.H j)
                    (me.shape_fnc (rd ss.m_rs ni).r (rd ss.m_rs ni).s) st.N1 st.N2).2.2 k) l]) ∧
    (m_knmult = 0 → ∀ nref2 : Int,
      ContactStiffness_knmult m_knmult nref2 = 0 ∧
      (ContactStiffness_point env m_epsn dxtol (ContactStiffness_knmult m_knmult nref2) ss ms se
          j ni st).K.map (fun a => a.val)
        = st.K.map (fun a => a.val) ++
          [(List.range (3 * (se.Nodes + me.Nodes))).map fun k =>
            (List.range (3 * (se.Nodes + me.Nodes))).map fun l =>
              ContactStiffness_dtn env (m_epsn * rd ss.m_eps ni) (rd ss.m_Lm ni)
                  (rd ss.m_gap ni) dxtol
                * rd (shapeVector (rd se.H j) (me.shape_fnc (rd ss.m_rs ni).r (rd ss.m_rs ni).s)
                    se.Nodes me.Nodes (rd ss.m_nu ni)) k
                * rd (shapeVector (rd se.H j) (me.shape_fnc (rd ss.m_rs ni).r (rd ss.m_rs ni).s)
                    se.Nodes me.Nodes (rd ss.m_nu ni)) l
                * detJ env se j * rd se.gw j] ∧
      (ContactStiffness_point env m_epsn dxtol (ContactStiffness_knmult m_knmult nref2) ss ms se
          j ni st).N1 = st.N1 ∧
      (ContactStiffness_point env m_epsn dxtol (ContactStiffness_knmult m_knmult nref2) ss ms se
          j ni st).N2 = st.N2) ∧
    (∀ ci : FEFacet2FacetSliding, (ContactStiffness env ci).2
      = (if ci.m_btwo_pass then
          (elemLoop (ContactStiffness_point env ci.m_epsn (env.radius * ci.m_dxtol)
              (ContactStiffness_knmult ci.m_knmult env.m_nref) ci.m_ms ci.m_ss) ci.m_ms.m_el 0
            (elemLoop (ContactStiffness_point env ci.m_epsn (env.radius * ci.m_dxtol)
                (ContactStiffness_knmult ci.m_knmult env.m_nref) ci.m_ss ci.m_ms) ci.m_ss.m_el 0
              ⟨List.replicate (3 * env.MAX_NODES * 2) 0,
                List.replicate (3 * env.MAX_NODES * 2) 0, []⟩).2).2
        else
          (elemLoop (ContactStiffness_point env ci.m_epsn (env.radius * ci.m_dxtol)
              (ContactStiffness_knmult ci.m_knmult env.m_nref) ci.m_ss ci.m_ms) ci.m_ss.m_el 0
            ⟨List.replicate (3 * env.MAX_NODES * 2) 0,
              List.replicate (3 * env.MAX_NODES * 2) 0, []⟩).2).K) := by
  refine ⟨?_, ?_, ?_, ?_, ?_, ?_⟩
  · intro h1 h2
    have hk : ContactStiffness_knmult m_knmult nref = 1 := by
      unfold ContactStiffness_knmult
      simp [h1, h2]
    rw [hk]
    exact ⟨rfl, (ContactStiffness_point_pos env m_epsn dxtol 1 ss ms se me j ni st hface
      one_pos).1⟩
  · intro h1 h2
    have hk : ContactStiffness_knmult m_knmult nref = 0 := by
      unfold ContactStiffness_knmult
      have : ¬ nref ≥ truncToInt (-m_knmult) := by omega
      simp [h1, this]
    rw [hk]
    exact ⟨rfl, ContactStiffness_point_nonpos env m_epsn dxtol 0 ss ms se me j ni st hface
      (lt_irrefl 0)⟩
  · intro h1
    exact truncToInt_of_nonneg _ (by linarith)
  · intro h1 nref2
    have hk : ContactStiffness_knmult m_knmult nref2 = m_knmult := by
      unfold ContactStiffness_knmult
      simp [not_lt.mpr (le_of_lt h1)]
    rw [hk]
    exact ⟨rfl, (ContactStiffness_point_pos env m_epsn dxtol m_knmult ss ms se me j ni st hface
      h1).1⟩
  · intro h1 nref2
    have hk : ContactStiffness_knmult m_knmult nref2 = 0 := by
      unfold ContactStiffness_knmult
      simp [h1]
    rw [hk]
    exact ⟨rfl, ContactStiffness_point_nonpos env m_epsn dxtol 0 ss ms se me j ni st hface
      (lt_irrefl 0)⟩
  · intro ci
    rfl

/-- C15, on the example: with `m_knmult = -2` and reformation count 3 the multiplier is 1 and
the entry `(0, 11)` of the matrix assembled for the point of the example is `-(17/20)`, the
higher order term; with reformation count 1 the multiplier is 0 and the entry is 0. -/
theorem higher_order_multiplier_witness :
    rd exContactSS.m_pme 0 = some exMasterFace ∧
    ((-2 : ℚ) < 0 ∧ truncToInt (-(-2 : ℚ)) ≤ 3 ∧ (1 : Int) < truncToInt (-(-2 : ℚ))) ∧
    ContactStiffness_knmult (-2) 3 = 1 ∧
    rd (rd (rd ((ContactStiffness_point (exEnv none true) 1 0 (ContactStiffness_knmult (-2) 3)
        exContactSS exMS exSlaveFace 0 0
        ⟨List.replicate 48 0, List.replicate 48 0, []⟩).K.map fun a => a.val) 0) 0) 11
      = -(17/20) ∧
    ContactStiffness_knmult (-2) 1 = 0 ∧
    rd (rd (rd ((ContactStiffness_point (exEnv none true) 1 0 (ContactStiffness_knmult (-2) 1)
        exContactSS exMS exSlaveFace 0 0
        ⟨List.replicate 48 0, List.replicate 48 0, []⟩).K.map fun a => a.val) 0) 0) 11
      = 0 := by
  have hneg : (-2 : ℚ) < 0 := by norm_num
  have ht1 : truncToInt (-(-2 : ℚ)) ≤ 3 := by decide!
  have ht2 : (1 : Int) < truncToInt (-(-2 : ℚ)) := by decide!
  have h := higher_order_multiplier (exEnv none true) (-2) 3 1 0 exContactSS exMS exSlaveFace
    exMasterFace 0 0 ⟨List.replicate 48 0, List.replicate 48 0, []⟩ rfl
  have h2 := higher_order_multiplier (exEnv none true) (-2) 1 1 0 exContactSS exMS exSlaveFace
    exMasterFace 0 0 ⟨List.replicate 48 0, List.replicate 48 0, []⟩ rfl
  refine ⟨rfl, ⟨hneg, ht1, ht2⟩, (h.1 hneg ht1).1, ?_, (h2.2.1 hneg ht2).1, ?_⟩
  · rw [(h.1 hneg ht1).2]
    decide!
  · rw [(h2.2.1 hneg ht2).2.1]
    decide!

theorem shapeVector_slave (Hs Hm : List ℚ) (nseln nmeln : Nat) (v : vec3d) (a c : Nat)
    (ha : a < nseln) (hc : c < 3) :
    rd (shapeVector Hs Hm nseln nmeln v) (3 * a + c) = rd Hs a * v.comp c := by
  have hlt : 3 * a + c < 3 * (nseln + nmeln) := by omega
  unfold shapeVector
  rw [rd_eq_getElem _ _ (by simpa using hlt)]
  have h1 : 3 * a + c < 3 * nseln := by omega
  have h2 : (3 * a + c) / 3 = a := by omega
  have h3 : (3 * a + c) % 3 = c := by omega
  simp [h1, h2, h3]

theorem shapeVector_master (Hs Hm : List ℚ) (nseln nmeln : Nat) (v : vec3d) (a c : Nat)
    (ha : a < nmeln) (hc : c < 3) :
    rd (shapeVector Hs Hm nseln nmeln v) (3 * (a + nseln) + c) = -(rd Hm a) * v.comp c := by
  have hlt : 3 * (a + nseln) + c < 3 * (nseln + nmeln) := by omega
  unfold shapeVector
  rw [rd_eq_getElem _ _ (by simpa using hlt)]
  have h1 : ¬ 3 * (a + nseln) + c < 3 * nseln := by omega
  have h2 : (3 * (a + nseln) + c) / 3 - nseln = a := by omega
  have h3 : (3 * (a + nseln) + c) % 3 = c := by omega
  simp [h1, h2, h3]

theorem HEAVYSIDE_gate (eps x : ℚ) :
    eps * HEAVYSIDE x = if 0 < MBRACKET x then eps else 0 := by
  unfold HEAVYSIDE MBRACKET
  by_cases h : 0 < x
  · have : 0 < max 0 x := lt_max_of_lt_right h
    simp [h, this]
  · have : ¬ 0 < max 0 x := by
      rw [max_eq_left (not_lt.mp h)]; exact lt_irrefl 0
    simp [h, this]

/-- C14: with the insertion buffer disabled (`m_dxtol = 0`) and the higher order terms off
(multiplier not positive), the matrix `ContactStiffness` assembles for a point with a face is
`dtn*detJ*w*N*N^T`: `N` has the entries `+Hs[a]*nu` on the slave nodes and `-Hm[a]*nu` on the
nodes of the opposing face, and `dtn` is the effective penalty `m_epsn*eps_i` when the clamped
traction is positive and 0 when it is not. -/
theorem first_order_stiffness (env : Env) (m_epsn m_dxtol knmult : ℚ)
    (ss ms : FEFacetSlidingSurface) (se me : FESurfaceElement) (j ni : Nat) (st : StiffState)
    (hbuf : m_dxtol = 0) (hoff : ¬ 0 < knmult) (hface : rd ss.m_pme ni = some me) :
    (ContactStiffness_point env m_epsn (env.radius * m_dxtol) knmult ss ms se j ni st).K.map
        (fun a => a.val)
      = st.K.map (fun a => a.val) ++
        [(List.range (3 * (se.Nodes + me.Nodes))).map fun k =>
          (List.range (3 * (se.Nodes + me.Nodes))).map fun l =>
            (if 0 < contactTraction m_epsn ss ni then m_epsn * rd ss.m_eps ni else 0)
              * detJ env se j * rd se.gw j
              * (rd (shapeVector (rd se.H j) (me.shape_fnc (rd ss.m_rs ni).r (rd ss.m_rs ni).s)
                    se.Nodes me.Nodes (rd ss.m_nu ni)) k
                * rd (shapeVector (rd se.H j) (me.shape_fnc (rd ss.m_rs ni).r (rd ss.m_rs ni).s)
                    se.Nodes me.Nodes (rd ss.m_nu ni)) l)] ∧
    (∀ a c, a < se.Nodes → c < 3 →
      rd (shapeVector (rd se.H j) (me.shape_fnc (rd ss.m_rs ni).r (rd ss.m_rs ni).s)
          se.Nodes me.Nodes (rd ss.m_nu ni)) (3 * a + c)
        = rd (rd se.H j) a * (rd ss.m_nu ni).comp c) ∧
    (∀ a c, a < me.Nodes → c < 3 →
      rd (shapeVector (rd se.H j) (me.shape_fnc (rd ss.m_rs ni).r (rd ss.m_rs ni).s)
          se.Nodes me.Nodes (rd ss.m_nu ni)) (3 * (a + se.Nodes) + c)
        = -(rd (me.shape_fnc (rd ss.m_rs ni).r (rd ss.m_rs ni).s) a) * (rd ss.m_nu ni).comp c) := by
  refine ⟨?_, fun a c ha hc => shapeVector_slave _ _ _ _ _ a c ha hc,
    fun a c ha hc => shapeVector_master _ _ _ _ _ a c ha hc⟩
  have hk : ¬ knmult > 0 := hoff
  have hdtn : ContactStiffness_dtn env (m_epsn * rd ss.m_eps ni) (rd ss.m_Lm ni)
      (rd ss.m_gap ni) (env.radius * m_dxtol)
      = if 0 < contactTraction m_epsn ss ni then m_epsn * rd ss.m_eps ni else 0 := by
    unfold ContactStiffness_dtn contactTraction
    simp only [hbuf, mul_zero, ne_eq, not_true_eq_false, and_false, if_false]
    exact HEAVYSIDE_gate _ _
  unfold ContactStiffness_point
  simp only [hface, hk, if_false, List.map_append, List.map_cons, List.map_nil, hdtn]
  congr 2
  apply List.map_congr_left
  intro k _
  apply List.map_congr_left
  intro l _
  ring

/-- C14, on the example: the point of the example is in contact (traction `5 + 1/10`), and
with `m_dxtol = 0` and multiplier 0 one matrix is assembled for it. -/
theorem first_order_stiffness_witness :
    ((0 : ℚ) = 0 ∧ ¬ (0 : ℚ) < 0 ∧ rd exContactSS.m_pme 0 = some exMasterFace) ∧
    ((ContactStiffness_point (exEnv none true) 1 ((exEnv none true).radius * 0) 0 exContactSS
        exMS exSlaveFace 0 0 ⟨[], [], []⟩).K.map (fun a => a.val)).length = 1 := by
  refine ⟨⟨rfl, lt_irrefl 0, rfl⟩, ?_⟩
  rw [(first_order_stiffness (exEnv none true) 1 0 0 exContactSS exMS exSlaveFace exMasterFace
    0 0 ⟨[], [], []⟩ rfl (lt_irrefl 0) rfl).1]
  rfl

/-! ### `UpdateContactPressures`: the net tractions -/

theorem UpdateContactPressures_Ln_nonneg (m_epsn : ℚ) (b : Bool) (ss ms : FEFacetSlidingSurface) (ni : Nat) :
    0 ≤ UpdateContactPressures_Ln m_epsn b ss ms ni := by
  unfold UpdateContactPressures_Ln
  apply add_nonneg (le_max_left _ _)
  split
  · exact le_max_left _ _
  · exact le_refl _

theorem opposingTractions_congr (m_epsn : ℚ) (ms ms2 : FEFacetSlidingSurface)
    (pme : FESurfaceElement) (h1 : ms2.m_nei = ms.m_nei) (h2 : ms2.m_Lm = ms.m_Lm)
    (h3 : ms2.m_eps = ms.m_eps) (h4 : ms2.m_gap = ms.m_gap) :
    opposingTractions m_epsn ms2 pme = opposingTractions m_epsn ms pme := by
  unfold opposingTractions
  rw [h1, h2, h3, h4]

theorem UpdateContactPressures_Ln_congr (m_epsn : ℚ) (b : Bool) (ss ms ms2 : FEFacetSlidingSurface) (ni : Nat)
    (h1 : ms2.m_nei = ms.m_nei) (h2 : ms2.m_Lm = ms.m_Lm)
    (h3 : ms2.m_eps = ms.m_eps) (h4 : ms2.m_gap = ms.m_gap) :
    UpdateContactPressures_Ln m_epsn b ss ms2 ni = UpdateContactPressures_Ln m_epsn b ss ms ni := by
  unfold UpdateContactPressures_Ln
  congr 1
  split <;> simp only [opposingTractions_congr m_epsn ms ms2 _ h1 h2 h3 h4]

/-- One execution of the loop body of `UpdateContactPressures`: only `m_Ln[ni]` is written,
with the net traction of the point. -/
theorem UpdateContactPressures_point_spec (m_epsn : ℚ) (b : Bool) (ms : FEFacetSlidingSurface)
    (se : FESurfaceElement) (i ni : Nat) (ss : FEFacetSlidingSurface) :
    (UpdateContactPressures_point m_epsn b ms se i ni ss).m_Lm = ss.m_Lm ∧
    (UpdateContactPressures_point m_epsn b ms se i ni ss).m_pme = ss.m_pme ∧
    (UpdateContactPressures_point m_epsn b ms se i ni ss).m_el = ss.m_el ∧
    (UpdateContactPressures_point m_epsn b ms se i ni ss).m_gap = ss.m_gap ∧
    (UpdateContactPressures_point m_epsn b ms se i ni ss).m_eps = ss.m_eps ∧
    (UpdateContactPressures_point m_epsn b ms se i ni ss).m_rs = ss.m_rs ∧
    (UpdateContactPressures_point m_epsn b ms se i ni ss).m_nei = ss.m_nei ∧
    (UpdateContactPressures_point m_epsn b ms se i ni ss).m_Ln.length = ss.m_Ln.length ∧
    (∀ k, k ≠ ni →
      rd (UpdateContactPressures_point m_epsn b ms se i ni ss).m_Ln k = rd ss.m_Ln k) ∧
    (ni < ss.m_Ln.length →
      rd (UpdateContactPressures_point m_epsn b ms se i ni ss).m_Ln ni
        = UpdateContactPressures_Ln m_epsn b ss ms ni) := by
  unfold UpdateContactPressures_point UpdateContactPressures_Ln
  cases b <;> cases hp : rd ss.m_pme ni <;> dsimp only <;> simp only [hp] <;>
    refine ⟨trivial, trivial, trivial, trivial, trivial, trivial, trivial, ?_, ?_, ?_⟩ <;>
    first
    | (simp [List.length_set]; done)
    | (intro k hk
       simp [rd_set_ne _ _ _ _ hk])
    | (intro hlt
       simp [rd_set_eq, hlt, List.length_set, MBRACKET])

/-- One pass of `UpdateContactPressures` over a surface: the net traction of every processed
point is stored, nothing else is written. -/
theorem UpdateContactPressures_pass_spec (m_epsn : ℚ) (b : Bool)
    (ss ms : FEFacetSlidingSurface) :
    (UpdateContactPressures_pass m_epsn b ss ms).m_Lm = ss.m_Lm ∧
    (UpdateContactPressures_pass m_epsn b ss ms).m_gap = ss.m_gap ∧
    (UpdateContactPressures_pass m_epsn b ss ms).m_eps = ss.m_eps ∧
    (UpdateContactPressures_pass m_epsn b ss ms).m_nei = ss.m_nei ∧
    (∀ k, k < ss.npoints → k < ss.m_Ln.length →
      rd (UpdateContactPressures_pass m_epsn b ss ms).m_Ln k = UpdateContactPressures_Ln m_epsn b ss ms k) := by
  have key := elemLoop_inv
    (fun n (st : FEFacetSlidingSurface) =>
      (st.m_Lm = ss.m_Lm ∧ st.m_pme = ss.m_pme ∧ st.m_gap = ss.m_gap ∧ st.m_eps = ss.m_eps ∧
        st.m_rs = ss.m_rs ∧ st.m_nei = ss.m_nei ∧ st.m_Ln.length = ss.m_Ln.length) ∧
      (∀ k, k < n → k < ss.m_Ln.length → rd st.m_Ln k = UpdateContactPressures_Ln m_epsn b ss ms k))
    (UpdateContactPressures_point m_epsn b ms)
    (by
      intro se j n st ⟨⟨h1, h2, h3, h4, h5, h6, h7⟩, h8⟩
      obtain ⟨f1, f2, _, f4, f5, f6, f7, f8, f9, f10⟩ :=
        UpdateContactPressures_point_spec m_epsn b ms se j n st
      refine ⟨⟨f1.trans h1, f2.trans h2, f4.trans h3, f5.trans h4, f6.trans h5, f7.trans h6,
        f8.trans h7⟩, ?_⟩
      intro k hk hlen
      by_cases hkn : k = n
      · subst hkn
        rw [f10 (by rw [h7]; exact hlen)]
        unfold UpdateContactPressures_Ln
        rw [h1, h2, h3, h4, h5]
      · rw [f9 k hkn]
        exact h8 k (by omega) hlen)
    ss.m_el 0 ss ⟨⟨rfl, rfl, rfl, rfl, rfl, rfl, rfl⟩, by intro k hk; omega⟩
  rw [elemLoop_fst] at key
  obtain ⟨⟨h1, _, h3, h4, _, h6, _⟩, h8⟩ := key
  refine ⟨h1, h3, h4, h6, ?_⟩
  intro k hk hlen
  exact h8 k (by simpa [FEFacetSlidingSurface.npoints] using hk) hlen

theorem foldl_add_eq_sum (f : Nat → ℚ) (l : List Nat) (a0 : ℚ) :
    l.foldl (fun a j => a + f j) a0 = a0 + (l.map f).sum := by
  induction l generalizing a0 with
  | nil => simp
  | cons x xs ih =>
    simp only [List.foldl_cons, List.map_cons, List.sum_cons]
    rw [ih]; ring

/-- The array `ti` of the code holds the clamped tractions of the points of the face. -/
theorem opposingTractions_eq (m_epsn : ℚ) (ms : FEFacetSlidingSurface) (pme : FESurfaceElement)
    (j : Nat) :
    rd (opposingTractions m_epsn ms pme) j
      = if j < pme.nint then faceTraction m_epsn ms pme j else 0 := by
  have h : opposingTractions m_epsn ms pme
      = (List.range pme.nint).map fun j => faceTraction m_epsn ms pme j := by
    have hc : ∀ l : List Nat,
        (l >>= fun a => (pure (Int.ofNat a) : List Int)) = l.map Int.ofNat := by
      intro l
      induction l with
      | nil => rfl
      | cons x xs ih =>
        have h2 : ((x :: xs) >>= fun a => (pure (Int.ofNat a) : List Int))
            = Int.ofNat x :: (xs >>= fun a => (pure (Int.ofNat a) : List Int)) := by
          simp
        rw [h2, ih]
        rfl
    unfold opposingTractions
    simp only [FESurfaceElement.GaussPoints]
    refine (congrArg _ (hc (List.range pme.nint))).trans ?_
    rw [List.map_map]
    rfl
  rw [h, rd_map_range]
  rfl

/-- The function `project_to_nodes` applied to `ti` gives the nodal tractions. -/
theorem project_to_nodes_eq (m_epsn : ℚ) (ms : FEFacetSlidingSurface) (pme : FESurfaceElement)
    (a : Nat) :
    rd (pme.project_to_nodes (opposingTractions m_epsn ms pme)) a
      = if a < pme.neln then nodalTraction m_epsn ms pme a else 0 := by
  unfold FESurfaceElement.project_to_nodes
  rw [rd_map_range]
  by_cases ha : a < pme.neln
  · have ha2 : a < pme.Nodes := ha
    rw [if_pos ha2, if_pos ha, foldl_add_eq_sum, zero_add]
    unfold nodalTraction
    congr 1
    apply List.map_congr_left
    intro j hj
    have hj2 : j < pme.nint := List.mem_range.mp hj
    rw [opposingTractions_eq, if_pos hj2]
  · have ha2 : ¬ a < pme.Nodes := ha
    rw [if_neg ha2, if_neg ha]
    rfl

/-- The shape functions of the code are those of a triangle and of a quadrilateral. -/
theorem shape_fnc_eq (pme : FESurfaceElement) (r s : ℚ) (a : Nat) :
    rd (pme.shape_fnc r s) a = faceShape pme.neln r s a := by
  unfold FESurfaceElement.shape_fnc faceShape FESurfaceElement.Nodes
  by_cases h4 : pme.neln = 4
  · have h3 : ¬ pme.neln = 3 := by omega
    rw [if_pos h4, if_neg h3, if_pos h4]
    rcases a with _ | _ | _ | _ | a
    · rfl
    · rfl
    · rfl
    · rfl
    · have e1 : ¬ a + 4 = 0 := by omega
      have e2 : ¬ a + 4 = 1 := by omega
      have e3 : ¬ a + 4 = 2 := by omega
      have e4 : ¬ a + 4 = 3 := by omega
      rw [if_neg e1, if_neg e2, if_neg e3, if_neg e4]
      rfl
  · rw [if_neg h4]
    by_cases h3 : pme.neln = 3
    · rw [if_pos h3, if_pos h3]
      rcases a with _ | _ | _ | a
      · rfl
      · rfl
      · rfl
      · have e1 : ¬ a + 3 = 0 := by omega
        have e2 : ¬ a + 3 = 1 := by omega
        have e3 : ¬ a + 3 = 2 := by omega
        rw [if_neg e1, if_neg e2, if_neg e3]
        rfl
    · rw [if_neg h3, if_neg h3, if_neg h4]
      rfl

/-- The value `Ln` of the code is the interpolated traction of the specification. -/
theorem eval_project_eq (m_epsn : ℚ) (ms : FEFacetSlidingSurface) (pme : FESurfaceElement)
    (r s : ℚ) :
    pme.eval (pme.project_to_nodes (opposingTractions m_epsn ms pme)) r s
      = interpolatedTraction m_epsn ms pme r s := by
  unfold FESurfaceElement.eval interpolatedTraction
  dsimp only
  rw [foldl_add_eq_sum, zero_add]
  congr 1
  apply List.map_congr_left
  intro a ha
  have ha2 : a < pme.neln := List.mem_range.mp ha
  rw [shape_fnc_eq, project_to_nodes_eq, if_pos ha2]

/-- The value stored in `m_Ln` is the net traction of the specification. -/
theorem UpdateContactPressures_Ln_eq (m_epsn : ℚ) (b : Bool) (ss ms : FEFacetSlidingSurface)
    (ni : Nat) :
    UpdateContactPressures_Ln m_epsn b ss ms ni = netTraction m_epsn b ss ms ni := by
  unfold UpdateContactPressures_Ln netTraction
  congr 1
  split
  · rw [eval_project_eq]
  · rfl

/-- C1: the normal traction at an integration point, as computed in `ContactForces`,
`ContactStiffness` and `UpdateContactPressures`, is `max(0, Lm + (m_epsn*eps_i)*g)` and is
never negative. It is the factor `tn` of the force vector that `ContactForces` assembles for
the point; it is the factor of the higher order terms in the matrix that `ContactStiffness`
assembles for the point (first order term plus `tn*knmult` times the higher order matrix
computed with traction 1 and multiplier 1); it is the value `UpdateContactPressures` stores
for the point, to which the two-pass term is added; and every entry of the array `ti` of
`UpdateContactPressures` is the same expression at a point of the opposing face. -/
theorem traction_is_clamped (env : Env) (m_epsn : ℚ) (ss ms : FEFacetSlidingSurface)
    (se : FESurfaceElement) (j ni : Nat) (R : List (Assembly (List ℚ))) :
    contactTraction m_epsn ss ni
        = max 0 (rd ss.m_Lm ni + (m_epsn * rd ss.m_eps ni) * rd ss.m_gap ni) ∧
    0 ≤ contactTraction m_epsn ss ni ∧
    ContactForces_point env m_epsn ss ms se j ni R =
      (match rd ss.m_pme ni with
       | some me =>
         R ++ [⟨buildEN se me,
                buildLM (env.UnpackLM ss se) (env.UnpackLM ms me) se.Nodes me.Nodes,
                (shapeVector (rd se.H j) (me.shape_fnc (rd ss.m_rs ni).r (rd ss.m_rs ni).s)
                    se.Nodes me.Nodes (rd ss.m_nu ni)).map fun f =>
                  f * (max 0 (rd ss.m_Lm ni + (m_epsn * rd ss.m_eps ni) * rd ss.m_gap ni)
                        * detJ env se j * rd se.gw j)⟩]
       | none => R) ∧
    (∀ (dxtol knmult : ℚ) (st : StiffState) (me : FESurfaceElement),
      rd ss.m_pme ni = some me → 0 < knmult →
      (ContactStiffness_point env m_epsn dxtol knmult ss ms se j ni st).K.map (fun a => a.val)
        = st.K.map (fun a => a.val) ++
          [(List.range (3 * (se.Nodes + me.Nodes))).map fun k =>
            (List.range (3 * (se.Nodes + me.Nodes))).map fun l =>
              ContactStiffness_dtn env (m_epsn * rd ss.m_eps ni) (rd ss.m_Lm ni)
                  (rd ss.m_gap ni) dxtol
                * rd (shapeVector (rd se.H j) (me.shape_fnc (rd ss.m_rs ni).r (rd ss.m_rs ni).s)
                    se.Nodes me.Nodes (rd ss.m_nu ni)) k
                * rd (shapeVector (rd se.H j) (me.shape_fnc (rd ss.m_rs ni).r (rd ss.m_rs ni).s)
                    se.Nodes me.Nodes (rd ss.m_nu ni)) l
                * detJ env se j * rd se.gw j
              + max 0 (rd ss.m_Lm ni + (m_epsn * rd ss.m_eps ni) * rd ss.m_gap ni) * knmult
                * rd (rd (ContactStiffness_higher env se me j (rd ss.m_rs ni).r
                    (rd ss.m_rs ni).s (rd ss.m_nu ni) (rd ss.m_gap ni) 1 1 (rd se.H j)
                    (me.shape_fnc (rd ss.m_rs ni).r (rd ss.m_rs ni).s) st.N1 st.N2).2.2 k) l]) ∧
    (UpdateContactPressures_point m_epsn false ms se j ni ss).m_Ln
        = ss.m_Ln.set ni (max 0 (rd ss.m_Lm ni + (m_epsn * rd ss.m_eps ni) * rd ss.m_gap ni)) ∧
    (∀ b : Bool, ni < ss.m_Ln.length →
      rd (UpdateContactPressures_point m_epsn b ms se j ni ss).m_Ln ni
        = max 0 (rd ss.m_Lm ni + (m_epsn * rd ss.m_eps ni) * rd ss.m_gap ni)
          + (match b, rd ss.m_pme ni with
             | true, some pme =>
               max 0 (pme.eval (pme.project_to_nodes (opposingTractions m_epsn ms pme))
                 (rd ss.m_rs ni).r (rd ss.m_rs ni).s)
             | _, _ => 0)) ∧
    (∀ (pme : FESurfaceElement) (i : Nat), i < pme.GaussPoints →
      rd (opposingTractions m_epsn ms pme) i
        = max 0 (rd ms.m_Lm (rd ms.m_nei pme.m_lid.toNat + (i : Int)).toNat
            + (m_epsn * rd ms.m_eps (rd ms.m_nei pme.m_lid.toNat + (i : Int)).toNat)
              * rd ms.m_gap (rd ms.m_nei pme.m_lid.toNat + (i : Int)).toNat)) ∧
    (∀ pme : FESurfaceElement, ∀ t ∈ opposingTractions m_epsn ms pme, 0 ≤ t) := by
  refine ⟨rfl, MBRACKET_nonneg _, ?_, ?_, ?_, ?_, ?_, ?_⟩
  · unfold ContactForces_point
    cases rd ss.m_pme ni <;> rfl
  · intro dxtol knmult st me hface hk
    exact (ContactStiffness_point_pos env m_epsn dxtol knmult ss ms se me j ni st hface hk).1
  · unfold UpdateContactPressures_point
    rfl
  · intro b hlt
    have h := (UpdateContactPressures_point_spec m_epsn b ms se j ni ss).2.2.2.2.2.2.2.2.2 hlt
    rw [h]
    unfold UpdateContactPressures_Ln
    congr 2
  · intro pme i hi
    have hi2 : i < pme.nint := hi
    rw [opposingTractions_eq, if_pos hi2]
    rfl
  · intro pme t ht
    unfold opposingTractions at ht
    simp only [List.mem_map] at ht
    obtain ⟨_, _, rfl⟩ := ht
    exact MBRACKET_nonneg _

/-- C1, on the example: the point with multiplier 5, penalty 1 and gap `1/10` has the traction
`5 + 1/10`; with multiplier 1 for the higher order terms the entry `(0, 11)` of the matrix
assembled by the loop body of `ContactStiffness` is `-(17/20)`, which is the traction times the
entry `-(1/6)` of the higher order matrix computed with traction 1. -/
theorem traction_is_clamped_witness :
    (rd exContactSS.m_pme 0 = some exMasterFace ∧ (0 : ℚ) < 1) ∧
    contactTraction 1 exContactSS 0 = 51/10 ∧
    rd (rd (ContactStiffness_higher (exEnv none true) exSlaveFace exMasterFace 0
        (rd exContactSS.m_rs 0).r (rd exContactSS.m_rs 0).s (rd exContactSS.m_nu 0)
        (rd exContactSS.m_gap 0) 1 1 (rd exSlaveFace.H 0)
        (exMasterFace.shape_fnc (rd exContactSS.m_rs 0).r (rd exContactSS.m_rs 0).s)
        (List.replicate 48 0) (List.replicate 48 0)).2.2 0) 11 = -(1/6) ∧
    rd (rd (rd ((ContactStiffness_point (exEnv none true) 1 0 1 exContactSS exMS exSlaveFace 0 0
        ⟨List.replicate 48 0, List.replicate 48 0, []⟩).K.map fun a => a.val) 0) 0) 11
      = -(17/20) := by
  have h := (traction_is_clamped (exEnv none true) 1 exContactSS exMS exSlaveFace 0 0 []).2.2.2.1
    0 1 ⟨List.replicate 48 0, List.replicate 48 0, []⟩ exMasterFace rfl one_pos
  refine ⟨⟨rfl, one_pos⟩, ?_, ?_, ?_⟩
  · refine (traction_is_clamped (exEnv none true) 1 exContactSS exMS exSlaveFace 0 0 []).1.trans
      ?_
    decide!
  · decide!
  · rw [h]
    decide!

/-- C11: after `UpdateContactPressures` the net traction `m_Ln` of every integration point of
every processed surface (the slave surface, and the master surface in two-pass mode) is the
clamped traction `max(0, Lm + eps*gap)` of the point, to which in two-pass mode, for a point
with an opposing face, `max(0, T)` is added, `T` being the opposing face's clamped tractions
projected to its nodes and interpolated at the projection point; it is never negative. In
single-pass mode the master surface is not processed. -/
theorem net_traction_nonneg (ci : FEFacet2FacetSliding) (k : Nat) :
    (k < ci.m_ss.npoints → k < ci.m_ss.m_Ln.length →
      rd (UpdateContactPressures ci).m_ss.m_Ln k
          = netTraction ci.m_epsn ci.m_btwo_pass ci.m_ss ci.m_ms k ∧
      0 ≤ rd (UpdateContactPressures ci).m_ss.m_Ln k) ∧
    (ci.m_btwo_pass = true → k < ci.m_ms.npoints → k < ci.m_ms.m_Ln.length →
      rd (UpdateContactPressures ci).m_ms.m_Ln k
          = netTraction ci.m_epsn true ci.m_ms ci.m_ss k ∧
      0 ≤ rd (UpdateContactPressures ci).m_ms.m_Ln k) ∧
    (ci.m_btwo_pass = false →
      netTraction ci.m_epsn ci.m_btwo_pass ci.m_ss ci.m_ms k
          = max 0 (rd ci.m_ss.m_Lm k + ci.m_epsn * rd ci.m_ss.m_eps k * rd ci.m_ss.m_gap k) ∧
      (UpdateContactPressures ci).m_ms = ci.m_ms) := by
  obtain ⟨a1, a2, a3, a4, a5⟩ :=
    UpdateContactPressures_pass_spec ci.m_epsn ci.m_btwo_pass ci.m_ss ci.m_ms
  refine ⟨?_, ?_, ?_⟩
  · intro hk hlen
    have h : rd (UpdateContactPressures ci).m_ss.m_Ln k
        = netTraction ci.m_epsn ci.m_btwo_pass ci.m_ss ci.m_ms k := by
      rw [← UpdateContactPressures_Ln_eq]
      unfold UpdateContactPressures
      dsimp only
      split <;> exact a5 k hk hlen
    exact ⟨h, by
      rw [h, ← UpdateContactPressures_Ln_eq]
      exact UpdateContactPressures_Ln_nonneg _ _ _ _ _⟩
  · intro htp hk hlen
    obtain ⟨_, _, _, _, b5⟩ := UpdateContactPressures_pass_spec ci.m_epsn ci.m_btwo_pass ci.m_ms
      (UpdateContactPressures_pass ci.m_epsn ci.m_btwo_pass ci.m_ss ci.m_ms)
    have h : rd (UpdateContactPressures ci).m_ms.m_Ln k
        = netTraction ci.m_epsn true ci.m_ms ci.m_ss k := by
      rw [← UpdateContactPressures_Ln_eq]
      unfold UpdateContactPressures
      dsimp only
      rw [if_pos htp]
      dsimp only
      rw [b5 k hk hlen, UpdateContactPressures_Ln_congr _ _ _ _ _ _ a4 a1 a3 a2, htp]
    exact ⟨h, by
      rw [h, ← UpdateContactPressures_Ln_eq]
      exact UpdateContactPressures_Ln_nonneg _ _ _ _ _⟩
  · intro htp
    refine ⟨?_, ?_⟩
    · unfold netTraction
      rw [htp]
      simp
    · unfold UpdateContactPressures
      dsimp only
      rw [if_neg (by rw [htp]; exact Bool.false_ne_true)]

/-- C11, on the example: the point with multiplier 5, penalty 1 and gap `1/10` gets the net
traction `5 + 1/10` in single-pass mode; in two-pass mode, with the multiplier 2 at the point
of the opposing face, it gets `5 + 1/10 + 2`. -/
theorem net_traction_nonneg_witness :
    ((0 < (exInterface exContactSS exMS).m_ss.npoints ∧
        0 < (exInterface exContactSS exMS).m_ss.m_Ln.length) ∧
      rd (UpdateContactPressures (exInterface exContactSS exMS)).m_ss.m_Ln 0 = 51/10) ∧
    ((0 < ({ exInterface exContactSS { exMS with m_Lm := [2, 0] } with
              m_btwo_pass := true }).m_ss.npoints ∧
        0 < ({ exInterface exContactSS { exMS with m_Lm := [2, 0] } with
              m_btwo_pass := true }).m_ss.m_Ln.length) ∧
      rd (UpdateContactPressures { exInterface exContactSS { exMS with m_Lm := [2, 0] } with
              m_btwo_pass := true }).m_ss.m_Ln 0 = 71/10) := by
  refine ⟨⟨⟨by decide, by decide⟩, ?_⟩, ⟨⟨by decide, by decide⟩, ?_⟩⟩
  · refine (((net_traction_nonneg (exInterface exContactSS exMS) 0).1 (by decide)
      (by decide)).1).trans ?_
    have h : netTraction (exInterface exContactSS exMS).m_epsn
        (exInterface exContactSS exMS).m_btwo_pass (exInterface exContactSS exMS).m_ss
        (exInterface exContactSS exMS).m_ms 0 = max 0 (5 + 1 * 1 * (1/10)) + 0 := rfl
    rw [h]
    norm_num
  · refine (((net_traction_nonneg { exInterface exContactSS { exMS with m_Lm := [2, 0] } with
              m_btwo_pass := true } 0).1 (by decide) (by decide)).1).trans ?_
    decide!

/-! ### `CalcAutoPenalty` -/

/-- The inner loop of `CalcAutoPenalty`: the entries `ni .. ni + nint - 1` of `m_eps` are set
to `eps`. -/
theorem CalcAutoPenalty_inner (eps : ℚ) (js : List Nat) (ni : Nat) (s : FEFacetSlidingSurface) :
    (gaussLoop (fun _ n (t : FEFacetSlidingSurface) => { t with m_eps := t.m_eps.set n eps })
      js ni s).2.m_el = s.m_el ∧
    (gaussLoop (fun _ n (t : FEFacetSlidingSurface) => { t with m_eps := t.m_eps.set n eps })
      js ni s).2.m_eps.length = s.m_eps.length ∧
    (∀ k, (k < ni ∨ ni + js.length ≤ k) →
      rd (gaussLoop (fun _ n (t : FEFacetSlidingSurface) => { t with m_eps := t.m_eps.set n eps })
        js ni s).2.m_eps k = rd s.m_eps k) ∧
    (∀ k, ni ≤ k → k < ni + js.length → k < s.m_eps.length →
      rd (gaussLoop (fun _ n (t : FEFacetSlidingSurface) => { t with m_eps := t.m_eps.set n eps })
        js ni s).2.m_eps k = eps) := by
  induction js generalizing ni s with
  | nil =>
    refine ⟨rfl, rfl, fun _ _ => rfl, ?_⟩
    intro k h1 h2
    simp at h2
    omega
  | cons j js ih =>
    obtain ⟨i1, i2, i3, i4⟩ := ih (ni + 1) { s with m_eps := s.m_eps.set ni eps }
    simp only [gaussLoop, List.length_cons]
    refine ⟨i1, ?_, ?_, ?_⟩
    · rw [i2]; simp [List.length_set]
    · intro k hk
      rw [i3 k (by omega)]
      exact rd_set_ne _ _ _ _ (by omega)
    · intro k h1 h2 h3
      by_cases hk : k = ni
      · subst hk
        rw [i3 k (by omega)]
        exact rd_set_eq _ _ _ h3
      · exact i4 k (by omega) (by omega) (by simpa [List.length_set] using h3)

/-- The loop over the elements in `CalcAutoPenalty`. -/
theorem CalcAutoPenalty_elems_spec (env : Env) (hfix : env.ReadsElementsOnly)
    (els : List FESurfaceElement) (ni : Nat) (s : FEFacetSlidingSurface) :
    (CalcAutoPenalty_elems env els ni s).2.m_el = s.m_el ∧
    (CalcAutoPenalty_elems env els ni s).2.m_eps.length = s.m_eps.length ∧
    (∀ k, k < ni → rd (CalcAutoPenalty_elems env els ni s).2.m_eps k = rd s.m_eps k) ∧
    (∀ k, ni ≤ k → k < ni + (els.map FESurfaceElement.GaussPoints).sum → k < s.m_eps.length →
      ∃ el, elementOfPoint els (k - ni) = some el ∧
        rd (CalcAutoPenalty_elems env els ni s).2.m_eps k
          = env.BulkModulus el s * env.FaceArea s el / env.ElementVolume el.m_nelem) := by
  induction els generalizing ni s with
  | nil =>
    refine ⟨rfl, rfl, fun _ _ => rfl, ?_⟩
    intro k h1 h2
    simp at h2
    omega
  | cons el rest ih =>
    obtain ⟨eps, hE⟩ : ∃ eps, eps
        = env.BulkModulus el s * env.FaceArea s el / env.ElementVolume el.m_nelem := ⟨_, rfl⟩
    obtain ⟨g1, g2, g3, g4⟩ := CalcAutoPenalty_inner eps (List.range el.GaussPoints) ni s
    simp only [List.length_range] at g3 g4
    obtain ⟨i1, i2, i3, i4⟩ := ih
      (gaussLoop (fun _ n (t : FEFacetSlidingSurface) => { t with m_eps := t.m_eps.set n eps })
        (List.range el.GaussPoints) ni s).1
      (gaussLoop (fun _ n (t : FEFacetSlidingSurface) => { t with m_eps := t.m_eps.set n eps })
        (List.range el.GaussPoints) ni s).2
    rw [gaussLoop_fst, List.length_range] at i1 i2 i3 i4
    simp only [CalcAutoPenalty_elems, List.map_cons, List.sum_cons, ← hE, gaussLoop_fst,
      List.length_range]
    refine ⟨i1.trans g1, i2.trans g2, ?_, ?_⟩
    · intro k hk
      rw [i3 k (by omega)]
      exact g3 k (Or.inl hk)
    · intro k h1 h2 h3
      by_cases hk : k < ni + el.GaussPoints
      · refine ⟨el, ?_, ?_⟩
        · have : k - ni < el.GaussPoints := by omega
          simp [elementOfPoint, this]
        · rw [i3 k hk, ← hE]
          exact g4 k h1 hk h3
      · obtain ⟨e2, he, hv⟩ := i4 k (by omega) (by omega) (by rw [g2]; exact h3)
        refine ⟨e2, ?_, ?_⟩
        · have h4 : ¬ k - ni < el.GaussPoints := by omega
          have h5 : k - ni - el.GaussPoints = k - (ni + el.GaussPoints) := by omega
          simp only [elementOfPoint, h4, if_false, h5]
          exact he
        · rw [hv, (hfix _ s e2 g1).1, (hfix _ s e2 g1).2]

/-- C12: `CalcAutoPenalty` sets the penalty factor of every integration point `k` of the
surface to `K*A/V` of the element that owns the point (`K` the modulus of the face, `A` its
area, `V` the volume of the solid element it belongs to); the value depends on the element
only, so it is the same for all Gauss points of an element. -/
theorem auto_penalty_of_own_element (env : Env) (s : FEFacetSlidingSurface) (k : Nat)
    (hfix : env.ReadsElementsOnly) (hk : k < s.npoints) (hlen : k < s.m_eps.length) :
    ∃ el, elementOfPoint s.m_el k = some el ∧
      rd (CalcAutoPenalty env s).m_eps k
        = env.BulkModulus el s * env.FaceArea s el / env.ElementVolume el.m_nelem := by
  obtain ⟨_, _, _, h4⟩ := CalcAutoPenalty_elems_spec env hfix s.m_el 0 s
  have := h4 k (Nat.zero_le k) (by simpa [FEFacetSlidingSurface.npoints] using hk) hlen
  simpa [CalcAutoPenalty] using this

theorem exEnv_ReadsElementsOnly (found : Option FESurfaceElement) (inside : Bool) :
    (exEnv found inside).ReadsElementsOnly := by
  intro s t el _
  exact ⟨rfl, rfl⟩

/-- C12, on the example: the point of the slave face gets `K*A/V = 1*(1/2)/1`. -/
theorem auto_penalty_of_own_element_witness :
    ((exEnv none true).ReadsElementsOnly ∧ 0 < exContactSS.npoints ∧
      0 < exContactSS.m_eps.length) ∧
    rd (CalcAutoPenalty (exEnv none true) exContactSS).m_eps 0 = 1/2 := by
  refine ⟨⟨exEnv_ReadsElementsOnly none true, by decide, by decide⟩, ?_⟩
  obtain ⟨el, _, h⟩ := auto_penalty_of_own_element (exEnv none true) exContactSS 0
    (exEnv_ReadsElementsOnly none true) (by decide) (by decide)
  refine h.trans ?_
  simp [exEnv]

/-- C13: when a patch is scaled by a factor `c > 0`, so that the external functions return the
area `c^2*A` instead of `A` and the volume `c^3*V` instead of `V`, with the same modulus `K`,
the penalty factor `CalcAutoPenalty` computes for every integration point is the unscaled one
divided by `c`, that is, multiplied by `c^2/c^3`. -/
theorem auto_penalty_scale_covariance (env env2 : Env) (s : FEFacetSlidingSurface) (c : ℚ)
    (k : Nat) (hc : 0 < c) (hfix : env.ReadsElementsOnly)
    (hA : ∀ t el, env2.FaceArea t el = c ^ 2 * env.FaceArea t el)
    (hV : ∀ id, env2.ElementVolume id = c ^ 3 * env.ElementVolume id)
    (hK : ∀ el t, env2.BulkModulus el t = env.BulkModulus el t)
    (hk : k < s.npoints) (hlen : k < s.m_eps.length) :
    rd (CalcAutoPenalty env2 s).m_eps k = rd (CalcAutoPenalty env s).m_eps k / c ∧
    rd (CalcAutoPenalty env2 s).m_eps k = rd (CalcAutoPenalty env s).m_eps k * (c ^ 2 / c ^ 3) := by
  have hfix2 : env2.ReadsElementsOnly := by
    intro a b el hab
    rw [hA, hA, hK, hK, (hfix a b el hab).1, (hfix a b el hab).2]
    exact ⟨rfl, rfl⟩
  obtain ⟨_, _, _, h4⟩ := CalcAutoPenalty_elems_spec env hfix s.m_el 0 s
  obtain ⟨_, _, _, g4⟩ := CalcAutoPenalty_elems_spec env2 hfix2 s.m_el 0 s
  have hk2 : k < 0 + (s.m_el.map FESurfaceElement.GaussPoints).sum := by
    simpa [FEFacetSlidingSurface.npoints] using hk
  obtain ⟨el, he, hv⟩ := h4 k (Nat.zero_le k) hk2 hlen
  obtain ⟨el2, he2, hv2⟩ := g4 k (Nat.zero_le k) hk2 hlen
  have hel : el2 = el := by
    rw [he] at he2
    exact (Option.some.inj he2).symm
  subst hel
  have hc0 : c ≠ 0 := ne_of_gt hc
  have key : rd (CalcAutoPenalty env2 s).m_eps k = rd (CalcAutoPenalty env s).m_eps k / c := by
    unfold CalcAutoPenalty
    rw [hv, hv2, hA, hV, hK]
    by_cases hV0 : env.ElementVolume el2.m_nelem = 0
    · simp [hV0]
    · field_simp
      ring
  refine ⟨key, ?_⟩
  rw [key]
  field_simp
  ring

/-- C13, on the example: scaling the patch by 2 halves the penalty factor `1/2` of the point. -/
theorem auto_penalty_scale_covariance_witness :
    ((0 : ℚ) < 2 ∧ (exEnv none true).ReadsElementsOnly ∧
      (∀ t el, (exEnvScaled 2).FaceArea t el = 2 ^ 2 * (exEnv none true).FaceArea t el) ∧
      (∀ id, (exEnvScaled 2).ElementVolume id = 2 ^ 3 * (exEnv none true).ElementVolume id) ∧
      (∀ el t, (exEnvScaled 2).BulkModulus el t = (exEnv none true).BulkModulus el t) ∧
      0 < exContactSS.npoints ∧ 0 < exContactSS.m_eps.length) ∧
    rd (CalcAutoPenalty (exEnvScaled 2) exContactSS).m_eps 0 = 1/4 := by
  have h0 : rd (CalcAutoPenalty (exEnv none true) exContactSS).m_eps 0 = 1 * (1/2) / 1 := rfl
  refine ⟨⟨by norm_num, exEnv_ReadsElementsOnly none true, fun _ _ => rfl, fun _ => rfl,
    fun _ _ => rfl, by decide, by decide⟩, ?_⟩
  refine ((auto_penalty_scale_covariance (exEnv none true) (exEnvScaled 2) exContactSS 2 0
    (by norm_num) (exEnv_ReadsElementsOnly none true) (fun _ _ => rfl) (fun _ => rfl)
    (fun _ _ => rfl) (by decide) (by decide)).1).trans ?_
  rw [h0]
  norm_num

/-! ### `Init` -/

theorem resize_length {α : Type} [Inhabited α] (v : List α) (n : Nat) :
    (resize v n).length = n := by
  unfold resize
  simp only [List.length_append, List.length_take, List.length_replicate]
  omega

theorem gaussOffset_zero (els : List FESurfaceElement) : gaussOffset els 0 = 0 := by
  simp [gaussOffset]

theorem gaussOffset_succ (els : List FESurfaceElement) (i : Nat) (hi : i < els.length) :
    gaussOffset els (i + 1) = gaussOffset els i + (rd els i).GaussPoints := by
  unfold gaussOffset
  rw [List.take_succ, rd_eq_getElem _ _ hi, List.getElem?_eq_getElem hi]
  simp only [Option.toList, List.map_append, List.sum_append, List.map_cons, List.map_nil,
    List.sum_cons, List.sum_nil, add_zero]

theorem gaussOffset_length (els : List FESurfaceElement) :
    gaussOffset els els.length = (els.map FESurfaceElement.GaussPoints).sum := by
  simp [gaussOffset]

theorem gaussOffset_mono (els : List FESurfaceElement) (i j : Nat) (hij : i ≤ j)
    (hj : j ≤ els.length) : gaussOffset els i ≤ gaussOffset els j := by
  induction j with
  | zero =>
    have : i = 0 := by omega
    subst this; exact le_refl _
  | succ j ih =>
    by_cases h : i = j + 1
    · subst h; exact le_refl _
    · have := ih (by omega) (by omega)
      rw [gaussOffset_succ els j (by omega)]
      omega

/-- Every point below the offset of element `n` lies in the range of one of the elements
before `n`. -/
theorem gaussOffset_cover (els : List FESurfaceElement) (n : Nat) (hn : n ≤ els.length)
    (k : Nat) (hk : k < gaussOffset els n) :
    ∃ i, i < n ∧ gaussOffset els i ≤ k ∧ k < gaussOffset els i + (rd els i).GaussPoints := by
  induction n with
  | zero => rw [gaussOffset_zero] at hk; omega
  | succ n ih =>
    by_cases h : k < gaussOffset els n
    · obtain ⟨i, h1, h2, h3⟩ := ih (by omega) h
      exact ⟨i, by omega, h2, h3⟩
    · rw [gaussOffset_succ els n (by omega)] at hk
      exact ⟨n, by omega, by omega, hk⟩

/-- The ranges of two different elements do not meet. -/
theorem gaussOffset_disjoint (els : List FESurfaceElement) (i j : Nat) (hi : i < els.length)
    (hj : j < els.length) (k : Nat)
    (h1 : gaussOffset els i ≤ k) (h2 : k < gaussOffset els i + (rd els i).GaussPoints)
    (h3 : gaussOffset els j ≤ k) (h4 : k < gaussOffset els j + (rd els j).GaussPoints) :
    i = j := by
  by_contra hne
  rcases Nat.lt_or_gt_of_ne hne with h | h
  · have := gaussOffset_mono els (i + 1) j (by omega) (by omega)
    rw [gaussOffset_succ els i hi] at this
    omega
  · have := gaussOffset_mono els (j + 1) i (by omega) (by omega)
    rw [gaussOffset_succ els j hj] at this
    omega

/-- The counting loop of `Init`, run over the first `n` elements. -/
theorem Init_count_spec (s : FEFacetSlidingSurface) (nei0 : List Int) (n : Nat)
    (hn : n ≤ s.m_el.length) (hlen : nei0.length = s.m_el.length) :
    ((List.range n).foldl (Init_count s) (0, nei0)).1 = gaussOffset s.m_el n ∧
    ((List.range n).foldl (Init_count s) (0, nei0)).2.length = s.m_el.length ∧
    (∀ i, i < n →
      rd ((List.range n).foldl (Init_count s) (0, nei0)).2 i = (gaussOffset s.m_el i : Int)) := by
  induction n with
  | zero =>
    refine ⟨by simp [gaussOffset_zero], by simpa using hlen, ?_⟩
    intro i hi; omega
  | succ n ih =>
    obtain ⟨h1, h2, h3⟩ := ih (by omega)
    simp only [List.range_succ, List.foldl_append, List.foldl_cons, List.foldl_nil, Init_count]
    refine ⟨?_, ?_, ?_⟩
    · rw [h1, gaussOffset_succ s.m_el n (by omega)]
      rfl
    · rw [List.length_set]; exact h2
    · intro i hi
      by_cases hin : i = n
      · subst hin
        rw [rd_set_eq _ _ _ (by rw [h2]; omega), h1]
      · rw [rd_set_ne _ _ _ _ hin]
        exact h3 i (by omega)

/-- C18: after a successful `FEFacetSlidingSurface::Init` the offset `m_nei[i]` of every
element is the number of Gauss points of the elements before it, every per-point array has the
total number of Gauss points as its length, and the ranges
`[m_nei[i], m_nei[i] + GaussPoints(i))` lie inside that length, are pairwise disjoint and cover
it: every point index below the total lies in the range of exactly one element. -/
theorem init_offsets_partition (b : Bool) (s : FEFacetSlidingSurface)
    (hok : (s.Init b).1 = true) :
    (s.Init b).2.m_el = s.m_el ∧
    (∀ i, i < s.Elements → rd (s.Init b).2.m_nei i = (gaussOffset s.m_el i : Int)) ∧
    (s.Init b).2.Sized ∧
    (∀ i, i < s.Elements →
      rd (s.Init b).2.m_nei i + ((s.Element i).GaussPoints : Int) ≤ ((s.Init b).2.npoints : Int)) ∧
    (∀ (i j k : Nat), i < s.Elements → j < s.Elements →
      rd (s.Init b).2.m_nei i ≤ (k : Int) →
      (k : Int) < rd (s.Init b).2.m_nei i + ((s.Element i).GaussPoints : Int) →
      rd (s.Init b).2.m_nei j ≤ (k : Int) →
      (k : Int) < rd (s.Init b).2.m_nei j + ((s.Element j).GaussPoints : Int) → i = j) ∧
    (∀ k, k < (s.Init b).2.npoints →
      ∃ i, i < s.Elements ∧ rd (s.Init b).2.m_nei i ≤ (k : Int) ∧
        (k : Int) < rd (s.Init b).2.m_nei i + ((s.Element i).GaussPoints : Int)) := by
  have hb : b = true := by
    cases b
    · simp [FEFacetSlidingSurface.Init] at hok
    · rfl
  subst hb
  obtain ⟨c1, c2, c3⟩ := Init_count_spec s (resize s.m_nei s.Elements) s.m_el.length
    (le_refl _) (resize_length _ _)
  rw [gaussOffset_length] at c1
  simp only [FEFacetSlidingSurface.Elements] at c1 c2 c3
  have hnei : ∀ i, i < s.Elements →
      rd (s.Init true).2.m_nei i = (gaussOffset s.m_el i : Int) := by
    intro i hi
    simp only [FEFacetSlidingSurface.Init, FEFacetSlidingSurface.Elements]
    exact c3 i hi
  have hnp : (s.Init true).2.npoints = (s.m_el.map FESurfaceElement.GaussPoints).sum := by
    simp [FEFacetSlidingSurface.Init, FEFacetSlidingSurface.npoints]
  refine ⟨by simp [FEFacetSlidingSurface.Init], hnei, ?_, ?_, ?_, ?_⟩
  · unfold FEFacetSlidingSurface.Sized
    rw [hnp]
    simp only [FEFacetSlidingSurface.Init, FEFacetSlidingSurface.Elements]
    simp [resize_length, c1]
  · intro i hi
    rw [hnei i hi, hnp, ← gaussOffset_length]
    have := gaussOffset_mono s.m_el (i + 1) s.m_el.length hi (le_refl _)
    rw [gaussOffset_succ s.m_el i hi] at this
    unfold FEFacetSlidingSurface.Element
    exact_mod_cast this
  · intro i j k hi hj h1 h2 h3 h4
    rw [hnei i hi] at h1 h2
    rw [hnei j hj] at h3 h4
    unfold FEFacetSlidingSurface.Element at h2 h4
    exact gaussOffset_disjoint s.m_el i j hi hj k (by exact_mod_cast h1) (by exact_mod_cast h2)
      (by exact_mod_cast h3) (by exact_mod_cast h4)
  · intro k hk
    rw [hnp, ← gaussOffset_length] at hk
    obtain ⟨i, h1, h2, h3⟩ := gaussOffset_cover s.m_el s.m_el.length (le_refl _) k hk
    refine ⟨i, h1, ?_, ?_⟩
    · rw [hnei i h1]; exact_mod_cast h2
    · rw [hnei i h1]
      unfold FEFacetSlidingSurface.Element
      exact_mod_cast h3

/-- C18, on the example: the master surface has two faces with one Gauss point each; after
`Init` the offsets are 0 and 1 and the arrays have length 2. -/
theorem init_offsets_partition_witness :
    (exMS.Init true).1 = true ∧ (exMS.Init true).2.m_nei = [0, 1] ∧
    (exMS.Init true).2.m_Lm.length = 2 ∧ (exMS.Init true).2.Sized :=
  ⟨rfl, rfl, rfl, (init_offsets_partition true exMS rfl).2.2.1⟩

/-! ### `Serialize` -/

/-- What loading restores: the seven vectors of the saved surface `s`, in a surface that keeps
the elements and the face references of the surface `t` that is loaded into. -/
theorem Serialize_surface_save (s : FEFacetSlidingSurface) (d : List DumpItem) :
    s.Serialize ⟨true, d⟩ = some (s, ⟨true, d ++
      [DumpItem.doubles s.m_gap, DumpItem.vec3ds s.m_nu, DumpItem.vec2ds s.m_rs,
       DumpItem.doubles s.m_Lm, DumpItem.ints s.m_nei, DumpItem.doubles s.m_eps,
       DumpItem.doubles s.m_Ln]⟩) := by
  simp [FEFacetSlidingSurface.Serialize]

theorem Serialize_surface_load (s t : FEFacetSlidingSurface) (rest : List DumpItem) :
    t.Serialize ⟨false,
      [DumpItem.doubles s.m_gap, DumpItem.vec3ds s.m_nu, DumpItem.vec2ds s.m_rs,
       DumpItem.doubles s.m_Lm, DumpItem.ints s.m_nei, DumpItem.doubles s.m_eps,
       DumpItem.doubles s.m_Ln] ++ rest⟩
      = some ({ t with m_gap := s.m_gap, m_nu := s.m_nu, m_rs := s.m_rs, m_Lm := s.m_Lm,
                       m_nei := s.m_nei, m_eps := s.m_eps, m_Ln := s.m_Ln }, ⟨false, rest⟩) := by
  simp [FEFacetSlidingSurface.Serialize]

theorem roundTrip_eq (ci fresh : FEFacet2FacetSliding) :
    roundTrip ci fresh = some
      { fresh with
        m_ms := { fresh.m_ms with m_gap := ci.m_ms.m_gap, m_nu := ci.m_ms.m_nu,
                                  m_rs := ci.m_ms.m_rs, m_Lm := ci.m_ms.m_Lm,
                                  m_nei := ci.m_ms.m_nei, m_eps := ci.m_ms.m_eps,
                                  m_Ln := ci.m_ms.m_Ln }
        m_ss := { fresh.m_ss with m_gap := ci.m_ss.m_gap, m_nu := ci.m_ss.m_nu,
                                  m_rs := ci.m_ss.m_rs, m_Lm := ci.m_ss.m_Lm,
                                  m_nei := ci.m_ss.m_nei, m_eps := ci.m_ss.m_eps,
                                  m_Ln := ci.m_ss.m_Ln } } := by
  unfold roundTrip Serialize
  rw [Serialize_surface_save]
  dsimp only
  rw [Serialize_surface_save]
  dsimp only
  simp only [List.nil_append, Serialize_surface_load]
  have := Serialize_surface_load ci.m_ss fresh.m_ss []
  rw [List.append_nil] at this
  rw [this]

theorem rd_replicate_none (n k : Nat) :
    rd (List.replicate n (none : Option FESurfaceElement)) k = none := by
  unfold rd
  rw [List.getD_eq_getElem?_getD]
  by_cases h : k < n
  · simp [List.getElem?_replicate, h]
  · simp [List.getElem?_replicate, h]
    rfl

/-- A surface is left by a successful `Init` without face references. -/
theorem Init_surface_pme (b : Bool) (s : FEFacetSlidingSurface) (hok : (s.Init b).1 = true)
    (k : Nat) : rd (s.Init b).2.m_pme k = none := by
  cases b
  · simp [FEFacetSlidingSurface.Init] at hok
  · simp [FEFacetSlidingSurface.Init, rd_replicate_none]

theorem Init_pme (bs bm : Bool) (ci : FEFacet2FacetSliding) (hok : (Init bs bm ci).1 = true)
    (k : Nat) :
    rd (Init bs bm ci).2.m_ss.m_pme k = none ∧ rd (Init bs bm ci).2.m_ms.m_pme k = none := by
  unfold Init at hok ⊢
  dsimp only at hok ⊢
  by_cases h1 : (ci.m_ss.Init bs).1 = false
  · simp [h1] at hok
  · by_cases h2 : (ci.m_ms.Init bm).1 = false
    · simp [h1, h2] at hok
    · simp only [h1, h2, if_false]
      exact ⟨Init_surface_pme bs ci.m_ss (by simpa using h1) k,
        Init_surface_pme bm ci.m_ms (by simpa using h2) k⟩

/-- A surface without face references contributes nothing in `ContactForces`. -/
theorem ContactForces_no_faces (env : Env) (m_epsn : ℚ) (ss ms : FEFacetSlidingSurface)
    (hnull : ∀ k, rd ss.m_pme k = none) (els : List FESurfaceElement) (n : Nat)
    (R : List (Assembly (List ℚ))) :
    (elemLoop (ContactForces_point env m_epsn ss ms) els n R).2 = R := by
  exact elemLoop_inv (fun _ (st : List (Assembly (List ℚ))) => st = R)
    (ContactForces_point env m_epsn ss ms)
    (by
      intro se j k st hst
      unfold ContactForces_point
      rw [hnull k]
      exact hst)
    els n R rfl

/-- An interface without face references contributes nothing in `ContactForces`. -/
theorem ContactForces_nothing (env : Env) (r : FEFacet2FacetSliding)
    (h1 : ∀ k, rd r.m_ss.m_pme k = none) (h2 : ∀ k, rd r.m_ms.m_pme k = none) :
    (ContactForces env r).2 = [] := by
  unfold ContactForces
  dsimp only
  rw [ContactForces_no_faces env _ _ _ h1]
  split
  · rw [ContactForces_no_faces env _ _ _ h2]
  · rfl

/-- C17, as the code has it: saving an interface and loading the stream into a freshly
initialised interface succeeds and restores, for both surfaces, the gaps, normals, projection
coordinates, multipliers, element offsets, penalty factors and net tractions. The face
references `m_pme` are not part of the stream: every point of the restored interface has a
null face reference, and `ContactForces` on the restored interface assembles nothing. -/
theorem serialize_restores_all_but_faces (env : Env) (bs bm : Bool)
    (ci ci0 : FEFacet2FacetSliding) (hinit : (Init bs bm ci0).1 = true) :
    ∃ r, roundTrip ci (Init bs bm ci0).2 = some r ∧
      (r.m_ss.m_gap = ci.m_ss.m_gap ∧ r.m_ss.m_nu = ci.m_ss.m_nu ∧ r.m_ss.m_rs = ci.m_ss.m_rs ∧
        r.m_ss.m_Lm = ci.m_ss.m_Lm ∧ r.m_ss.m_nei = ci.m_ss.m_nei ∧
        r.m_ss.m_eps = ci.m_ss.m_eps ∧ r.m_ss.m_Ln = ci.m_ss.m_Ln) ∧
      (r.m_ms.m_gap = ci.m_ms.m_gap ∧ r.m_ms.m_nu = ci.m_ms.m_nu ∧ r.m_ms.m_rs = ci.m_ms.m_rs ∧
        r.m_ms.m_Lm = ci.m_ms.m_Lm ∧ r.m_ms.m_nei = ci.m_ms.m_nei ∧
        r.m_ms.m_eps = ci.m_ms.m_eps ∧ r.m_ms.m_Ln = ci.m_ms.m_Ln) ∧
      (∀ k, rd r.m_ss.m_pme k = none ∧ rd r.m_ms.m_pme k = none) ∧
      (ContactForces env r).2 = [] := by
  refine ⟨_, roundTrip_eq ci (Init bs bm ci0).2, ⟨rfl, rfl, rfl, rfl, rfl, rfl, rfl⟩,
    ⟨rfl, rfl, rfl, rfl, rfl, rfl, rfl⟩, fun k => Init_pme bs bm ci0 hinit k, ?_⟩
  exact ContactForces_nothing env _ (fun k => (Init_pme bs bm ci0 hinit k).1)
    (fun k => (Init_pme bs bm ci0 hinit k).2)

/-- C17, on the example: the multiplier 5 of the contact point is restored. -/
theorem serialize_restores_all_but_faces_witness :
    (Init true true (exInterface exSS exMS)).1 = true ∧
    ∃ r, roundTrip (exInterface exContactSS exMS) (Init true true (exInterface exSS exMS)).2
        = some r ∧ r.m_ss.m_Lm = [5] ∧ (ContactForces (exEnv none true) r).2 = [] := by
  refine ⟨rfl, ?_⟩
  obtain ⟨r, h1, h2, _, _, h5⟩ := serialize_restores_all_but_faces (exEnv none true) true true
    (exInterface exContactSS exMS) (exInterface exSS exMS) rfl
  exact ⟨r, h1, h2.2.2.2.1, h5⟩

/-- C17 as stated fails: the point of the example projects onto the master face and
`ContactForces` assembles one contribution for it; after saving and loading into a freshly
initialised interface the face reference of the point is null and `ContactForces` assembles
none. -/
theorem serialize_loses_face_reference :
    rd (exInterface exContactSS exMS).m_ss.m_pme 0 = some exMasterFace ∧
    ((ContactForces (exEnv none true) (exInterface exContactSS exMS)).2).length = 1 ∧
    (roundTrip (exInterface exContactSS exMS) (Init true true (exInterface exSS exMS)).2).map
      (fun r => rd r.m_ss.m_pme 0) = some none ∧
    (roundTrip (exInterface exContactSS exMS) (Init true true (exInterface exSS exMS)).2).map
      (fun r => ((ContactForces (exEnv none true) r).2).length) = some 0 :=
  ⟨rfl, rfl, rfl, rfl⟩

/-! ### `FEShellElement::defgrad` -/

/-- C20: `FEShellElement::defgrad` writes the deformation gradient it computed to `F`; with
`V` the determinant of that matrix, it returns `V` when `V > 0` and throws
`NegativeJacobian`, carrying the element ID, the integration point and `V`, when `V <= 0`, in
particular when `V = 0`. -/
theorem defgrad_returns_or_throws (det : mat3d → ℚ) (el : FEShellElement) (n : Nat) :
    (el.defgrad det n).1 = el.defgrad_F n ∧
    (0 < det (el.defgrad_F n) →
      (el.defgrad det n).2 = Except.ok (det (el.defgrad_F n))) ∧
    (det (el.defgrad_F n) ≤ 0 →
      (el.defgrad det n).2 = Except.error ⟨el.m_nID, (n : Int), det (el.defgrad_F n)⟩) ∧
    (det (el.defgrad_F n) = 0 →
      (el.defgrad det n).2 = Except.error ⟨el.m_nID, (n : Int), 0⟩) := by
  unfold FEShellElement.defgrad
  dsimp only
  refine ⟨?_, ?_, ?_, ?_⟩
  · split <;> rfl
  · intro h
    rw [if_neg (not_le.mpr h)]
  · intro h
    rw [if_pos h]
  · intro h
    rw [if_pos (le_of_eq h), h]

/-- C20, on the example: the deformation gradient of the one-node shell element has
determinant 0, and `defgrad` throws. -/
theorem defgrad_returns_or_throws_witness :
    exDet (exShell.defgrad_F 0) = 0 ∧
    (exShell.defgrad exDet 0).2 = Except.error ⟨7, 0, 0⟩ := by
  have h : exDet (exShell.defgrad_F 0) = 0 := by
    simp [exDet, FEShellElement.defgrad_F, FEShellElement.defgrad_node, exShell, rd,
      mat3d.zero, List.range, List.range.loop]
  exact ⟨h, (defgrad_returns_or_throws exDet exShell 0).2.2.2 h⟩

/-! ### `FEFluidDomain3D::Update` -/

theorem stressesAttempted_succ (env : FluidEnv) (dom : FEFluidDomain3D) (n : Nat) :
    stressesAttempted env dom (n + 1)
      = (FEFluidDomain3D.UpdateElementStress env (stressesAttempted env dom n) n env.m_dt).1 := by
  simp [stressesAttempted, List.range_succ, List.foldl_append]

/-- One iteration of the loop of `Update`: the element is updated, and the flag is set when
the call threw. -/
theorem Update_element_spec (env : FluidEnv) (p : FEFluidDomain3D × Bool) (i : Nat) :
    (FEFluidDomain3D.Update_element env p i).1
      = (FEFluidDomain3D.UpdateElementStress env p.1 i env.m_dt).1 ∧
    ((FEFluidDomain3D.Update_element env p i).2 = true ↔
      (p.2 = true ∨ (FEFluidDomain3D.UpdateElementStress env p.1 i env.m_dt).2 ≠ none)) := by
  unfold FEFluidDomain3D.Update_element
  cases hr : FEFluidDomain3D.UpdateElementStress env p.1 i env.m_dt with
  | mk d e =>
    cases e with
    | none => simp
    | some e => simp

/-- The loop of `Update` over the first `n` elements: every element is updated in turn, and
the flag is set exactly when one of the calls threw. -/
theorem Update_loop_spec (env : FluidEnv) (dom : FEFluidDomain3D) (n : Nat) :
    ((List.range n).foldl (FEFluidDomain3D.Update_element env) (dom, false)).1
      = stressesAttempted env dom n ∧
    (((List.range n).foldl (FEFluidDomain3D.Update_element env) (dom, false)).2 = true ↔
      ∃ i, i < n ∧ (FEFluidDomain3D.UpdateElementStress env (stressesAttempted env dom i) i
        env.m_dt).2 ≠ none) := by
  induction n with
  | zero => simp [stressesAttempted]
  | succ n ih =>
    obtain ⟨h1, h2⟩ := ih
    simp only [List.range_succ, List.foldl_append, List.foldl_cons, List.foldl_nil]
    obtain ⟨e1, e2⟩ := Update_element_spec env
      ((List.range n).foldl (FEFluidDomain3D.Update_element env) (dom, false)) n
    rw [h1] at e1 e2
    refine ⟨by rw [e1, stressesAttempted_succ], ?_⟩
    rw [e2, h2]
    constructor
    · rintro (⟨i, hi, hne⟩ | hne)
      · exact ⟨i, by omega, hne⟩
      · exact ⟨n, by omega, hne⟩
    · rintro ⟨i, hi, hne⟩
      by_cases hin : i = n
      · subst hin
        exact Or.inr hne
      · exact Or.inl ⟨i, by omega, hne⟩

/-- C19: `FEFluidDomain3D::Update` executes `UpdateElementStress` for every element of the
domain, also after one of the calls has thrown; a `NegativeJacobian` never leaves the
function; `DoRunningRestart` is thrown, after the loop, if and only if at least one of the
calls threw `NegativeJacobian`, and when none did the function returns normally. -/
theorem update_collects_negative_jacobians (env : FluidEnv) (dom : FEFluidDomain3D) :
    (FEFluidDomain3D.Update env dom).1 = stressesAttempted env dom dom.m_Elem.length ∧
    ((FEFluidDomain3D.Update env dom).2 = some FEException.doRunningRestart ↔
      ∃ i, i < dom.m_Elem.length ∧
        (FEFluidDomain3D.UpdateElementStress env (stressesAttempted env dom i) i
          env.m_dt).2 ≠ none) ∧
    ((∀ i, i < dom.m_Elem.length →
        (FEFluidDomain3D.UpdateElementStress env (stressesAttempted env dom i) i
          env.m_dt).2 = none) →
      (FEFluidDomain3D.Update env dom).2 = none) ∧
    (∀ e, (FEFluidDomain3D.Update env dom).2 ≠ some (FEException.negativeJacobian e)) := by
  obtain ⟨h1, h2⟩ := Update_loop_spec env dom dom.m_Elem.length
  unfold FEFluidDomain3D.Update
  dsimp only
  by_cases hb : ((List.range dom.m_Elem.length).foldl (FEFluidDomain3D.Update_element env)
      (dom, false)).2 = true
  · rw [if_pos hb]
    refine ⟨h1, ?_, ?_, ?_⟩
    · exact ⟨fun _ => h2.mp hb, fun _ => rfl⟩
    · intro hall
      obtain ⟨i, hi, hne⟩ := h2.mp hb
      exact absurd (hall i hi) hne
    · intro e h
      cases h
  · rw [if_neg hb]
    refine ⟨h1, ?_, ?_, ?_⟩
    · constructor
      · intro h; cases h
      · intro h; exact absurd (h2.mpr h) hb
    · intro _; rfl
    · intro e h
      cases h

/-- C19, on the example: the first of the two elements throws `NegativeJacobian`; the second
element is updated all the same (its velocity gradient is the identity afterwards) and
`Update` throws `DoRunningRestart`. -/
theorem update_collects_negative_jacobians_witness :
    (FEFluidDomain3D.UpdateElementStress exFluidEnv exFluidDomain 0 exFluidEnv.m_dt).2
      = some ⟨0, 0, -1⟩ ∧
    (rd (rd (FEFluidDomain3D.Update exFluidEnv exFluidDomain).1.m_Elem 1).m_State 0).m_L
      = ⟨1, 0, 0, 0, 1, 0, 0, 0, 1⟩ ∧
    (FEFluidDomain3D.Update exFluidEnv exFluidDomain).2 = some FEException.doRunningRestart := by
  have h0 : (FEFluidDomain3D.UpdateElementStress exFluidEnv exFluidDomain 0 exFluidEnv.m_dt).2
      = some ⟨0, 0, -1⟩ := rfl
  refine ⟨h0, rfl, ?_⟩
  refine (update_collects_negative_jacobians exFluidEnv exFluidDomain).2.1.mpr ⟨0, by decide, ?_⟩
  have hs : stressesAttempted exFluidEnv exFluidDomain 0 = exFluidDomain := rfl
  rw [hs, h0]
  simp

/-! ### Further properties of `Augment` and of the insertion buffer -/

/-- C25: with augmented-Lagrangian enforcement disabled (`m_blaugon` false), `Augment(naug)`
returns true for every `naug` and changes nothing: the interface (all multipliers, gaps and
penalty factors of both surfaces) and the statics (the stored previous gap norm) are those
before the call. -/
theorem augment_disabled_is_identity (env : Env) (g : Statics) (ci : FEFacet2FacetSliding)
    (naug : Int) (hoff : ci.m_blaugon = false) :
    Augment env g ci naug = (true, g, ci) ∧
    (Augment env g ci naug).1 = true ∧
    (Augment env g ci naug).2.1.Augment_normg0 = g.Augment_normg0 ∧
    (Augment env g ci naug).2.2.m_ss.m_Lm = ci.m_ss.m_Lm ∧
    (Augment env g ci naug).2.2.m_ss.m_gap = ci.m_ss.m_gap ∧
    (Augment env g ci naug).2.2.m_ss.m_eps = ci.m_ss.m_eps ∧
    (Augment env g ci naug).2.2.m_ms.m_Lm = ci.m_ms.m_Lm ∧
    (Augment env g ci naug).2.2.m_ms.m_gap = ci.m_ms.m_gap ∧
    (Augment env g ci naug).2.2.m_ms.m_eps = ci.m_ms.m_eps := by
  have h : Augment env g ci naug = (true, g, ci) := by
    unfold Augment
    simp [hoff]
  rw [h]
  exact ⟨rfl, rfl, rfl, rfl, rfl, rfl, rfl, rfl, rfl⟩

/-- C25, on the example: the interface of the example has augmentation disabled; the call
returns true and the multiplier 5 and the stored gap norm are kept. -/
theorem augment_disabled_is_identity_witness :
    (exInterface exContactSS exMS).m_blaugon = false ∧
    (Augment (exEnv none true) ⟨true, 3⟩ (exInterface exContactSS exMS) 0).1 = true ∧
    (Augment (exEnv none true) ⟨true, 3⟩ (exInterface exContactSS exMS) 0).2.1.Augment_normg0
      = 3 ∧
    (Augment (exEnv none true) ⟨true, 3⟩ (exInterface exContactSS exMS) 0).2.2.m_ss.m_Lm = [5] :=
  ⟨rfl,
    (augment_disabled_is_identity (exEnv none true) ⟨true, 3⟩ (exInterface exContactSS exMS) 0
      rfl).2.1,
    (augment_disabled_is_identity (exEnv none true) ⟨true, 3⟩ (exInterface exContactSS exMS) 0
      rfl).2.2.1,
    (augment_disabled_is_identity (exEnv none true) ⟨true, 3⟩ (exInterface exContactSS exMS) 0
      rfl).2.2.2.1⟩

/-- The first order coefficient of a point out of contact, inside the buffer. -/
theorem ContactStiffness_dtn_buffer (env : Env) (eps Lm g dxtol : ℚ)
    (hout : Lm + eps * g < 0) (hg : g < 0) (hd : 0 < dxtol) :
    ContactStiffness_dtn env eps Lm g dxtol
      = if -dxtol ≤ g then eps * (1 + g / dxtol) else 0 := by
  unfold ContactStiffness_dtn HEAVYSIDE
  have h1 : ¬ 0 < Lm + eps * g := not_lt.mpr (le_of_lt hout)
  have h2 : dxtol ≠ 0 := ne_of_gt hd
  have h3 : ¬ dxtol < 0 := not_lt.mpr (le_of_lt hd)
  simp only [h1, if_false, mul_zero]
  have h4 : (0 : ℚ) < 1 / 10000000 := by norm_num
  simp only [h4, hg, h2, ne_eq, not_false_eq_true, and_self, if_true, h3, if_false]
  by_cases h5 : -dxtol ≤ g
  · have : -g ≤ dxtol := by linarith
    simp [h5, this]
  · have : ¬ -g ≤ dxtol := by
      intro h; exact h5 (by linarith)
    simp [h5, this]

/-- C23: for a point out of contact (`Lm + eps*g < 0`, gated coefficient 0) with `g < 0` and a
positive buffer width `dxtol`, the first order coefficient is `eps*(1 + g/dxtol)` when
`-dxtol <= g` and 0 when `g < -dxtol`; for `eps >= 0` it lies between 0 and `eps`, is 0 at
`g = -dxtol` and does not decrease when `g` grows (inside the same regime). The buffer leaves
the gated coefficient as it is when `g >= 0` or when the gated coefficient is at least `1e-7`.
In `ContactStiffness` the width is `dxtol = R*m_dxtol`. -/
theorem insertion_buffer_coefficient (env : Env) (eps Lm g dxtol : ℚ)
    (hout : Lm + eps * g < 0) (hg : g < 0) (hd : 0 < dxtol) :
    eps * HEAVYSIDE (Lm + eps * g) = 0 ∧
    (-dxtol ≤ g → ContactStiffness_dtn env eps Lm g dxtol = eps * (1 + g / dxtol)) ∧
    (g < -dxtol → ContactStiffness_dtn env eps Lm g dxtol = 0) ∧
    (0 ≤ eps → 0 ≤ ContactStiffness_dtn env eps Lm g dxtol ∧
      ContactStiffness_dtn env eps Lm g dxtol ≤ eps) ∧
    (g = -dxtol → ContactStiffness_dtn env eps Lm g dxtol = 0) ∧
    (∀ g2 : ℚ, 0 ≤ eps → g ≤ g2 → g2 < 0 → Lm + eps * g2 < 0 →
      ContactStiffness_dtn env eps Lm g dxtol ≤ ContactStiffness_dtn env eps Lm g2 dxtol) ∧
    (∀ Lm2 g2 dxtol2 : ℚ, (0 ≤ g2 ∨ 1 / 10000000 ≤ eps * HEAVYSIDE (Lm2 + eps * g2)) →
      ContactStiffness_dtn env eps Lm2 g2 dxtol2 = eps * HEAVYSIDE (Lm2 + eps * g2)) := by
  have hb := ContactStiffness_dtn_buffer env eps Lm g dxtol hout hg hd
  have hfrac : g / dxtol < 0 := div_neg_of_neg_of_pos hg hd
  refine ⟨?_, ?_, ?_, ?_, ?_, ?_, ?_⟩
  · unfold HEAVYSIDE
    simp [not_lt.mpr (le_of_lt hout)]
  · intro h; rw [hb, if_pos h]
  · intro h; rw [hb, if_neg (not_le.mpr h)]
  · intro he
    rw [hb]
    by_cases h : -dxtol ≤ g
    · rw [if_pos h]
      have h1 : -1 ≤ g / dxtol := by
        rw [le_div_iff₀ hd]; linarith
      constructor
      · exact mul_nonneg he (by linarith)
      · nlinarith
    · rw [if_neg h]
      exact ⟨le_refl 0, he⟩
  · intro h
    rw [hb, if_pos (le_of_eq h.symm), h]
    have : -dxtol / dxtol = -1 := by
      rw [neg_div, div_self (ne_of_gt hd)]
    rw [this]; ring
  · intro g2 he h12 hg2 hout2
    rw [hb, ContactStiffness_dtn_buffer env eps Lm g2 dxtol hout2 hg2 hd]
    by_cases h : -dxtol ≤ g
    · have h2 : -dxtol ≤ g2 := le_trans h h12
      rw [if_pos h, if_pos h2]
      have : g / dxtol ≤ g2 / dxtol := div_le_div_of_nonneg_right h12 (le_of_lt hd)
      nlinarith
    · rw [if_neg h]
      by_cases h2 : -dxtol ≤ g2
      · rw [if_pos h2]
        have h1 : -1 ≤ g2 / dxtol := by
          rw [le_div_iff₀ hd]; linarith
        exact mul_nonneg he (by linarith)
      · rw [if_neg h2]
  · intro Lm2 g2 dxtol2 h
    unfold ContactStiffness_dtn
    dsimp only
    rcases h with h | h
    · have : ¬ g2 < 0 := not_lt.mpr h
      simp [this]
    · have : ¬ (eps * HEAVYSIDE (Lm2 + eps * g2) < 1 / 10000000 ∧ g2 < 0 ∧ dxtol2 ≠ 0) :=
        fun h3 => not_lt.mpr h h3.1
      rw [if_neg this]

/-- C23, on the example: sphere radius 1 and `m_dxtol = 1/2` give the width 1/2; a point with
penalty 1, multiplier 0 and gap -1/4 is out of contact and gets half the penalty. -/
theorem insertion_buffer_coefficient_witness :
    (0 : ℚ) + 1 * (-(1 / 4)) < 0 ∧ (-(1 / 4) : ℚ) < 0 ∧
    0 < (exEnv none true).radius * (1 / 2) ∧
    ContactStiffness_dtn (exEnv none true) 1 0 (-(1 / 4)) ((exEnv none true).radius * (1 / 2))
      = 1 / 2 := by
  have hr : (exEnv none true).radius = 1 := rfl
  have h1 : (0 : ℚ) + 1 * (-(1 / 4)) < 0 := by norm_num
  have h2 : (-(1 / 4) : ℚ) < 0 := by norm_num
  have h3 : 0 < (exEnv none true).radius * (1 / 2) := by rw [hr]; norm_num
  refine ⟨h1, h2, h3, ?_⟩
  refine ((insertion_buffer_coefficient (exEnv none true) 1 0 (-(1 / 4))
    ((exEnv none true).radius * (1 / 2)) h1 h2 h3).2.1 ?_).trans ?_
  · rw [hr]; norm_num
  · rw [hr]; norm_num

/-! ### The first augmentation round -/

theorem positiveGaps_sq_nonneg (s : FEFacetSlidingSurface) :
    0 ≤ ((positiveGaps s).map fun i => (rd s.m_gap i) ^ 2).sum := by
  apply List.sum_nonneg
  intro x hx
  obtain ⟨i, _, rfl⟩ := List.mem_map.mp hx
  positivity

theorem positiveGaps_sq_pos (s : FEFacetSlidingSurface) (i : Nat) (hi : i < s.m_Lm.length)
    (hg : 0 < rd s.m_gap i) :
    0 < ((positiveGaps s).map fun i => (rd s.m_gap i) ^ 2).sum ∧ 0 < (positiveGaps s).length := by
  have hmem : i ∈ positiveGaps s := by
    unfold positiveGaps
    simp [hi, hg]
  constructor
  · have h1 : (rd s.m_gap i) ^ 2 ∈ (positiveGaps s).map fun i => (rd s.m_gap i) ^ 2 :=
      List.mem_map.mpr ⟨i, hmem, rfl⟩
    have h2 : ∀ x ∈ (positiveGaps s).map (fun i => (rd s.m_gap i) ^ 2), (0 : ℚ) ≤ x := by
      intro x hx
      obtain ⟨j, _, rfl⟩ := List.mem_map.mp hx
      positivity
    have h3 := List.single_le_sum h2 _ h1
    have h4 : 0 < (rd s.m_gap i) ^ 2 := by positivity
    linarith
  · exact List.length_pos_of_mem hmem

/-- The root mean square of the positive gaps is positive when some point penetrates and the
square root is positive on positive numbers. -/
theorem positiveGapRms_pos (env : Env) (ci : FEFacet2FacetSliding)
    (hsqrt : ∀ x : ℚ, 0 < x → 0 < env.sqrt x)
    (hpen : (∃ i, i < ci.m_ss.m_Lm.length ∧ 0 < rd ci.m_ss.m_gap i) ∨
      (∃ i, i < ci.m_ms.m_Lm.length ∧ 0 < rd ci.m_ms.m_gap i)) :
    0 < positiveGapRms env ci := by
  unfold positiveGapRms
  apply hsqrt
  have hs := positiveGaps_sq_nonneg ci.m_ss
  have hm := positiveGaps_sq_nonneg ci.m_ms
  apply div_pos
  · rcases hpen with ⟨i, hi, hg⟩ | ⟨i, hi, hg⟩
    · have := (positiveGaps_sq_pos ci.m_ss i hi hg).1
      linarith
    · have := (positiveGaps_sq_pos ci.m_ms i hi hg).1
      linarith
  · have : 0 < max 1 ((positiveGaps ci.m_ss).length + (positiveGaps ci.m_ms).length) :=
      lt_of_lt_of_le Nat.one_pos (le_max_left _ _)
    exact_mod_cast this

theorem heron_pos (n : Nat) (q : ℚ) (hq : 0 < q) : 0 < heron n q := by
  induction n with
  | zero => simp [heron]
  | succ n ih =>
    simp only [heron]
    have : 0 < q / heron n q := div_pos hq ih
    linarith

theorem exEnv_sqrt_pos (found : Option FESurfaceElement) (inside : Bool) (x : ℚ) (hx : 0 < x) :
    0 < (exEnv found inside).sqrt x := by
  show 0 < (if x ≤ 0 then 0 else heron 4 x)
  rw [if_neg (not_le.mpr hx)]
  exact heron_pos 4 x hx

/-- C24: at round `naug = 0` the previous gap norm is taken as 0 whatever the stored value, so
the relative gap change `gnorm` is 1 whenever some integration point of either surface has a
positive gap (the square root being positive on positive numbers); hence with augmentation
enabled, `0 < m_gtol < 1` and `m_naugmax > 0`, `Augment(0)` returns false and stores the
clamped traction `MBRACKET(Lm + eps*gap)` in every multiplier of both surfaces. -/
theorem first_round_augments_on_penetration (env : Env) (g : Statics) (ci : FEFacet2FacetSliding)
    (hsqrt : ∀ x : ℚ, 0 < x → 0 < env.sqrt x)
    (hon : ci.m_blaugon = true) (hgtol : 0 < ci.m_gtol ∧ ci.m_gtol < 1)
    (hmax : 0 < ci.m_naugmax)
    (hpen : (∃ i, i < ci.m_ss.m_Lm.length ∧ 0 < rd ci.m_ss.m_gap i) ∨
      (∃ i, i < ci.m_ms.m_Lm.length ∧ 0 < rd ci.m_ms.m_gap i)) :
    Augment_normg0 g 0 = 0 ∧
    Augment_gnorm env g ci 0 = 1 ∧
    (Augment env g ci 0).1 = false ∧
    (∀ i, i < ci.m_ss.m_Lm.length → rd (Augment env g ci 0).2.2.m_ss.m_Lm i
      = MBRACKET (rd ci.m_ss.m_Lm i + ci.m_epsn * rd ci.m_ss.m_eps i * rd ci.m_ss.m_gap i)) ∧
    (∀ i, i < ci.m_ms.m_Lm.length → rd (Augment env g ci 0).2.2.m_ms.m_Lm i
      = MBRACKET (rd ci.m_ms.m_Lm i + ci.m_epsn * rd ci.m_ms.m_eps i * rd ci.m_ms.m_gap i)) := by
  have hpos := positiveGapRms_pos env ci hsqrt hpen
  have hgn : Augment_gnorm env g ci 0 = 1 := by
    rw [Augment_gnorm_eq]
    unfold relativeChange
    rw [if_neg (ne_of_gt hpos)]
    simp only [if_true, sub_zero]
    rw [abs_of_pos hpos, div_self (ne_of_gt hpos)]
  have hb : Augment_bconv ci.m_atol ci.m_gtol ci.m_naugmin ci.m_naugmax (Augment_lnorm env ci)
      (Augment_gnorm env g ci 0) 0 = false := by
    rw [← Bool.not_eq_true, Augment_bconv_iff, hgn]
    rintro (h | ⟨_, h | h, _⟩)
    · omega
    · linarith [hgtol.1]
    · linarith [hgtol.2]
  have hA : Augment env g ci 0
      = (false, { g with Augment_normg0 := Augment_normg1 env ci },
          { ci with m_ss := Augment_update ci.m_epsn ci.m_ss,
                    m_ms := Augment_update ci.m_epsn ci.m_ms }) := by
    unfold Augment
    simp only [hon, Bool.not_true, Bool.false_eq_true, if_false, hb, if_true]
  refine ⟨by simp [Augment_normg0], hgn, ?_, ?_, ?_⟩
  · rw [hA]
  · intro i hi
    rw [hA]
    exact (Augment_update_spec ci.m_epsn ci.m_ss).2.2.2 i hi
  · intro i hi
    rw [hA]
    exact (Augment_update_spec ci.m_epsn ci.m_ms).2.2.2 i hi

/-- C24, on the example: the point of the slave surface has gap 1, multiplier 0 and penalty 1,
the gap tolerance is 1/2 and the round ceiling 10; round 0 returns false, whatever the stored
norm (here 7), and the multiplier becomes 1. -/
theorem first_round_augments_on_penetration_witness :
    (∀ x : ℚ, 0 < x → 0 < (exEnv none true).sqrt x) ∧
    (exGapInterface 1).m_blaugon = true ∧
    (0 < (exGapInterface 1).m_gtol ∧ (exGapInterface 1).m_gtol < 1) ∧
    0 < (exGapInterface 1).m_naugmax ∧
    (0 < (exGapInterface 1).m_ss.m_Lm.length ∧ 0 < rd (exGapInterface 1).m_ss.m_gap 0) ∧
    (Augment (exEnv none true) ⟨true, 7⟩ (exGapInterface 1) 0).1 = false ∧
    rd (Augment (exEnv none true) ⟨true, 7⟩ (exGapInterface 1) 0).2.2.m_ss.m_Lm 0 = 1 := by
  have h1 : 0 < (exGapInterface 1).m_gtol ∧ (exGapInterface 1).m_gtol < 1 := by
    simp [exGapInterface]; norm_num
  have h2 : 0 < (exGapInterface 1).m_naugmax := by decide
  have h3 : 0 < (exGapInterface 1).m_ss.m_Lm.length ∧ 0 < rd (exGapInterface 1).m_ss.m_gap 0 := by
    simp [exGapInterface, exAugInterface, exInterface, exSS, exSurface, rd]
  have h := first_round_augments_on_penetration (exEnv none true) ⟨true, 7⟩ (exGapInterface 1)
    (exEnv_sqrt_pos none true) rfl h1 h2 (Or.inl ⟨0, h3⟩)
  refine ⟨exEnv_sqrt_pos none true, rfl, h1, h2, h3, h.2.2.1, ?_⟩
  refine (h.2.2.2.1 0 h3.1).trans ?_
  simp [exGapInterface, exAugInterface, exInterface, exSS, exSurface, rd, MBRACKET]

/-! ### Symmetry of the contact stiffness -/

/-- A square table built by two nested loops over `k, l < n` from a symmetric expression is
symmetric, also where it is read outside its bounds. -/
theorem rd_table_symm (f : Nat → Nat → ℚ) (n : Nat) (hf : ∀ k l, f k l = f l k) (k l : Nat) :
    rd (rd ((List.range n).map fun k => (List.range n).map fun l => f k l) k) l
      = rd (rd ((List.range n).map fun k => (List.range n).map fun l => f k l) l) k := by
  rw [rd_map_range, rd_map_range]
  by_cases hk : k < n <;> by_cases hl : l < n
  · rw [if_pos hk, if_pos hl, rd_map_range, rd_map_range, if_pos hk, if_pos hl]
    exact hf k l
  · rw [if_pos hk, if_neg hl, rd_map_range, if_neg hl]
    show default = rd ([] : List ℚ) k
    rfl
  · rw [if_neg hk, if_pos hl, rd_map_range, if_neg hk]
    show rd ([] : List ℚ) l = default
    rfl
  · rw [if_neg hk, if_neg hl]
    show rd ([] : List ℚ) l = rd ([] : List ℚ) k
    rfl

/-- The matrix of higher order terms is symmetric. -/
theorem ContactStiffness_higher_symm (env : Env) (se me : FESurfaceElement) (j : Nat) (r s : ℚ)
    (nu : vec3d) (g tn knmult : ℚ) (Hs Hm N1 N2 : List ℚ) (k l : Nat) :
    rd (rd (ContactStiffness_higher env se me j r s nu g tn knmult Hs Hm N1 N2).2.2 k) l
      = rd (rd (ContactStiffness_higher env se me j r s nu g tn knmult Hs Hm N1 N2).2.2 l) k := by
  unfold ContactStiffness_higher
  dsimp only
  apply rd_table_symm
  intro a b
  ring

/-- Every execution of the loop body of `ContactStiffness` keeps the assembled matrices
symmetric. -/
theorem ContactStiffness_point_symm (env : Env) (m_epsn dxtol knmult : ℚ)
    (ss ms : FEFacetSlidingSurface) (se : FESurfaceElement) (j ni : Nat) (st : StiffState)
    (h : ∀ a ∈ st.K, ∀ k l : Nat, rd (rd a.val k) l = rd (rd a.val l) k) :
    ∀ a ∈ (ContactStiffness_point env m_epsn dxtol knmult ss ms se j ni st).K,
      ∀ k l : Nat, rd (rd a.val k) l = rd (rd a.val l) k := by
  unfold ContactStiffness_point
  cases hp : rd ss.m_pme ni with
  | none => exact h
  | some me =>
    dsimp only
    by_cases hk : knmult > 0
    · rw [if_pos hk]
      intro a ha k l
      rcases List.mem_append.mp ha with ha | ha
      · exact h a ha k l
      · rw [List.mem_singleton] at ha
        subst ha
        apply rd_table_symm
        intro x y
        rw [rd_table_symm _ _ (fun k l => by ring) x y, ContactStiffness_higher_symm]
    · rw [if_neg hk]
      intro a ha k l
      rcases List.mem_append.mp ha with ha | ha
      · exact h a ha k l
      · rw [List.mem_singleton] at ha
        subst ha
        apply rd_table_symm
        intro x y
        ring

/-- C29: every element matrix `ke` that `ContactStiffness` assembles is symmetric,
`ke[k][l] = ke[l][k]` for all `k`, `l`, in single-pass and in two-pass mode, with the first
order term only and with the higher order terms added, for any values of the gap, the traction,
the multiplier, the metric and the curvature (in exact arithmetic, also when `detA` is 0 and
`1/detA` is read as 0). -/
theorem contact_stiffness_symmetric (env : Env) (ci : FEFacet2FacetSliding)
    (a : Assembly (List (List ℚ))) (ha : a ∈ (ContactStiffness env ci).2) (k l : Nat) :
    rd (rd a.val k) l = rd (rd a.val l) k := by
  have key : ∀ (ss ms : FEFacetSlidingSurface) (st : StiffState),
      (∀ a ∈ st.K, ∀ k l : Nat, rd (rd a.val k) l = rd (rd a.val l) k) →
      ∀ a ∈ (elemLoop (ContactStiffness_point env ci.m_epsn (env.radius * ci.m_dxtol)
          (ContactStiffness_knmult ci.m_knmult env.m_nref) ss ms) ss.m_el 0 st).2.K,
        ∀ k l : Nat, rd (rd a.val k) l = rd (rd a.val l) k := by
    intro ss ms st h0
    exact elemLoop_inv (fun _ s => ∀ a ∈ s.K, ∀ k l : Nat, rd (rd a.val k) l = rd (rd a.val l) k)
      _ (fun se j n s hs => ContactStiffness_point_symm env _ _ _ ss ms se j n s hs) _ 0 st h0
  have h1 := key ci.m_ss ci.m_ms ⟨List.replicate (3 * env.MAX_NODES * 2) 0,
    List.replicate (3 * env.MAX_NODES * 2) 0, []⟩ (fun a ha => absurd ha (List.not_mem_nil a))
  unfold ContactStiffness at ha
  dsimp only at ha
  by_cases hb : ci.m_btwo_pass = true
  · rw [if_pos hb] at ha
    exact key ci.m_ms ci.m_ss _ h1 a ha k l
  · rw [if_neg hb] at ha
    exact h1 a ha k l

/-- C29, on the example: the point of the example is in contact and has the higher order terms
switched on (`m_knmult = 1`); one matrix is assembled and its entries `(0, 11)` and `(11, 0)`
agree. -/
theorem contact_stiffness_symmetric_witness :
    ∃ a, a ∈ (ContactStiffness (exEnv none true) (exInterface exContactSS exMS)).2 ∧
      rd (rd a.val 0) 11 = rd (rd a.val 11) 0 := by
  have hlen : 0 < (ContactStiffness (exEnv none true) (exInterface exContactSS exMS)).2.length := by
    decide!
  exact ⟨(ContactStiffness (exEnv none true) (exInterface exContactSS exMS)).2.get ⟨0, hlen⟩,
    List.get_mem _ _ _,
    contact_stiffness_symmetric (exEnv none true) (exInterface exContactSS exMS) _
      (List.get_mem _ _ _) 0 11⟩

/-! ### The contact forces of one integration point -/

theorem rd_of_length_le {α : Type} [Inhabited α] (l : List α) (i : Nat) (h : l.length ≤ i) :
    rd l i = default := by
  unfold rd
  rw [List.getD_eq_getElem?_getD, List.getElem?_eq_none h]
  rfl

theorem rd_replicate_zero (n k : Nat) : rd (List.replicate n (0 : ℚ)) k = 0 := by
  unfold rd
  rw [List.getD_eq_getElem?_getD]
  by_cases h : k < n
  · simp [List.getElem?_replicate, h]
  · simp [List.getElem?_replicate, h]
    rfl

/-- The function `CalcAutoPenalty` does not write the multipliers. -/
theorem CalcAutoPenalty_Lm (env : Env) (s : FEFacetSlidingSurface) :
    (CalcAutoPenalty env s).m_Lm = s.m_Lm := by
  have key : ∀ (els : List FESurfaceElement) (ni : Nat) (t : FEFacetSlidingSurface),
      (CalcAutoPenalty_elems env els ni t).2.m_Lm = t.m_Lm := by
    intro els
    induction els with
    | nil => intro ni t; rfl
    | cons el rest ih =>
      intro ni t
      simp only [CalcAutoPenalty_elems]
      rw [ih]
      refine gaussLoop_inv (fun _ (u : FEFacetSlidingSurface) => u.m_Lm = t.m_Lm) _ ?_ _ ni t rfl
      intro _ _ _ hu
      exact hu
  exact key s.m_el 0 s

/-- A surface is left by a successful `Init` with all multipliers 0. -/
theorem Init_surface_Lm (b : Bool) (s : FEFacetSlidingSurface) (hok : (s.Init b).1 = true)
    (k : Nat) : rd (s.Init b).2.m_Lm k = 0 := by
  cases b
  · simp [FEFacetSlidingSurface.Init] at hok
  · simp [FEFacetSlidingSurface.Init, rd_replicate_zero]

theorem Init_Lm (bs bm : Bool) (ci : FEFacet2FacetSliding) (hok : (Init bs bm ci).1 = true)
    (k : Nat) :
    rd (Init bs bm ci).2.m_ss.m_Lm k = 0 ∧ rd (Init bs bm ci).2.m_ms.m_Lm k = 0 := by
  unfold Init at hok ⊢
  dsimp only at hok ⊢
  by_cases h1 : (ci.m_ss.Init bs).1 = false
  · simp [h1] at hok
  · by_cases h2 : (ci.m_ms.Init bm).1 = false
    · simp [h1, h2] at hok
    · simp only [h1, h2, if_false]
      exact ⟨Init_surface_Lm bs ci.m_ss (by simpa using h1) k,
        Init_surface_Lm bm ci.m_ms (by simpa using h2) k⟩

/-- The function `ProjectSurface` keeps nonnegative multipliers nonnegative. -/
theorem ProjectSurface_Lm_nonneg (env : Env) (m_stol : ℚ) (ss ms : FEFacetSlidingSurface)
    (bsegup : Bool) (h : ∀ i, 0 ≤ rd ss.m_Lm i) (i : Nat) :
    0 ≤ rd (ProjectSurface env m_stol ss ms bsegup).m_Lm i := by
  rw [ProjectSurface_Lm]
  split
  · exact le_refl 0
  · exact h i

/-- The multiplier update of `Augment` leaves every multiplier nonnegative. -/
theorem Augment_update_nonneg (m_epsn : ℚ) (s : FEFacetSlidingSurface) (i : Nat) :
    0 ≤ rd (Augment_update m_epsn s).m_Lm i := by
  obtain ⟨_, _, hlen, hval⟩ := Augment_update_spec m_epsn s
  by_cases hi : i < s.m_Lm.length
  · rw [hval i hi]
    exact MBRACKET_nonneg _
  · rw [rd_of_length_le _ _ (by omega)]
    exact le_refl (0 : ℚ)

theorem CalcAutoPenalty_Lm_nonneg (env : Env) (s : FEFacetSlidingSurface)
    (h : ∀ i, 0 ≤ rd s.m_Lm i) (i : Nat) : 0 ≤ rd (CalcAutoPenalty env s).m_Lm i := by
  rw [CalcAutoPenalty_Lm]
  exact h i

theorem Activate_Lm_nonneg (env : Env) (ci : FEFacet2FacetSliding)
    (hs : ∀ i, 0 ≤ rd ci.m_ss.m_Lm i) (hm : ∀ i, 0 ≤ rd ci.m_ms.m_Lm i) :
    (∀ i, 0 ≤ rd (Activate env ci).m_ss.m_Lm i) ∧ (∀ i, 0 ≤ rd (Activate env ci).m_ms.m_Lm i) := by
  obtain ⟨nID, epsn, bautopen, blaugon, atol, btwo, gtol, nmin, nmax, knmult, stol, srad,
    dxtol, mu, epsf, nsegup, ss, ms⟩ := ci
  dsimp only at hs hm
  have hc := CalcAutoPenalty_Lm_nonneg env ss hs
  have p1 := ProjectSurface_Lm_nonneg env stol ss ms true hs
  have p2 := ProjectSurface_Lm_nonneg env stol (CalcAutoPenalty env ss) ms true hc
  have q1 := ProjectSurface_Lm_nonneg env stol ms (ProjectSurface env stol ss ms true) true hm
  have q2 := ProjectSurface_Lm_nonneg env stol ms
    (ProjectSurface env stol (CalcAutoPenalty env ss) ms true) true hm
  have q3 := CalcAutoPenalty_Lm_nonneg env _ q2
  unfold Activate
  cases bautopen <;> cases btwo <;>
    simp only [Bool.false_eq_true, if_true, if_false] <;> split <;>
    first
    | with_reducible exact ⟨p1, hm⟩
    | with_reducible exact ⟨p1, q1⟩
    | with_reducible exact ⟨p2, hm⟩
    | with_reducible exact ⟨p2, q3⟩

theorem Update_Lm_nonneg (env : Env) (g : Statics) (ci : FEFacet2FacetSliding) (niter : Int)
    (hs : ∀ i, 0 ≤ rd ci.m_ss.m_Lm i) (hm : ∀ i, 0 ≤ rd ci.m_ms.m_Lm i) :
    (∀ i, 0 ≤ rd (Update env g ci niter).2.m_ss.m_Lm i) ∧
    (∀ i, 0 ≤ rd (Update env g ci niter).2.m_ms.m_Lm i) := by
  unfold Update
  dsimp only
  rw [(UpdateContactPressures_frame _).1, (UpdateContactPressures_frame _).2.2.1]
  by_cases hb : ci.m_btwo_pass = true
  · simp only [hb, if_true]
    exact ⟨ProjectSurface_Lm_nonneg env _ _ _ _ hs, ProjectSurface_Lm_nonneg env _ _ _ _ hm⟩
  · simp only [hb, if_false]
    exact ⟨ProjectSurface_Lm_nonneg env _ _ _ _ hs, hm⟩

theorem Augment_Lm_nonneg (env : Env) (g : Statics) (ci : FEFacet2FacetSliding) (naug : Int)
    (hs : ∀ i, 0 ≤ rd ci.m_ss.m_Lm i) (hm : ∀ i, 0 ≤ rd ci.m_ms.m_Lm i) :
    (∀ i, 0 ≤ rd (Augment env g ci naug).2.2.m_ss.m_Lm i) ∧
    (∀ i, 0 ≤ rd (Augment env g ci naug).2.2.m_ms.m_Lm i) := by
  unfold Augment
  by_cases hon : ci.m_blaugon = true
  · simp only [hon, Bool.not_true, Bool.false_eq_true, if_false]
    split
    · exact ⟨Augment_update_nonneg _ _, Augment_update_nonneg _ _⟩
    · exact ⟨hs, hm⟩
  · simp only [hon, Bool.not_false, if_true]
    exact ⟨hs, hm⟩

/-- C26: in every state reachable from a successful `Init` by any sequence of `Activate`,
`Update`, `Augment`, `ContactForces` and `ContactStiffness` calls, every multiplier `m_Lm[i]`
of both surfaces is at least 0. -/
theorem multipliers_nonneg_in_reachable_states (ci : FEFacet2FacetSliding) (h : Reachable ci) :
    ∀ i, 0 ≤ rd ci.m_ss.m_Lm i ∧ 0 ≤ rd ci.m_ms.m_Lm i := by
  have key : (∀ i, 0 ≤ rd ci.m_ss.m_Lm i) ∧ (∀ i, 0 ≤ rd ci.m_ms.m_Lm i) := by
    induction h with
    | init bs bm c hok =>
      exact ⟨fun i => le_of_eq (Init_Lm bs bm c hok i).1.symm,
        fun i => le_of_eq (Init_Lm bs bm c hok i).2.symm⟩
    | activate env c _ ih => exact Activate_Lm_nonneg env c ih.1 ih.2
    | update env g c niter _ ih => exact Update_Lm_nonneg env g c niter ih.1 ih.2
    | augment env g c naug _ ih => exact Augment_Lm_nonneg env g c naug ih.1 ih.2
    | forces env c _ ih => exact ih
    | stiffness env c _ ih => exact ih
  exact fun i => ⟨key.1 i, key.2 i⟩

/-- C26, on the example: the interface of the example is initialised, activated, updated and
augmented; the multiplier of the point of the slave surface is not negative. -/
theorem multipliers_nonneg_in_reachable_states_witness :
    (Init true true (exAugInterface exContactSS)).1 = true ∧
    0 ≤ rd (Augment (exEnv none true) Statics.init
        (Update (exEnv (some exMasterFace) true) Statics.init
          (Activate (exEnv (some exMasterFace) true)
            (Init true true (exAugInterface exContactSS)).2) 1).2 0).2.2.m_ss.m_Lm 0 :=
  ⟨rfl, (multipliers_nonneg_in_reachable_states _
    (Reachable.augment (exEnv none true) Statics.init _ 0
      (Reachable.update (exEnv (some exMasterFace) true) Statics.init _ 1
        (Reachable.activate (exEnv (some exMasterFace) true) _
          (Reachable.init true true (exAugInterface exContactSS) rfl)))) 0).1⟩

/-! ### The arrays `N1` and `N2` of `ContactStiffness` on a mixed surface -/

/-- C28 fails on the code: on the slave surface with a 3-node face followed by a 4-node face,
both in contact with a 3-node face, `ContactStiffness` assembles the two matrices of the loop
states `exStiff1`, `exStiff2`. The point of the 3-node face leaves `-Hmr[0]*nu.z = 1` in
`N1[11]` and `-Hms[0]*nu.z = 1` in `N2[11]`, the `z` entries of its first opposing node. At the
point of the 4-node face index 11 is the `z` degree of freedom of slave node 3
(`11 < 3*nseln = 12`), and `N1[11]` and `N2[11]` are still 1 when the higher order terms are
computed. The entry `(11, 11)` of the matrix assembled for that point is `149/800`; with `N1`
and `N2` zeroed before the point it is `1/4`. -/
theorem stale_slave_entries_in_N1_N2 :
    ((ContactStiffness exMixedEnv exMixedInterface).2.map fun a => a.val)
      = ((exStiff2 exStiff1).K.map fun a => a.val) ∧
    (0 < ContactStiffness_knmult exMixedInterface.m_knmult exMixedEnv.m_nref ∧
      rd exMixedInterface.m_ss.m_pme 1 = some exMasterFace) ∧
    11 < 3 * (exQuadFace 1 [1, 6, 7, 2]).Nodes ∧
    (rd exStiff0.N1 11 = 0 ∧ rd exStiff0.N2 11 = 0) ∧
    (rd exStiff1.N1 11 = 1 ∧ rd exStiff1.N2 11 = 1) ∧
    (rd (exStiff2 exStiff1).N1 11 = 1 ∧ rd (exStiff2 exStiff1).N2 11 = 1) ∧
    rd (rd (rd ((exStiff2 exStiff1).K.map fun a => a.val) 1) 11) 11 = 149 / 800 ∧
    rd (rd (rd ((exStiff2 exStiff0).K.map fun a => a.val) 0) 11) 11 = 1 / 4 := by
  refine ⟨rfl, ?_⟩
  decide!

/-! ### The stored gap norm is shared by all interfaces -/

/-- C27 fails on the code: the gap norm of the previous round is kept in one function-level
static shared by all interface objects. The interface with gap 1 and gap tolerance 1/2 is
augmented at round 0, which returns false, stores the gap norm 1 and sets the multiplier to 1.
Round 1 on the resulting state returns true and keeps the multiplier when it follows directly
(relative gap change 0). When `Augment` runs on another interface object in between (one
without a positive gap, which stores the gap norm 0), round 1 on the same state of the first
interface compares with 0 instead of its own previous norm 1, returns false and sets the
multiplier to 2. -/
theorem augment_depends_on_other_interface :
    exAugRound0.1 = false ∧ exAugRound0.2.1.Augment_normg0 = 1 ∧
    exAugRound0.2.2.m_ss.m_Lm = [1] ∧
    (Augment (exEnv none true) exAugRound0.2.1 exAugRound0.2.2 1).1 = true ∧
    (Augment (exEnv none true) exAugRound0.2.1 exAugRound0.2.2 1).2.2.m_ss.m_Lm = [1] ∧
    exAugOther.2.1.Augment_normg0 = 0 ∧
    (Augment (exEnv none true) exAugOther.2.1 exAugRound0.2.2 1).1 = false ∧
    (Augment (exEnv none true) exAugOther.2.1 exAugRound0.2.2 1).2.2.m_ss.m_Lm = [2] := by
  decide!

/-! ### Placement of the coupling vector in `ElementMassMatrix` -/

/-- C30 fails on the code: for the one-node element with acceleration `m_at = (1, 2, 3)`, unit
density, Jacobian and weight, `Mv` is the identity and `mJ = (-1, -2, -3)`. Starting from the
zero matrix, `ElementMassMatrix` leaves `mJ.x` and `mJ.y` in column 3 of rows 0 and 1, but
adds `mJ.z` to column 2 of row 2 (entry `Mv(2,2) + mJ.z = -2`) and leaves column 3 of row 2 at
0; row 3 is untouched. `ElementBodyForceStiffness` on the same element, with the body force
`(1, 2, 3)`, puts all three components of its coupling vector in column 3. -/
theorem mass_matrix_z_coupling_misplaced :
    ElementMassMatrix_Mv exFluidDomain.m_btrans 1 1 1 (rd exMatrixElement.m_State 0) [1]
      [vec3d.zero] 0 0 = mat3d.diag 1 ∧
    ElementMassMatrix_mJ 1 1 (rd exMatrixElement.m_State 0) [1] 0 0 = ⟨-1, -2, -3⟩ ∧
    exFluidDomain.ElementMassMatrix exMatrixEnv exMatrixElement exZeroMatrix
      = [[1, 0, 0, -1], [0, 1, 0, -2], [0, 0, -2, 0], [0, 0, 0, 0]] ∧
    rd (rd (exFluidDomain.ElementMassMatrix exMatrixEnv exMatrixElement exZeroMatrix) 2) 3 = 0 ∧
    rd (rd (exFluidDomain.ElementMassMatrix exMatrixEnv exMatrixElement exZeroMatrix) 2) 2
      = 1 + -3 ∧
    FEFluidDomain3D.ElementBodyForceStiffness exMatrixEnv exMatrixElement exZeroMatrix
      = [[0, 0, 0, -1], [0, 0, 0, -2], [0, 0, 0, -3], [0, 0, 0, 0]] := by
  decide!

end FEBio
